import Mathlib

/-!
# Block-matching core of ITKFFT1D / ITKUltrasound: a verification development

Shallow embedding of

* `BoxSigmaSqrtNMinusOneCalculatorFunction` (`itkBoxSigmaSqrtNMinusOneImageFilter.h`),
* `MultiResolutionIterationDisplacementCalculatorCommand::Execute`
  (`itkBlockMatchingMultiResolutionIterationDisplacementCalculatorCommand.hxx`),
* `MetricImageFilter::SetFixedImageRegion`, `SetMovingImageRegion`,
  `GenerateOutputInformation`, `GenerateInputRequestedRegion` and
  `EnlargeOutputRequestedRegion`
  (`itkBlockMatchingMetricImageFilter.hxx`),
* the constructor and the setters of `MultiResolutionMinMaxSearchRegionImageSource`
  (`itkBlockMatchingMultiResolutionMinMaxSearchRegionImageSource.h`),
* `BeforeThreadedGenerateData`, `GetImageRegionSplitter`, `GenerateInputRequestedRegion`
  and `EnlargeOutputRequestedRegion` of the three 1D FFT filters
  (`itkFFT1DComplexToComplexImageFilter.hxx`, `itkForward1DFFTImageFilter.hxx`,
  `itkAnalyticSignalImageFilter.hxx`),
* `AnalyticSignalImageFilter::ThreadedGenerateData` (`itkAnalyticSignalImageFilter.hxx`).

The factor interpolation of the min-max search region source and the resampling rule
of `VectorResampleIdentityNeumannImageFilter` have no implementation among the sources
and are modelled from the text of the specification.

Conventions of the embedding.

* An image of template dimension `N` is indexed by `Fin N → ℤ`; a `for` loop over the
  axes `i < ImageDimension` is a function of `i : Fin N`.
* `long` / `unsigned long` index and size arithmetic is carried out in `ℤ` / `ℕ`.  The
  places where the source narrows or wraps are explicit: the `(int)` conversion of
  the radius in the corner offsets (`toInt`), the unsigned decrement `fixedSize[i]--`
  and the unsigned `GetNumberOfLevels() - 1` (`% 2 ^ 64`), and the `unsigned int` line
  size of the analytic signal filter (`toUInt`).
* A `double` is the rational number it stands for.  Where the source computes in
  `double` or in the accumulator type of the box filter, the rounding of every
  operation is explicit: `roundToDouble` is the rounding of IEEE binary64 (to nearest,
  ties to even), and the box filter takes the rounding of its accumulator type as the
  parameter `fl`, the identity standing for exact arithmetic.  `std::sqrt` is a
  parameter `sqrt : ℚ → ℚ`, and `none` stands for the NaN it returns on a negative
  argument.  The physical coordinates of `TransformIndexToPhysicalPoint` and the
  factors of the search region source are exact rationals.
* A member function returns an `Outcome`: the object as the call leaves it and the
  message of the exception raised, if any.  Smart pointers are `Option`s, `none` being
  the null pointer.
* Library routines that the sources call but do not contain (`ImageRegion::Crop`,
  `CornerOffsets`, `Math::Ceil`, the boundary-face calculator) are modelled or taken as
  parameters, as said at each definition.
-/

namespace itk

/-! ## Regions -/

/-- `IndexType` / `OffsetType`: one signed coordinate per axis. -/
abbrev IndexType (N : ℕ) := Fin N → ℤ

/-- `SizeType`: one unsigned extent per axis. -/
abbrev SizeType (N : ℕ) := Fin N → ℕ

/-- `ImageRegion`: a start index and a size. -/
structure ImageRegion (N : ℕ) where
  Index : IndexType N
  Size : SizeType N

namespace ImageRegion

variable {N : ℕ}

/-- The pixels of a region: `Index ≤ u < Index + Size` on every axis. -/
def IsInside (R : ImageRegion N) (u : IndexType N) : Prop :=
  ∀ i, R.Index i ≤ u i ∧ u i < R.Index i + (R.Size i : ℤ)

instance (R : ImageRegion N) (u : IndexType N) : Decidable (R.IsInside u) := by
  unfold IsInside; infer_instance

/-- The test `Can we crop?` of `ImageRegion::Crop`: on no axis does the region start at
or after the end of `other`, or end at or before the start of `other`. -/
def cropPossible (R other : ImageRegion N) : Bool :=
  decide (∀ i, ¬ (R.Index i ≥ other.Index i + (other.Size i : ℤ)) ∧
               ¬ (R.Index i + (R.Size i : ℤ) ≤ other.Index i))

/-- One axis of the cropping loop of `ImageRegion::Crop`: first the start index is
moved up to the start of `other` (the size shrinking by the same amount), then the
size is cut so that the region ends no later than `other`. -/
def cropAxis (idx : ℤ) (size : ℕ) (oidx : ℤ) (osize : ℕ) : ℤ × ℕ :=
  let idx1 := if idx < oidx then idx + (oidx - idx) else idx
  let size1 := if idx < oidx then size - (oidx - idx).toNat else size
  let size2 :=
    if idx1 + (size1 : ℤ) > oidx + (osize : ℤ)
    then size1 - (idx1 + (size1 : ℤ) - oidx - (osize : ℤ)).toNat
    else size1
  (idx1, size2)

/-- Modelled from the spec: `ImageRegion::Crop` belongs to the image library and is
not among the sources; the text says that cropping a region against another yields
the intersection or signals emptiness.  The result is the flag returned by `Crop` and
the region afterwards.  Cropping is possible when on every axis the region starts
before the end of `other` and ends after the start of `other`; the region is then cut
axis by axis to the common part.  When cropping is not possible the region is left as
it was.  A region of size zero on some axis that starts strictly inside `other` passes
both tests and keeps its size zero. -/
def Crop (R other : ImageRegion N) : Bool × ImageRegion N :=
  if R.cropPossible other then
    (true, { Index := fun i => (cropAxis (R.Index i) (R.Size i) (other.Index i) (other.Size i)).1
             Size := fun i => (cropAxis (R.Index i) (R.Size i) (other.Index i) (other.Size i)).2 })
  else (false, R)

/-- Modelled from the spec: `ImageRegion::PadByRadius` belongs to the image library and
is not among the sources; a block of radius `r` spans `2r+1` samples per axis, so
padding by a radius moves the start back by the radius and adds twice the radius to the
size on every axis. -/
def PadByRadius (R : ImageRegion N) (radius : SizeType N) : ImageRegion N :=
  { Index := fun i => R.Index i - (radius i : ℤ), Size := fun i => R.Size i + 2 * radius i }

/-- Two regions overlap when some pixel lies in both. -/
def Overlaps (R other : ImageRegion N) : Prop :=
  ∃ u, R.IsInside u ∧ other.IsInside u

/-- A region is contained in another when each of its pixels lies in the other. -/
def IsContainedIn (R other : ImageRegion N) : Prop :=
  ∀ u, R.IsInside u → other.IsInside u

end ImageRegion

/-! ## Double arithmetic -/

/-- Rounding to the nearest integer, a tie going to the even neighbour. -/
def roundHalfEven (y : ℚ) : ℤ :=
  if y - ⌊y⌋ < 1 / 2 then ⌊y⌋
  else if 1 / 2 < y - ⌊y⌋ then ⌊y⌋ + 1
  else if ⌊y⌋ % 2 = 0 then ⌊y⌋ else ⌊y⌋ + 1

/-- The distance between neighbouring `double` values around `x`: `2 ^ (e - 52)` where
`2 ^ e ≤ |x| < 2 ^ (e + 1)`, and `2 ^ (-1074)` below the normal range
(`|x| < 2 ^ (-1022)`). -/
def doubleUlp (x : ℚ) : ℚ := 2 ^ (max (Int.log 2 |x|) (-1022) - 52)

/-- The `double` that a real result `x` is rounded to: IEEE 754 binary64, rounding to
nearest, ties to even (53 significant bits, gradual underflow).  Overflow to infinity
is not modelled: the definition is the rounding of the source for results of magnitude
below `2 ^ 1024`. -/
def roundToDouble (x : ℚ) : ℚ := (roundHalfEven (x / doubleUlp x) : ℚ) * doubleUlp x

/-! ## Box statistics: `BoxSigmaSqrtNMinusOneCalculatorFunction` -/

section Box

variable {N : ℕ}

/-- Conversion to the 32-bit `int` of the source: the value modulo `2 ^ 32`, taken in
`[-2 ^ 31, 2 ^ 31)`. -/
def toInt (x : ℤ) : ℤ := (x + 2 ^ 31) % 2 ^ 32 - 2 ^ 31

/-- Modelled from the spec: `CornerOffsets` (`itkBoxUtilities.h`) is not among the
sources; it enumerates the `2 ^ N` corners of a unit hypercube, the offsets all of
whose coordinates are `-1` or `1`. -/
def CornerOffsets (N : ℕ) : Finset (IndexType N) :=
  Fintype.piFinset fun _ => ({-1, 1} : Finset ℤ)

/-- `Weights[k]`: the product of the coordinates of the unit corner. -/
def Weight (UnitCorner : IndexType N) : ℤ := ∏ i, UnitCorner i

/-- `RealCorners[k]`: `Radius[i]` on an axis where the unit corner is positive and
`-( (int) Radius[i]+1)` elsewhere, the latter computed in `int`. -/
def RealCorner (Radius : SizeType N) (UnitCorner : IndexType N) : IndexType N :=
  fun i => if UnitCorner i > 0 then (Radius i : ℤ)
           else toInt (-(toInt (toInt (Radius i : ℤ) + 1)))

/-- `RegionStart`. -/
def RegionStart (inputRegion : ImageRegion N) : IndexType N := inputRegion.Index

/-- `RegionLimit[i] = inputRegion.GetSize()[i] + RegionStart[i] - 1`. -/
def RegionLimit (inputRegion : ImageRegion N) : IndexType N :=
  fun i => (inputRegion.Size i : ℤ) + inputRegion.Index i - 1

/-- `Sum` and `SquareSum` at a pixel `p` of the body face in exact arithmetic: corner
iterator `k` stands at `p + RealCorners[k]` and contributes `Weights[k]` times the two
components of the accumulated pixel. -/
def bodySums (accImage : IndexType N → ℚ × ℚ) (Radius : SizeType N) (p : IndexType N) :
    ℚ × ℚ :=
  (∑ c ∈ CornerOffsets N, (Weight c : ℚ) * (accImage (p + RealCorner Radius c)).1,
   ∑ c ∈ CornerOffsets N, (Weight c : ℚ) * (accImage (p + RealCorner Radius c)).2)

/-- `IncludeCorner` after the loop over the axes: false as soon as a trailing
coordinate lies before `RegionStart`. -/
def IncludeCorner (inputRegion : ImageRegion N) (Radius : SizeType N)
    (CentIndex UnitCorner : IndexType N) : Bool :=
  decide (∀ j, UnitCorner j > 0 ∨
    ¬ ((CentIndex + RealCorner Radius UnitCorner) j < RegionStart inputRegion j))

/-- `ThisCorner` after the loop over the axes, for an included corner: a leading
coordinate beyond `RegionLimit` is replaced by `RegionLimit`. -/
def ThisCorner (inputRegion : ImageRegion N) (Radius : SizeType N)
    (CentIndex UnitCorner : IndexType N) : IndexType N :=
  fun j =>
    if UnitCorner j > 0 then
      if (CentIndex + RealCorner Radius UnitCorner) j > RegionLimit inputRegion j
      then RegionLimit inputRegion j
      else (CentIndex + RealCorner Radius UnitCorner) j
    else (CentIndex + RealCorner Radius UnitCorner) j

/-- `Sum` and `SquareSum` at a pixel of a border face in exact arithmetic. -/
def borderSums (accImage : IndexType N → ℚ × ℚ) (inputRegion : ImageRegion N)
    (Radius : SizeType N) (p : IndexType N) : ℚ × ℚ :=
  (∑ c ∈ CornerOffsets N,
      (if IncludeCorner inputRegion Radius p c
       then (Weight c : ℚ) * (accImage (ThisCorner inputRegion Radius p c)).1 else 0),
   ∑ c ∈ CornerOffsets N,
      (if IncludeCorner inputRegion Radius p c
       then (Weight c : ℚ) * (accImage (ThisCorner inputRegion Radius p c)).2 else 0))

/-- The loop `Sum += Weights[k] * i[...]` over the vector of corners, carried out in the
accumulator type `AccPixType`: `terms` are the products in the order of the vector, and
each product and each running sum is rounded by `fl`, the rounding of `AccPixType`. -/
def accumulate (fl : ℚ → ℚ) (terms : List ℚ) : ℚ :=
  terms.foldl (fun Sum term => fl (Sum + fl term)) 0

/-- `Sum` and `SquareSum` at a pixel `p` of the body face as the loop over the corner
iterators computes them.  `UnitCorners` is the vector that `CornerOffsets` returned
(library code); `fl` is the rounding of `AccPixType`. -/
def bodySumsIn (fl : ℚ → ℚ) (UnitCorners : List (IndexType N))
    (accImage : IndexType N → ℚ × ℚ) (Radius : SizeType N) (p : IndexType N) : ℚ × ℚ :=
  (accumulate fl
      (UnitCorners.map fun c => (Weight c : ℚ) * (accImage (p + RealCorner Radius c)).1),
   accumulate fl
      (UnitCorners.map fun c => (Weight c : ℚ) * (accImage (p + RealCorner Radius c)).2))

/-- `Sum` and `SquareSum` at a pixel of a border face as the loop over the corners
computes them: only a corner with `IncludeCorner` contributes. -/
def borderSumsIn (fl : ℚ → ℚ) (UnitCorners : List (IndexType N))
    (accImage : IndexType N → ℚ × ℚ) (inputRegion : ImageRegion N) (Radius : SizeType N)
    (p : IndexType N) : ℚ × ℚ :=
  (accumulate fl
      ((UnitCorners.filter fun c => IncludeCorner inputRegion Radius p c).map fun c =>
        (Weight c : ℚ) * (accImage (ThisCorner inputRegion Radius p c)).1),
   accumulate fl
      ((UnitCorners.filter fun c => IncludeCorner inputRegion Radius p c).map fun c =>
        (Weight c : ℚ) * (accImage (ThisCorner inputRegion Radius p c)).2))

/-- Direct summation: the sum of `v u` and the sum of `v u ^ 2` over a set of pixels. -/
def directSums (v : IndexType N → ℚ) (S : Finset (IndexType N)) : ℚ × ℚ :=
  (∑ u ∈ S, v u, ∑ u ∈ S, v u ^ 2)

/-- The accumulation image of `v` over a region starting at `start`: at `q` the pair
of the sums of `v u` and of `v u ^ 2` over all `u` with `start ≤ u ≤ q`. -/
def prefixAcc (v : IndexType N → ℚ) (start : IndexType N) (q : IndexType N) : ℚ × ℚ :=
  directSums v (Finset.Icc start q)

/-- A test image: `1` at the pixel `a` and `0` elsewhere. -/
def impulse (a : IndexType N) : IndexType N → ℚ := fun u => if u = a then 1 else 0

/-- The corners of the unit interval in the order of the neighbourhood index. -/
def unitCornersLine : List (IndexType 1) := [![-1], ![1]]

/-- The `double` nearest to `1 / 10`. -/
def tenth : ℚ := 3602879701896397 / 2 ^ 55

/-- The accumulation image of a line of four pixels of value `tenth`, as `double`
additions produce it: the running sums `0.1, 0.2, 0.30000000000000004, 0.4` and the
running sums of the rounded square `0.010000000000000002`. -/
def tenthLineAcc : IndexType 1 → ℚ × ℚ := fun q =>
  if q 0 = 0 then (3602879701896397 / 2 ^ 55, 1441151880758559 / 2 ^ 57)
  else if q 0 = 1 then (3602879701896397 / 2 ^ 54, 1441151880758559 / 2 ^ 56)
  else if q 0 = 2 then (1351079888211149 / 2 ^ 52, 4323455642275677 / 2 ^ 57)
  else (3602879701896397 / 2 ^ 53, 1441151880758559 / 2 ^ 55)

/-- A line of `2 ^ 33` pixels starting at `0`. -/
def longLine : ImageRegion 1 := { Index := ![0], Size := ![2 ^ 33] }

/-- A line of `2 ^ 31 + 1` pixels starting at `0`. -/
def halfLine : ImageRegion 1 := { Index := ![0], Size := ![2 ^ 31 + 1] }

end Box


/-! ## Statistics of a box of values -/

section Statistics

variable {n : ℕ}

end Statistics

/-! ## Unsigned arithmetic -/

/-- The `unsigned long` value `x - 1`: the predecessor modulo `2 ^ 64`. -/
def ulongPred (x : ℕ) : ℕ := (x + (2 ^ 64 - 1)) % 2 ^ 64

/-- What a call of a member function leaves behind: the object afterwards and the
message of the exception it raised, if it raised one. -/
structure Outcome (σ : Type) where
  state : σ
  raised : Option String

namespace BlockMatching

/-! ## Level transitions: `MultiResolutionIterationDisplacementCalculatorCommand` -/

/-- The regularizer object behind `m_Regularizer`.  `Self` is its identity as a
metric-image-to-displacement calculator; `SetDisplacementCalculator` and
`SetMaximumIterations` write the other two members. -/
structure Regularizer where
  Self : ℕ
  m_DisplacementCalculator : Option ℕ
  m_MaximumIterations : ℕ
deriving DecidableEq

/-- The image registration method reached through `GetImageRegistrationMethod()`: the
calculator pointer written by `SetMetricImageToDisplacementCalculator` (`none` is the
null pointer, `some k` the calculator object of identity `k`). -/
structure ImageRegistrationMethod where
  m_MetricImageToDisplacementCalculator : Option ℕ
deriving DecidableEq

/-- The multi-resolution method behind `m_MultiResolutionMethod`: what
`GetCurrentLevel()`, `GetNumberOfLevels()` and `GetImageRegistrationMethod()` give. -/
structure MultiResolutionMethod where
  m_CurrentLevel : ℕ
  m_NumberOfLevels : ℕ
  m_ImageRegistrationMethod : ImageRegistrationMethod
deriving DecidableEq

/-- The command object, with the objects it points to. -/
structure MultiResolutionIterationDisplacementCalculatorCommand where
  m_MultiResolutionMethod : MultiResolutionMethod
  m_Level0ToNMinus1DisplacementCalculator : Option ℕ
  m_LevelNDisplacementCalculator : Option ℕ
  m_Regularizer : Option Regularizer
  m_Level0ToNMinus1RegularizerIterations : ℕ
  m_LevelNRegularizerIterations : ℕ
deriving DecidableEq

namespace MultiResolutionIterationDisplacementCalculatorCommand

/-- `this->m_MultiResolutionMethod->GetImageRegistrationMethod()->`
`SetMetricImageToDisplacementCalculator( calculator )`. -/
def SetMetricImageToDisplacementCalculator
    (self : MultiResolutionIterationDisplacementCalculatorCommand) (calculator : Option ℕ) :
    MultiResolutionIterationDisplacementCalculatorCommand :=
  { self with
    m_MultiResolutionMethod :=
      { self.m_MultiResolutionMethod with
        m_ImageRegistrationMethod :=
          { m_MetricImageToDisplacementCalculator := calculator } } }

/-- The test `level == this->m_MultiResolutionMethod->GetNumberOfLevels() - 1`, in
`unsigned long`. -/
def atLastLevel (self : MultiResolutionIterationDisplacementCalculatorCommand) : Bool :=
  decide (self.m_MultiResolutionMethod.m_CurrentLevel
    = ulongPred self.m_MultiResolutionMethod.m_NumberOfLevels)

/-- `Execute`, from the point where `Superclass::Execute( object, event )` has
returned (the base command is not among the sources). -/
def Execute (self : MultiResolutionIterationDisplacementCalculatorCommand) :
    Outcome MultiResolutionIterationDisplacementCalculatorCommand :=
  if self.m_Level0ToNMinus1DisplacementCalculator = none then
    { state := self
      raised := some "Level0ToNMinus1ToNMinus1DisplacementCalculator is not present." }
  else if self.m_LevelNDisplacementCalculator = none then
    { state := self, raised := some "LevelNDisplacementCalculator is not present." }
  else
    match self.m_Regularizer with
    | none =>
      if self.atLastLevel then
        { state := self.SetMetricImageToDisplacementCalculator
            self.m_LevelNDisplacementCalculator
          raised := none }
      else
        { state := self.SetMetricImageToDisplacementCalculator
            self.m_Level0ToNMinus1DisplacementCalculator
          raised := none }
    | some regularizer =>
      if self.atLastLevel then
        { state :=
            { self with
              m_Regularizer := some
                { regularizer with
                  m_DisplacementCalculator := self.m_LevelNDisplacementCalculator
                  m_MaximumIterations := self.m_LevelNRegularizerIterations } }
          raised := none }
      else
        { state :=
            { self with
              m_Regularizer := some
                { regularizer with
                  m_DisplacementCalculator := self.m_Level0ToNMinus1DisplacementCalculator
                  m_MaximumIterations := self.m_Level0ToNMinus1RegularizerIterations } }
          raised := none }

/-- The command as the multi-resolution method presents it at a level: the same
configuration with the given current level and number of levels. -/
def atLevel (self : MultiResolutionIterationDisplacementCalculatorCommand)
    (level numberOfLevels : ℕ) : MultiResolutionIterationDisplacementCalculatorCommand :=
  { self with
    m_MultiResolutionMethod :=
      { self.m_MultiResolutionMethod with
        m_CurrentLevel := level, m_NumberOfLevels := numberOfLevels } }

end MultiResolutionIterationDisplacementCalculatorCommand

/-- A regularizer object of identity `3` on which nothing has been set. -/
def sampleRegularizer : Regularizer :=
  { Self := 3, m_DisplacementCalculator := none, m_MaximumIterations := 0 }

/-- A command with both calculators (objects `1` and `2`), no regularizer, iteration
budgets `5` and `9`, at level `0` of `3`, the registration method holding calculator
`7`. -/
def sampleCommand : MultiResolutionIterationDisplacementCalculatorCommand :=
  { m_MultiResolutionMethod :=
      { m_CurrentLevel := 0, m_NumberOfLevels := 3
        m_ImageRegistrationMethod := { m_MetricImageToDisplacementCalculator := some 7 } }
    m_Level0ToNMinus1DisplacementCalculator := some 1
    m_LevelNDisplacementCalculator := some 2
    m_Regularizer := none
    m_Level0ToNMinus1RegularizerIterations := 5
    m_LevelNRegularizerIterations := 9 }

/-- The same command with the sample regularizer configured. -/
def regularizedCommand : MultiResolutionIterationDisplacementCalculatorCommand :=
  { sampleCommand with m_Regularizer := some sampleRegularizer }

/-! ## `MetricImageFilter::SetFixedImageRegion` -/

/-- What the filter reads and writes of an image: the largest possible region, the
spacing, the origin, the direction cosines and the requested region.  (The last three
default to the zero origin, the identity direction and the largest possible region.) -/
structure ImageInformation (N : ℕ) where
  LargestPossibleRegion : ImageRegion N
  Spacing : Fin N → ℚ
  Origin : Fin N → ℚ := fun _ => 0
  Direction : Fin N → Fin N → ℚ := fun r c => if r = c then 1 else 0
  RequestedRegion : ImageRegion N := LargestPossibleRegion

/-- Modelled from the spec: `TransformIndexToPhysicalPoint` belongs to the image library
and is not among the sources; spacing, origin and direction map array indices to
physical coordinates: the origin plus the direction matrix applied to the index scaled
by the spacing. -/
def ImageInformation.TransformIndexToPhysicalPoint {N : ℕ} (image : ImageInformation N)
    (index : IndexType N) : Fin N → ℚ :=
  fun r => image.Origin r + ∑ c, image.Direction r c * image.Spacing c * (index c : ℚ)

/-- The members of `MetricImageFilter`, its two inputs and its output (`none`: not
set). -/
structure MetricImageFilter (N : ℕ) where
  FixedImage : Option (ImageInformation N)
  MovingImage : Option (ImageInformation N)
  Output : Option (ImageInformation N) := none
  m_FixedImageRegion : ImageRegion N
  m_MovingImageRegion : ImageRegion N
  m_FixedRadius : SizeType N
  m_MovingRadius : SizeType N
  m_FixedImageRegionDefined : Bool
  m_MovingImageRegionDefined : Bool

/-- Modelled from the spec: `Math::Ceil< SizeValueType >` belongs to the image library
and is not among the sources; the text says the scaled radius is rounded up (ceiling).
The argument is non-negative for positive spacings. -/
def Ceil (x : ℚ) : ℕ := (⌈x⌉).toNat

namespace MetricImageFilter

variable {N : ℕ}

/-- `fixedSize[i]` after the loop: an even size is decremented (in `unsigned long`). -/
def fixedSize (cropped : ImageRegion N) : SizeType N :=
  fun i => if cropped.Size i % 2 = 0 then ulongPred (cropped.Size i) else cropped.Size i

/-- `m_FixedRadius[i] = (fixedSize[i] - 1) / 2`. -/
def FixedRadius (cropped : ImageRegion N) : SizeType N :=
  fun i => ulongPred (fixedSize cropped i) / 2

/-- The `double` value of `fixedSpacing[i] * m_FixedRadius[i] / movingSpacing[i]`: the
radius is converted to `double`, the product is rounded, and the quotient is
rounded. -/
def scaledRadius (fixedSpacing : ℚ) (fixedRadius : ℕ) (movingSpacing : ℚ) : ℚ :=
  roundToDouble
    (roundToDouble (fixedSpacing * roundToDouble (fixedRadius : ℚ)) / movingSpacing)

/-- `m_MovingRadius` as the last part of `SetFixedImageRegion` computes it. -/
def MovingRadius (fixedRadius : SizeType N) (fixedSpacing movingSpacing : Fin N → ℚ) :
    SizeType N :=
  if ¬ (fixedSpacing = movingSpacing) then
    fun i => Ceil (scaledRadius (fixedSpacing i) (fixedRadius i) (movingSpacing i))
  else fixedRadius

/-- `SetFixedImageRegion( region )`. -/
def SetFixedImageRegion (self : MetricImageFilter N) (region : ImageRegion N) :
    Outcome (MetricImageFilter N) :=
  match self.FixedImage with
  | none =>
    { state := self
      raised := some "The FixedImage must be set before specifying the fixed image region." }
  | some fixedPtr =>
    let cropped := region.Crop fixedPtr.LargestPossibleRegion
    if ¬ cropped.1 then
      { state := { self with m_FixedImageRegion := cropped.2 }
        raised := some "Requested block is outside of the fixed image." }
    else
      let self1 : MetricImageFilter N :=
        { self with
          m_FixedRadius := FixedRadius cropped.2
          m_FixedImageRegion := { Index := cropped.2.Index, Size := fixedSize cropped.2 }
          m_FixedImageRegionDefined := true }
      match self.MovingImage with
      | none =>
        { state := self1
          raised := some
            "The MovingImage must be set before specifying the fixed image region." }
      | some movingPtr =>
        { state :=
            { self1 with
              m_MovingRadius :=
                MovingRadius (FixedRadius cropped.2) fixedPtr.Spacing movingPtr.Spacing }
          raised := none }

/-- `SetMovingImageRegion( region )`. -/
def SetMovingImageRegion (self : MetricImageFilter N) (region : ImageRegion N) :
    Outcome (MetricImageFilter N) :=
  { state := { self with m_MovingImageRegion := region, m_MovingImageRegionDefined := true }
    raised := none }

/-- `GenerateOutputInformation()`. -/
def GenerateOutputInformation (self : MetricImageFilter N) : Outcome (MetricImageFilter N) :=
  match self.MovingImage with
  | none => { state := self, raised := none }
  | some movingPtr =>
    match self.Output with
    | none => { state := self, raised := none }
    | some outputPtr =>
      if ¬ self.m_MovingImageRegionDefined then
        { state := self, raised := some "MovingImageRegion has not been set" }
      else
        { state :=
            { self with
              Output := some
                { outputPtr with
                  LargestPossibleRegion :=
                    { Index := fun _ => 0, Size := self.m_MovingImageRegion.Size }
                  Spacing := movingPtr.Spacing
                  Origin :=
                    movingPtr.TransformIndexToPhysicalPoint self.m_MovingImageRegion.Index
                  Direction := movingPtr.Direction } }
          raised := none }

/-- `movingImageRequestedRegion` before cropping: the search window padded by
`m_MovingRadius`. -/
def paddedMovingImageRegion (self : MetricImageFilter N) : ImageRegion N :=
  self.m_MovingImageRegion.PadByRadius self.m_MovingRadius

/-- `GenerateInputRequestedRegion()`, from the point where
`Superclass::GenerateInputRequestedRegion()` has returned (the base filter is library
code). -/
def GenerateInputRequestedRegion (self : MetricImageFilter N) :
    Outcome (MetricImageFilter N) :=
  match self.FixedImage with
  | none => { state := self, raised := none }
  | some fixedPtr =>
    match self.MovingImage with
    | none => { state := self, raised := none }
    | some movingPtr =>
      if ¬ self.m_FixedImageRegionDefined then
        { state := self, raised := some "FixedImageRegion has not been set" }
      else if ¬ self.m_MovingImageRegionDefined then
        { state := self, raised := some "MovingImageRegion has not been set" }
      else
        let movingImageRequestedRegion :=
          (self.m_MovingImageRegion.PadByRadius self.m_MovingRadius).Crop
            movingPtr.LargestPossibleRegion
        let self1 : MetricImageFilter N :=
          { self with
            FixedImage := some { fixedPtr with RequestedRegion := self.m_FixedImageRegion }
            MovingImage := some
              { movingPtr with RequestedRegion := movingImageRequestedRegion.2 } }
        if movingImageRequestedRegion.1 then
          { state := self1, raised := none }
        else
          { state := self1
            raised := some
              "Moving image requested region is at least partially outside the LargestPossibleRegion." }

/-- `EnlargeOutputRequestedRegion( data )`: the image `data` afterwards.  The
implementation of the superclass, called first, is library code and is the parameter
`superclass`. -/
def EnlargeOutputRequestedRegion (superclass : ImageInformation N → ImageInformation N)
    (data : ImageInformation N) : ImageInformation N :=
  let data1 := superclass data
  { data1 with RequestedRegion := data1.LargestPossibleRegion }

end MetricImageFilter

/-- A fixed image of ten pixels on a line, spacing `1`. -/
def tenPixelImage : ImageInformation 1 :=
  { LargestPossibleRegion := { Index := ![0], Size := ![10] }, Spacing := ![1] }

/-- A filter whose two inputs are the ten-pixel image and on which nothing has been
set yet. -/
def freshFilter : MetricImageFilter 1 :=
  { FixedImage := some tenPixelImage
    MovingImage := some tenPixelImage
    m_FixedImageRegion := { Index := ![0], Size := ![0] }
    m_MovingImageRegion := { Index := ![0], Size := ![0] }
    m_FixedRadius := ![0]
    m_MovingRadius := ![0]
    m_FixedImageRegionDefined := false
    m_MovingImageRegionDefined := false }

/-- The fresh filter with an output image and the fixed block `[2, 6]` and the search
window `[1, 8]` set. -/
def readyFilter : MetricImageFilter 1 :=
  { freshFilter with
    Output := some tenPixelImage
    m_FixedImageRegion := { Index := ![2], Size := ![5] }
    m_MovingImageRegion := { Index := ![1], Size := ![8] }
    m_FixedRadius := ![2]
    m_MovingRadius := ![2]
    m_FixedImageRegionDefined := true
    m_MovingImageRegionDefined := true }

/-- The ready filter with a search window `[20, 22]` that lies outside the ten-pixel
moving image even after padding. -/
def strayFilter : MetricImageFilter 1 :=
  { readyFilter with m_MovingImageRegion := { Index := ![20], Size := ![3] } }

/-- The ready filter with moving radius `0` and a search window of size `0` at
index `3`. -/
def emptyWindowFilter : MetricImageFilter 1 :=
  { readyFilter with
    m_MovingRadius := ![0]
    m_MovingImageRegion := { Index := ![3], Size := ![0] } }

/-! ## `MultiResolutionMinMaxSearchRegionImageSource` -/

/-- The two members declared by the class: the search-region to block-radius ratios
(`FactorType` is a fixed array of `double`, one entry per axis). -/
structure MultiResolutionMinMaxSearchRegionImageSource (N : ℕ) where
  m_MinFactor : Fin N → ℚ
  m_MaxFactor : Fin N → ℚ

namespace MultiResolutionMinMaxSearchRegionImageSource

variable {N : ℕ}

/-- The constructor: `m_MinFactor( 1.1 )`, `m_MaxFactor( 3.0 )`, each array filled with
the one value. -/
def New (N : ℕ) : MultiResolutionMinMaxSearchRegionImageSource N :=
  { m_MinFactor := fun _ => 1.1, m_MaxFactor := fun _ => 3.0 }

/-- `SetMinFactor( const FactorType& factor )`. -/
def SetMinFactor (self : MultiResolutionMinMaxSearchRegionImageSource N)
    (factor : Fin N → ℚ) : MultiResolutionMinMaxSearchRegionImageSource N :=
  { self with m_MinFactor := factor }

/-- `SetMinFactor( const double& factor )`: fills an array with the value and calls the
array overload. -/
def SetMinFactorFill (self : MultiResolutionMinMaxSearchRegionImageSource N)
    (factor : ℚ) : MultiResolutionMinMaxSearchRegionImageSource N :=
  self.SetMinFactor fun _ => factor

/-- `GetMinFactor()`. -/
def GetMinFactor (self : MultiResolutionMinMaxSearchRegionImageSource N) : Fin N → ℚ :=
  self.m_MinFactor

/-- `SetMaxFactor( const FactorType& factor )`. -/
def SetMaxFactor (self : MultiResolutionMinMaxSearchRegionImageSource N)
    (factor : Fin N → ℚ) : MultiResolutionMinMaxSearchRegionImageSource N :=
  { self with m_MaxFactor := factor }

/-- `SetMaxFactor( const double& factor )`: fills an array with the value and calls the
array overload. -/
def SetMaxFactorFill (self : MultiResolutionMinMaxSearchRegionImageSource N)
    (factor : ℚ) : MultiResolutionMinMaxSearchRegionImageSource N :=
  self.SetMaxFactor fun _ => factor

/-- `GetMaxFactor()`. -/
def GetMaxFactor (self : MultiResolutionMinMaxSearchRegionImageSource N) : Fin N → ℚ :=
  self.m_MaxFactor

/-- Modelled from the spec: the `.hxx` that implements `DynamicThreadedGenerateData` is
not among the sources.  The interpolation weight is `t = level / (numberOfLevels - 1)`,
clamped to `[0, 1]`; with only one level, `t = 0`. -/
def interpolationWeight (level numberOfLevels : ℕ) : ℚ :=
  if numberOfLevels = 1 then 0
  else max 0 (min 1 ((level : ℚ) / ((numberOfLevels : ℚ) - 1)))

/-- Modelled from the spec: the `.hxx` that implements `DynamicThreadedGenerateData` is
not among the sources.  Per axis, `factor = minFactor * (1 - t) + maxFactor * t`. -/
def effectiveFactor (self : MultiResolutionMinMaxSearchRegionImageSource N)
    (level numberOfLevels : ℕ) : Fin N → ℚ :=
  fun i => self.m_MinFactor i * (1 - interpolationWeight level numberOfLevels)
    + self.m_MaxFactor i * interpolationWeight level numberOfLevels

end MultiResolutionMinMaxSearchRegionImageSource

end BlockMatching

/-! ## `VectorResampleIdentityNeumannImageFilter` -/

namespace VectorResampleIdentityNeumannImageFilter

variable {N : ℕ}

/-- A point lies in the extent `[lo, hi]` of the source field when every coordinate lies
between the bounds. -/
def IsInsideExtent (lo hi x : Fin N → ℚ) : Prop := ∀ i, lo i ≤ x i ∧ x i ≤ hi i

instance (lo hi x : Fin N → ℚ) : Decidable (IsInsideExtent lo hi x) := by
  unfold IsInsideExtent; infer_instance

/-- Modelled from the spec: the `.hxx` of the filter is not among the sources.  A point
whose coordinates fall outside the source field's extent is clamped, coordinate by
coordinate, to the nearest in-bounds coordinate. -/
def clampToExtent (lo hi x : Fin N → ℚ) : Fin N → ℚ :=
  fun i => max (lo i) (min (x i) (hi i))

/-- Modelled from the spec: the `.hxx` of the filter is not among the sources.  The
resampled vector at a target point is the configured interpolation function of the
source field evaluated at the point, except that a point outside the extent of the
source field is clamped to the nearest in-bounds coordinate before interpolation. -/
def resample {V : Type} (interpolate : (Fin N → ℚ) → V) (lo hi x : Fin N → ℚ) : V :=
  if IsInsideExtent lo hi x then interpolate x else interpolate (clampToExtent lo hi x)

end VectorResampleIdentityNeumannImageFilter

/-! ## The 1D FFT filters: the region splitter -/

/-- `ImageRegionSplitterDirection` (library): the direction along which it does not
split, written by `SetDirection`. -/
structure ImageRegionSplitterDirection where
  m_Direction : ℕ
deriving DecidableEq

/-- `TransformDirectionType` of `FFT1DComplexToComplexImageFilter`. -/
inductive TransformDirectionType where
  | DIRECT
  | INVERSE
deriving DecidableEq

/-- `FFT1DComplexToComplexImageFilter`: its members, its input and its output. -/
structure FFT1DComplexToComplexImageFilter (N : ℕ) where
  m_Direction : ℕ
  m_TransformDirection : TransformDirectionType
  m_ImageRegionSplitter : ImageRegionSplitterDirection
  Input : Option (BlockMatching.ImageInformation N)
  Output : Option (BlockMatching.ImageInformation N)

namespace FFT1DComplexToComplexImageFilter

variable {N : ℕ}

/-- `itkSetMacro(Direction, unsigned int)`. -/
def SetDirection (self : FFT1DComplexToComplexImageFilter N) (direction : ℕ) :
    FFT1DComplexToComplexImageFilter N :=
  { self with m_Direction := direction }

/-- `itkGetMacro(Direction, unsigned int)`. -/
def GetDirection (self : FFT1DComplexToComplexImageFilter N) : ℕ := self.m_Direction

/-- `GetImageRegionSplitter()`. -/
def GetImageRegionSplitter (self : FFT1DComplexToComplexImageFilter N) :
    ImageRegionSplitterDirection := self.m_ImageRegionSplitter

/-- `BeforeThreadedGenerateData()`:
`this->m_ImageRegionSplitter->SetDirection( this->GetDirection() )`. -/
def BeforeThreadedGenerateData (self : FFT1DComplexToComplexImageFilter N) :
    FFT1DComplexToComplexImageFilter N :=
  { self with m_ImageRegionSplitter := { m_Direction := self.GetDirection } }

end FFT1DComplexToComplexImageFilter

/-- `Forward1DFFTImageFilter`: its members, its input and its output. -/
structure Forward1DFFTImageFilter (N : ℕ) where
  m_Direction : ℕ
  m_ImageRegionSplitter : ImageRegionSplitterDirection
  Input : Option (BlockMatching.ImageInformation N)
  Output : Option (BlockMatching.ImageInformation N)

namespace Forward1DFFTImageFilter

variable {N : ℕ}

/-- `SetDirection( direction )`: writes `m_Direction`. -/
def SetDirection (self : Forward1DFFTImageFilter N) (direction : ℕ) :
    Forward1DFFTImageFilter N :=
  { self with m_Direction := direction }

/-- `GetDirection()`: reads `m_Direction`. -/
def GetDirection (self : Forward1DFFTImageFilter N) : ℕ := self.m_Direction

/-- `GetImageRegionSplitter()`. -/
def GetImageRegionSplitter (self : Forward1DFFTImageFilter N) :
    ImageRegionSplitterDirection := self.m_ImageRegionSplitter

/-- `BeforeThreadedGenerateData()`:
`this->m_ImageRegionSplitter->SetDirection( this->GetDirection() )`. -/
def BeforeThreadedGenerateData (self : Forward1DFFTImageFilter N) :
    Forward1DFFTImageFilter N :=
  { self with m_ImageRegionSplitter := { m_Direction := self.GetDirection } }

end Forward1DFFTImageFilter

/-- `AnalyticSignalImageFilter`: the transform direction that `GetDirection()` returns
and `SetDirection` writes (the header declaring them is not among the sources), the
region splitter, the input and the output. -/
structure AnalyticSignalImageFilter (N : ℕ) where
  Direction : ℕ
  m_ImageRegionSplitter : ImageRegionSplitterDirection
  Input : Option (BlockMatching.ImageInformation N)
  Output : Option (BlockMatching.ImageInformation N)

namespace AnalyticSignalImageFilter

variable {N : ℕ}

/-- `SetDirection( direction )`. -/
def SetDirection (self : AnalyticSignalImageFilter N) (direction : ℕ) :
    AnalyticSignalImageFilter N :=
  { self with Direction := direction }

/-- `GetDirection()`. -/
def GetDirection (self : AnalyticSignalImageFilter N) : ℕ := self.Direction

/-- `GetImageRegionSplitter()`. -/
def GetImageRegionSplitter (self : AnalyticSignalImageFilter N) :
    ImageRegionSplitterDirection := self.m_ImageRegionSplitter

/-- `BeforeThreadedGenerateData()`: the splitter direction is set to `GetDirection()`;
the statements that follow run the inner real-to-complex transform and touch neither
the direction nor the splitter. -/
def BeforeThreadedGenerateData (self : AnalyticSignalImageFilter N) :
    AnalyticSignalImageFilter N :=
  { self with m_ImageRegionSplitter := { m_Direction := self.GetDirection } }

end AnalyticSignalImageFilter

/-! ## The 1D FFT filters: requested regions -/

/-- The array after the assignment `target[direction] = source[direction]`: the entry
of axis `direction` is taken from `source`, every other entry is kept.  (A `direction`
that is not an axis of the image changes no entry: the out-of-range access is not
modelled.) -/
def assignAxis {N : ℕ} {α : Type} (target source : Fin N → α) (direction : ℕ) : Fin N → α :=
  fun i => if i.val = direction then source i else target i

namespace ImageRegion

variable {N : ℕ}

/-- A region lies inside another when on every axis it starts no earlier and ends no
later. -/
def IsWithin (R other : ImageRegion N) : Prop :=
  ∀ i, other.Index i ≤ R.Index i
    ∧ R.Index i + (R.Size i : ℤ) ≤ other.Index i + (other.Size i : ℤ)

instance (R other : ImageRegion N) : Decidable (R.IsWithin other) := by
  unfold IsWithin; infer_instance

end ImageRegion

namespace FFT1DComplexToComplexImageFilter

variable {N : ℕ}

/-- `GenerateInputRequestedRegion()`, from the point where the superclass
implementation has returned. -/
def GenerateInputRequestedRegion (self : FFT1DComplexToComplexImageFilter N) :
    FFT1DComplexToComplexImageFilter N :=
  match self.Input, self.Output with
  | some inputPtr, some outputPtr =>
    let inputRequestedRegionSize :=
      assignAxis outputPtr.RequestedRegion.Size inputPtr.LargestPossibleRegion.Size
        self.m_Direction
    let inputRequestedRegionStartIndex :=
      assignAxis outputPtr.RequestedRegion.Index inputPtr.LargestPossibleRegion.Index
        self.m_Direction
    { self with
      Input := some
        { inputPtr with
          RequestedRegion :=
            { Index := inputRequestedRegionStartIndex, Size := inputRequestedRegionSize } } }
  | _, _ => self

/-- `EnlargeOutputRequestedRegion( output )`: the image `output` afterwards. -/
def EnlargeOutputRequestedRegion (self : FFT1DComplexToComplexImageFilter N)
    (outputPtr : BlockMatching.ImageInformation N) : BlockMatching.ImageInformation N :=
  let enlargedSize :=
    assignAxis outputPtr.RequestedRegion.Size outputPtr.LargestPossibleRegion.Size
      self.m_Direction
  let enlargedIndex :=
    assignAxis outputPtr.RequestedRegion.Index outputPtr.LargestPossibleRegion.Index
      self.m_Direction
  { outputPtr with RequestedRegion := { Index := enlargedIndex, Size := enlargedSize } }

end FFT1DComplexToComplexImageFilter

namespace Forward1DFFTImageFilter

variable {N : ℕ}

/-- `GenerateInputRequestedRegion()`, from the point where the superclass
implementation has returned. -/
def GenerateInputRequestedRegion (self : Forward1DFFTImageFilter N) :
    Forward1DFFTImageFilter N :=
  match self.Input, self.Output with
  | some inputPtr, some outputPtr =>
    let inputRequestedRegionSize :=
      assignAxis outputPtr.RequestedRegion.Size inputPtr.LargestPossibleRegion.Size
        self.m_Direction
    let inputRequestedRegionStartIndex :=
      assignAxis outputPtr.RequestedRegion.Index inputPtr.LargestPossibleRegion.Index
        self.m_Direction
    { self with
      Input := some
        { inputPtr with
          RequestedRegion :=
            { Index := inputRequestedRegionStartIndex, Size := inputRequestedRegionSize } } }
  | _, _ => self

/-- `EnlargeOutputRequestedRegion( output )`: the image `output` afterwards. -/
def EnlargeOutputRequestedRegion (self : Forward1DFFTImageFilter N)
    (outputPtr : BlockMatching.ImageInformation N) : BlockMatching.ImageInformation N :=
  let enlargedSize :=
    assignAxis outputPtr.RequestedRegion.Size outputPtr.LargestPossibleRegion.Size
      self.m_Direction
  let enlargedIndex :=
    assignAxis outputPtr.RequestedRegion.Index outputPtr.LargestPossibleRegion.Index
      self.m_Direction
  { outputPtr with RequestedRegion := { Index := enlargedIndex, Size := enlargedSize } }

end Forward1DFFTImageFilter

namespace AnalyticSignalImageFilter

variable {N : ℕ}

/-- `GenerateInputRequestedRegion()`, from the point where the superclass
implementation has returned; the direction is read through `GetDirection()`. -/
def GenerateInputRequestedRegion (self : AnalyticSignalImageFilter N) :
    AnalyticSignalImageFilter N :=
  match self.Input, self.Output with
  | some inputPtr, some outputPtr =>
    let inputRequestedRegionSize :=
      assignAxis outputPtr.RequestedRegion.Size inputPtr.LargestPossibleRegion.Size
        self.GetDirection
    let inputRequestedRegionStartIndex :=
      assignAxis outputPtr.RequestedRegion.Index inputPtr.LargestPossibleRegion.Index
        self.GetDirection
    { self with
      Input := some
        { inputPtr with
          RequestedRegion :=
            { Index := inputRequestedRegionStartIndex, Size := inputRequestedRegionSize } } }
  | _, _ => self

/-- `EnlargeOutputRequestedRegion( output )`: the image `output` afterwards. -/
def EnlargeOutputRequestedRegion (self : AnalyticSignalImageFilter N)
    (outputPtr : BlockMatching.ImageInformation N) : BlockMatching.ImageInformation N :=
  let enlargedSize :=
    assignAxis outputPtr.RequestedRegion.Size outputPtr.LargestPossibleRegion.Size
      self.GetDirection
  let enlargedIndex :=
    assignAxis outputPtr.RequestedRegion.Index outputPtr.LargestPossibleRegion.Index
      self.GetDirection
  { outputPtr with RequestedRegion := { Index := enlargedIndex, Size := enlargedSize } }

end AnalyticSignalImageFilter

/-- The region logic in one place: the requested region `requested` with the entries of
axis `direction` replaced by those of the largest possible region `largest`. -/
def wholeLineRegion {N : ℕ} (requested largest : ImageRegion N) (direction : ℕ) :
    ImageRegion N :=
  { Index := fun i => if i.val = direction then largest.Index i else requested.Index i
    Size := fun i => if i.val = direction then largest.Size i else requested.Size i }

/-- An output image of `8 × 6` pixels of which the block of `3 × 2` pixels at `(2, 1)`
is requested. -/
def blockRequestImage : BlockMatching.ImageInformation 2 :=
  { LargestPossibleRegion := { Index := ![0, 0], Size := ![8, 6] }
    Spacing := ![1, 1]
    RequestedRegion := { Index := ![2, 1], Size := ![3, 2] } }

/-- An input image of `8 × 6` pixels starting at `(0, 0)`. -/
def wholeImage : BlockMatching.ImageInformation 2 :=
  { LargestPossibleRegion := { Index := ![0, 0], Size := ![8, 6] }, Spacing := ![1, 1] }

/-- A complex-to-complex filter along axis `1` between the two sample images. -/
def sampleComplexToComplexFilter : FFT1DComplexToComplexImageFilter 2 :=
  { m_Direction := 1
    m_TransformDirection := TransformDirectionType.DIRECT
    m_ImageRegionSplitter := { m_Direction := 0 }
    Input := some wholeImage
    Output := some blockRequestImage }

/-- A forward filter along axis `1` between the two sample images. -/
def sampleForwardFilter : Forward1DFFTImageFilter 2 :=
  { m_Direction := 1
    m_ImageRegionSplitter := { m_Direction := 0 }
    Input := some wholeImage
    Output := some blockRequestImage }

/-- An analytic signal filter along axis `1` between the two sample images. -/
def sampleAnalyticSignalFilter : AnalyticSignalImageFilter 2 :=
  { Direction := 1
    m_ImageRegionSplitter := { m_Direction := 0 }
    Input := some wholeImage
    Output := some blockRequestImage }

/-! ## `AnalyticSignalImageFilter::ThreadedGenerateData` -/

/-- Conversion to the 32-bit `unsigned int` of the source: the value modulo `2 ^ 32`. -/
def toUInt (x : ℕ) : ℕ := x % 2 ^ 32

/-- Modelled from the spec: the line iterators (`ImageLinearIteratorWithIndex`) belong
to the host image abstraction and are not among the sources.  Inside one line an
iterator stands at an offset from the beginning of the line, `++` moves it on by one
pixel, `Get` and `Set` read and write the pixel at the offset, and `IsAtEndOfLine` holds
once the offset has reached the length of the line.  The structure holds the offsets of
`inputIt` and `outputIt`, the pixels of the output along the line, the number of calls of
`Set` so far, and a flag telling whether a `Get` or a `Set` has taken place at an offset
that is not in the line. -/
structure LineIterators (K : Type) where
  inputIt : ℕ
  outputIt : ℕ
  outputLine : ℕ → K
  written : ℕ
  beyond : Bool

namespace AnalyticSignalImageFilter

variable {K : Type}

/-- `const unsigned int size = inputSize[direction]`: the `unsigned long` size along
the transform direction, narrowed. -/
def size (inputSize : ℕ) : ℕ := toUInt inputSize

/-- `even`: set by the test `size % 2 == 0`. -/
def even (inputSize : ℕ) : Bool := decide (size inputSize % 2 = 0)

/-- `dub_size`: `size / 2 - 1` for an even `size` and `(size + 1) / 2 - 1` for an odd
one, in `unsigned int` arithmetic. -/
def dub_size (inputSize : ℕ) : ℕ :=
  if size inputSize % 2 = 0 then toUInt (size inputSize / 2 + (2 ^ 32 - 1))
  else toUInt (toUInt (size inputSize + 1) / 2 + (2 ^ 32 - 1))

/-- The statements `outputIt.Set( f( inputIt.Get() ) ); ++inputIt; ++outputIt;` on a
line of `lineLength` pixels whose input values are `input`. -/
def copyStep (lineLength : ℕ) (input : ℕ → K) (f : K → K) (s : LineIterators K) :
    LineIterators K :=
  { inputIt := s.inputIt + 1
    outputIt := s.outputIt + 1
    outputLine := Function.update s.outputLine s.outputIt (f (input s.inputIt))
    written := s.written + 1
    beyond := s.beyond || decide (lineLength ≤ s.inputIt) || decide (lineLength ≤ s.outputIt) }

/-- The statements `outputIt.Set( 0 ); ++outputIt;`. -/
def zeroStep [Zero K] (lineLength : ℕ) (s : LineIterators K) : LineIterators K :=
  { s with
    outputIt := s.outputIt + 1
    outputLine := Function.update s.outputLine s.outputIt 0
    written := s.written + 1
    beyond := s.beyond || decide (lineLength ≤ s.outputIt) }

/-- The loop `while( !outputIt.IsAtEndOfLine() )` that fills the rest of the line with
zeros. -/
def zeroFill [Zero K] (lineLength : ℕ) (s : LineIterators K) : LineIterators K :=
  if _h : s.outputIt < lineLength then zeroFill lineLength (zeroStep lineLength s) else s
termination_by lineLength - s.outputIt
decreasing_by
  simp only [zeroStep]
  omega

/-- The body of the loop over the FFT lines, on one line: `inputSize` is the size of the
requested region of the forward transform along the direction, `lineLength` the length
of the lines of `outputRegionForThread`, `input` the values of the forward transform
along the line and `output` the pixels of the output line before the call.  Both
iterators go to the beginning of the line; the DC term is copied, `dub_size` terms are
doubled, the middle term is copied when `even`, and the rest of the line is zeroed. -/
def lineBody [Semiring K] (inputSize lineLength : ℕ) (input output : ℕ → K) :
    LineIterators K :=
  let s0 : LineIterators K :=
    { inputIt := 0, outputIt := 0, outputLine := output, written := 0, beyond := false }
  let s1 := copyStep lineLength input id s0
  let s2 := (copyStep lineLength input fun v => v * 2)^[dub_size inputSize] s1
  let s3 := if even inputSize then copyStep lineLength input id s2 else s2
  zeroFill lineLength s3

/-- `ThreadedGenerateData`, with both images present: the body is run on every line of
the region; `input line` and `output line` are the pixels along the line `line`. -/
def ThreadedGenerateData [Semiring K] {ι : Type} (inputSize lineLength : ℕ)
    (input output : ι → ℕ → K) (line : ι) : LineIterators K :=
  lineBody inputSize lineLength (input line) (output line)

/-- The multiplier applied at the offset `k` of a line: the value written there when
every input value is `1`. -/
def multiplier (inputSize lineLength k : ℕ) : ℕ :=
  (lineBody inputSize lineLength (fun _ => (1 : ℕ)) fun _ => 0).outputLine k

end AnalyticSignalImageFilter

/-! ## Double arithmetic: lemmas -/

theorem roundHalfEven_of_near (y : ℚ) (m : ℤ) (h1 : (m : ℚ) - 1 / 2 < y)
    (h2 : y < (m : ℚ) + 1 / 2) : roundHalfEven y = m := by
  unfold roundHalfEven
  by_cases hm : (m : ℚ) ≤ y
  · have hf : ⌊y⌋ = m := by
      rw [Int.floor_eq_iff]
      constructor
      · exact hm
      · linarith
    rw [hf, if_pos (by linarith)]
  · have hf : ⌊y⌋ = m - 1 := by
      rw [Int.floor_eq_iff]
      push_cast
      constructor <;> linarith
    rw [hf]
    push_cast
    rw [if_neg (by linarith), if_pos (by linarith)]
    ring

theorem roundHalfEven_intCast (n : ℤ) : roundHalfEven (n : ℚ) = n :=
  roundHalfEven_of_near _ _ (by linarith) (by linarith)

theorem doubleUlp_pos (x : ℚ) : 0 < doubleUlp x := by
  unfold doubleUlp
  positivity

theorem log_eq_of_bounds (x : ℚ) (e : ℤ) (h1 : (2 : ℚ) ^ e ≤ |x|)
    (h2 : |x| < (2 : ℚ) ^ (e + 1)) : Int.log 2 |x| = e := by
  have hpos : 0 < |x| := lt_of_lt_of_le (by positivity) h1
  have ha : e ≤ Int.log 2 |x| := by
    have := (Int.zpow_le_iff_le_log (b := 2) (by norm_num) hpos (x := e)).1
    exact this (by exact_mod_cast h1)
  have hb : Int.log 2 |x| < e + 1 := by
    have := (Int.lt_zpow_iff_log_lt (b := 2) (by norm_num) hpos (x := e + 1)).1
    exact this (by exact_mod_cast h2)
  omega

theorem doubleUlp_eq (x : ℚ) (e : ℤ) (h1 : (2 : ℚ) ^ e ≤ |x|)
    (h2 : |x| < (2 : ℚ) ^ (e + 1)) (he : -1022 ≤ e) :
    doubleUlp x = 2 ^ (e - 52) := by
  unfold doubleUlp
  rw [log_eq_of_bounds x e h1 h2, max_eq_left he]

theorem roundToDouble_zero : roundToDouble 0 = 0 := by
  simp [roundToDouble, roundHalfEven]

/-- Evaluation of `roundToDouble`. -/
theorem roundToDouble_eq_of_near (x : ℚ) (e m : ℤ) (h1 : (2 : ℚ) ^ e ≤ |x|)
    (h2 : |x| < (2 : ℚ) ^ (e + 1)) (he : -1022 ≤ e)
    (h3 : (m : ℚ) - 1 / 2 < x / 2 ^ (e - 52)) (h4 : x / 2 ^ (e - 52) < (m : ℚ) + 1 / 2) :
    roundToDouble x = (m : ℚ) * 2 ^ (e - 52) := by
  unfold roundToDouble
  rw [doubleUlp_eq x e h1 h2 he, roundHalfEven_of_near _ m h3 h4]

/-- A natural number below `2 ^ 53` is a `double`. -/
theorem roundToDouble_natCast (r : ℕ) (hr : r < 2 ^ 53) : roundToDouble (r : ℚ) = r := by
  rcases Nat.eq_zero_or_pos r with h0 | hpos
  · subst h0
    simpa using roundToDouble_zero
  have hk : Nat.log 2 r ≤ 52 := by
    have := Nat.log_lt_of_lt_pow (Nat.pos_iff_ne_zero.1 hpos) hr
    omega
  have hu : doubleUlp (r : ℚ) = 2 ^ ((Nat.log 2 r : ℤ) - 52) := by
    unfold doubleUlp
    rw [abs_of_nonneg (Nat.cast_nonneg r), Int.log_natCast, max_eq_left (by omega)]
  have hq : (r : ℚ) / 2 ^ ((Nat.log 2 r : ℤ) - 52)
      = ((r * 2 ^ (52 - Nat.log 2 r) : ℕ) : ℤ) := by
    rw [zpow_sub₀ (by norm_num), zpow_natCast]
    have h52 : (2 : ℚ) ^ (52 : ℤ) = 2 ^ Nat.log 2 r * 2 ^ (52 - Nat.log 2 r) := by
      rw [← pow_add, Nat.add_sub_cancel' hk]
      norm_num
    rw [h52]
    push_cast
    field_simp
    ring
  unfold roundToDouble
  rw [hu, hq, roundHalfEven_intCast, ← hq]
  field_simp

theorem roundHalfEven_of_tie_odd (y : ℚ) (k : ℤ) (hy : y = (k : ℚ) + 1 / 2)
    (hk : k % 2 = 1) : roundHalfEven y = k + 1 := by
  have hf : ⌊y⌋ = k := by
    rw [Int.floor_eq_iff]
    constructor <;> linarith
  unfold roundHalfEven
  rw [hf, hy]
  have h1 : ¬ ((k : ℚ) + 1 / 2 - (k : ℚ) < 1 / 2) := by
    intro h
    linarith
  have h2 : ¬ ((1 : ℚ) / 2 < (k : ℚ) + 1 / 2 - (k : ℚ)) := by
    intro h
    linarith
  have h3 : ¬ (k % 2 = 0) := by omega
  rw [if_neg h1, if_neg h2, if_neg h3]

/-- Evaluation of `roundToDouble` at a tie whose lower neighbour is odd. -/
theorem roundToDouble_eq_of_tie_odd (x : ℚ) (e k : ℤ) (h1 : (2 : ℚ) ^ e ≤ |x|)
    (h2 : |x| < (2 : ℚ) ^ (e + 1)) (he : -1022 ≤ e)
    (h3 : x / 2 ^ (e - 52) = (k : ℚ) + 1 / 2) (hk : k % 2 = 1) :
    roundToDouble x = ((k + 1 : ℤ) : ℚ) * 2 ^ (e - 52) := by
  unfold roundToDouble
  rw [doubleUlp_eq x e h1 h2 he, roundHalfEven_of_tie_odd _ k h3 hk]

theorem roundHalfEven_of_tie_even (y : ℚ) (k : ℤ) (hy : y = (k : ℚ) + 1 / 2)
    (hk : k % 2 = 0) : roundHalfEven y = k := by
  have hf : ⌊y⌋ = k := by
    rw [Int.floor_eq_iff]
    constructor <;> linarith
  unfold roundHalfEven
  rw [hf, hy]
  have h1 : ¬ ((k : ℚ) + 1 / 2 - (k : ℚ) < 1 / 2) := by
    intro h
    linarith
  have h2 : ¬ ((1 : ℚ) / 2 < (k : ℚ) + 1 / 2 - (k : ℚ)) := by
    intro h
    linarith
  rw [if_neg h1, if_neg h2, if_pos hk]

/-- Evaluation of `roundToDouble` at a tie whose lower neighbour is even. -/
theorem roundToDouble_eq_of_tie_even (x : ℚ) (e k : ℤ) (h1 : (2 : ℚ) ^ e ≤ |x|)
    (h2 : |x| < (2 : ℚ) ^ (e + 1)) (he : -1022 ≤ e)
    (h3 : x / 2 ^ (e - 52) = (k : ℚ) + 1 / 2) (hk : k % 2 = 0) :
    roundToDouble x = (k : ℚ) * 2 ^ (e - 52) := by
  unfold roundToDouble
  rw [doubleUlp_eq x e h1 h2 he, roundHalfEven_of_tie_even _ k h3 hk]


/-- Evaluation of `roundToDouble`, the result given. -/
theorem roundToDouble_eval (x r : ℚ) (e m : ℤ) (h1 : (2 : ℚ) ^ e ≤ |x|)
    (h2 : |x| < (2 : ℚ) ^ (e + 1)) (he : -1022 ≤ e)
    (h3 : (m : ℚ) - 1 / 2 < x / 2 ^ (e - 52)) (h4 : x / 2 ^ (e - 52) < (m : ℚ) + 1 / 2)
    (hr : r = (m : ℚ) * 2 ^ (e - 52)) :
    roundToDouble x = r := by
  rw [hr]
  exact roundToDouble_eq_of_near x e m h1 h2 he h3 h4

/-! ## Lemmas on the corner rule -/

section BoxLemmas

variable {N : ℕ}

theorem mem_CornerOffsets {c : IndexType N} :
    c ∈ CornerOffsets N ↔ ∀ i, c i = -1 ∨ c i = 1 := by
  simp [CornerOffsets, Fintype.mem_piFinset]

theorem sum_CornerOffsets_one (F : IndexType 1 → ℚ) :
    (∑ c ∈ CornerOffsets 1, F c) = F ![-1] + F ![1] := by
  have h : CornerOffsets 1 = {![-1], ![1]} := by decide
  rw [h, Finset.sum_pair (by decide)]

theorem directSums_impulse_fst (a : IndexType N) (S : Finset (IndexType N)) :
    (directSums (impulse a) S).1 = if a ∈ S then 1 else 0 := by
  simp [directSums, impulse, Finset.sum_ite_eq']

theorem mem_Icc_one (a lo hi : IndexType 1) :
    a ∈ Finset.Icc lo hi ↔ lo 0 ≤ a 0 ∧ a 0 ≤ hi 0 := by
  simp [Finset.mem_Icc, Pi.le_def, Fin.forall_fin_one]

theorem longLine_body_sum :
    (bodySums (prefixAcc (impulse ![5]) (RegionStart longLine)) ![2 ^ 31]
      ![2 ^ 31 + 1]).1 = 0 := by
  unfold bodySums
  simp only [sum_CornerOffsets_one, prefixAcc, directSums_impulse_fst, mem_Icc_one]
  simp [Weight, RealCorner, toInt, RegionStart, longLine]

theorem longLine_direct_sum :
    (directSums (impulse ![5])
      (Finset.Icc (fun i => (![2 ^ 31 + 1] : IndexType 1) i
          - ((![2 ^ 31] : SizeType 1) i : ℤ))
        (fun i => (![2 ^ 31 + 1] : IndexType 1) i
          + ((![2 ^ 31] : SizeType 1) i : ℤ)))).1 = 1 := by
  simp only [directSums_impulse_fst, mem_Icc_one]
  simp

theorem halfLine_border_sum :
    (borderSums (prefixAcc (impulse ![0]) (RegionStart halfLine)) halfLine ![2 ^ 31]
      ![0]).1 = 0 := by
  unfold borderSums
  simp only [sum_CornerOffsets_one, prefixAcc, directSums_impulse_fst, mem_Icc_one]
  simp [Weight, RealCorner, toInt, RegionStart, RegionLimit, halfLine, IncludeCorner,
    ThisCorner]

theorem halfLine_direct_sum :
    (directSums (impulse ![0])
      (Finset.Icc (fun i => (![0] : IndexType 1) i - ((![2 ^ 31] : SizeType 1) i : ℤ))
          (fun i => (![0] : IndexType 1) i + ((![2 ^ 31] : SizeType 1) i : ℤ))
        ∩ Finset.Icc (RegionStart halfLine) (RegionLimit halfLine))).1 = 1 := by
  simp only [directSums_impulse_fst, Finset.mem_inter, mem_Icc_one]
  simp [RegionStart, RegionLimit, halfLine]

end BoxLemmas

/-! ## Box statistics: the results -/

section BoxResults

variable {N : ℕ}

theorem roundToDouble_one : roundToDouble 1 = 1 := by
  simpa using roundToDouble_natCast 1 (by norm_num)

theorem roundToDouble_neg_one : roundToDouble (-1) = -1 := by
  rw [roundToDouble_eq_of_near (-1) 0 (-(2 ^ 52)) (by norm_num) (by norm_num) (by norm_num)
    (by norm_num) (by norm_num)]
  norm_num

theorem accumulate_pair (fl : ℚ → ℚ) (a b : ℚ) :
    accumulate fl [a, b] = fl (fl (0 + fl a) + fl b) := rfl

theorem bodySumsIn_line_fst (fl : ℚ → ℚ) (accImage : IndexType 1 → ℚ × ℚ)
    (Radius : SizeType 1) (p : IndexType 1) :
    (bodySumsIn fl unitCornersLine accImage Radius p).1
      = fl (fl (0 + fl ((Weight (![-1] : IndexType 1) : ℚ)
              * (accImage (p + RealCorner Radius ![-1])).1))
          + fl ((Weight (![1] : IndexType 1) : ℚ)
              * (accImage (p + RealCorner Radius ![1])).1)) := rfl

theorem longLine_body_sum_double :
    (bodySumsIn roundToDouble unitCornersLine
      (prefixAcc (impulse ![5]) (RegionStart longLine)) ![2 ^ 31] ![2 ^ 31 + 1]).1 = 0 := by
  rw [bodySumsIn_line_fst]
  simp only [prefixAcc, directSums_impulse_fst, mem_Icc_one]
  simp [Weight, RealCorner, toInt, RegionStart, longLine, roundToDouble_one,
    roundToDouble_neg_one, roundToDouble_zero]

theorem borderSumsIn_line_fst (fl : ℚ → ℚ) (accImage : IndexType 1 → ℚ × ℚ)
    (inputRegion : ImageRegion 1) (Radius : SizeType 1) (p : IndexType 1)
    (h1 : IncludeCorner inputRegion Radius p ![-1] = true)
    (h2 : IncludeCorner inputRegion Radius p ![1] = true) :
    (borderSumsIn fl unitCornersLine accImage inputRegion Radius p).1
      = fl (fl (0 + fl ((Weight (![-1] : IndexType 1) : ℚ)
              * (accImage (ThisCorner inputRegion Radius p ![-1])).1))
          + fl ((Weight (![1] : IndexType 1) : ℚ)
              * (accImage (ThisCorner inputRegion Radius p ![1])).1)) := by
  unfold borderSumsIn unitCornersLine
  simp only [List.filter, h1, h2, List.map]
  rfl

theorem halfLine_border_sum_double :
    (borderSumsIn roundToDouble unitCornersLine
      (prefixAcc (impulse ![0]) (RegionStart halfLine)) halfLine ![2 ^ 31] ![0]).1 = 0 := by
  have h1 : IncludeCorner halfLine ![2 ^ 31] ![0] ![-1] = true := by
    simp [IncludeCorner, RealCorner, toInt, RegionStart, halfLine]
  have h2 : IncludeCorner halfLine ![2 ^ 31] ![0] ![1] = true := by
    simp [IncludeCorner]
  rw [borderSumsIn_line_fst _ _ _ _ _ h1 h2]
  simp only [prefixAcc, directSums_impulse_fst, mem_Icc_one]
  simp [Weight, RealCorner, toInt, RegionStart, RegionLimit, halfLine, ThisCorner,
    roundToDouble_one, roundToDouble_neg_one, roundToDouble_zero]

/-- C1: the code at a failing input.  On a line of `2 ^ 33` pixels with radius `2 ^ 31`
the pixel `2 ^ 31 + 1` satisfies the body-face condition; the `(int)` conversion turns
the trailing offset `-(2 ^ 31 + 1)` into `2 ^ 31 - 1`, so both corner iterators stand
behind the impulse at pixel `5`, and the loop computes `Sum = 0`, in `double` as in exact
arithmetic, while the impulse lies in the box `[1, 2 ^ 32 + 1]`, whose direct sum
is `1`. -/
theorem body_pixel_large_radius_defect :
    longLine.IsInside (fun i => (![2 ^ 31 + 1] : IndexType 1) i
        - (((![2 ^ 31] : SizeType 1) i : ℤ) + 1))
    ∧ longLine.IsInside (fun i => (![2 ^ 31 + 1] : IndexType 1) i
        + ((![2 ^ 31] : SizeType 1) i : ℤ))
    ∧ RealCorner (![2 ^ 31] : SizeType 1) ![-1] 0 = 2 ^ 31 - 1
    ∧ (bodySumsIn roundToDouble unitCornersLine
          (prefixAcc (impulse ![5]) (RegionStart longLine)) ![2 ^ 31] ![2 ^ 31 + 1]).1 = 0
    ∧ (bodySums (prefixAcc (impulse ![5]) (RegionStart longLine)) ![2 ^ 31]
          ![2 ^ 31 + 1]).1 = 0
    ∧ (directSums (impulse ![5])
          (Finset.Icc (fun i => (![2 ^ 31 + 1] : IndexType 1) i
              - ((![2 ^ 31] : SizeType 1) i : ℤ))
            (fun i => (![2 ^ 31 + 1] : IndexType 1) i
              + ((![2 ^ 31] : SizeType 1) i : ℤ)))).1 = 1 := by
  refine ⟨?_, ?_, ?_, longLine_body_sum_double, longLine_body_sum, longLine_direct_sum⟩
  · intro i
    simp [longLine]
  · intro i
    simp [longLine]
  · simp [RealCorner, toInt]

/-- C2: the code at a failing input.  On a line of `2 ^ 31 + 1` pixels with radius
`2 ^ 31` the pixel `0` is a border pixel whose box covers the whole line; the trailing
corner, which lies before the region and should be dropped, is placed by the `(int)`
conversion at `2 ^ 31 - 1`, inside the region, and is subtracted: for the impulse at
pixel `0` the loop computes `Sum = 0`, in `double` as in exact arithmetic, while the
direct sum over the box cut to the region is `1`. -/
theorem border_pixel_large_radius_defect :
    halfLine.IsInside ![0]
    ∧ ¬ halfLine.IsInside (fun i => (![0] : IndexType 1) i
        - (((![2 ^ 31] : SizeType 1) i : ℤ) + 1))
    ∧ IncludeCorner halfLine ![2 ^ 31] ![0] ![-1] = true
    ∧ (borderSumsIn roundToDouble unitCornersLine
          (prefixAcc (impulse ![0]) (RegionStart halfLine)) halfLine ![2 ^ 31] ![0]).1 = 0
    ∧ (borderSums (prefixAcc (impulse ![0]) (RegionStart halfLine)) halfLine ![2 ^ 31]
          ![0]).1 = 0
    ∧ (directSums (impulse ![0])
          (Finset.Icc (fun i => (![0] : IndexType 1) i - ((![2 ^ 31] : SizeType 1) i : ℤ))
              (fun i => (![0] : IndexType 1) i + ((![2 ^ 31] : SizeType 1) i : ℤ))
            ∩ Finset.Icc (RegionStart halfLine) (RegionLimit halfLine))).1 = 1 := by
  refine ⟨?_, ?_, ?_, halfLine_border_sum_double, halfLine_border_sum, halfLine_direct_sum⟩
  · intro i
    simp [halfLine]
  · intro h
    have := h 0
    simp [halfLine] at this
  · simp [IncludeCorner, RealCorner, toInt, RegionStart, halfLine]

end BoxResults

/-! ## The value written: a scaled standard deviation -/

section StatisticsResults

variable {N n : ℕ}

/-- The table `tenthLineAcc` holds the running sums, in `double` arithmetic, of the line
of constant value `tenth` and of its rounded square. -/
theorem tenthLineAcc_running_sums :
    tenthLineAcc ![0] = (roundToDouble (0 + tenth), roundToDouble (0 + roundToDouble (tenth * tenth)))
    ∧ tenthLineAcc ![1] = (roundToDouble ((tenthLineAcc ![0]).1 + tenth),
        roundToDouble ((tenthLineAcc ![0]).2 + roundToDouble (tenth * tenth)))
    ∧ tenthLineAcc ![2] = (roundToDouble ((tenthLineAcc ![1]).1 + tenth),
        roundToDouble ((tenthLineAcc ![1]).2 + roundToDouble (tenth * tenth)))
    ∧ tenthLineAcc ![3] = (roundToDouble ((tenthLineAcc ![2]).1 + tenth),
        roundToDouble ((tenthLineAcc ![2]).2 + roundToDouble (tenth * tenth))) := by
  have a0 : tenthLineAcc ![0] = (3602879701896397 / 2 ^ 55, 1441151880758559 / 2 ^ 57) := by
    simp [tenthLineAcc]
  have a1 : tenthLineAcc ![1] = (3602879701896397 / 2 ^ 54, 1441151880758559 / 2 ^ 56) := by
    simp [tenthLineAcc]
  have a2 : tenthLineAcc ![2] = (1351079888211149 / 2 ^ 52, 4323455642275677 / 2 ^ 57) := by
    simp [tenthLineAcc]
  have a3 : tenthLineAcc ![3] = (3602879701896397 / 2 ^ 53, 1441151880758559 / 2 ^ 55) := by
    simp [tenthLineAcc]
  have ht : tenth = 3602879701896397 / 2 ^ 55 := rfl
  have hsq : roundToDouble ((3602879701896397 / 2 ^ 55 : ℚ) * (3602879701896397 / 2 ^ 55))
      = 1441151880758559 / 2 ^ 57 :=
    roundToDouble_eval _ _ (-7) 5764607523034236 (by norm_num [abs_of_pos])
      (by norm_num [abs_of_pos]) (by norm_num) (by norm_num) (by norm_num) (by norm_num)
  have s0 : roundToDouble ((0 : ℚ) + 3602879701896397 / 2 ^ 55) = 3602879701896397 / 2 ^ 55 :=
    roundToDouble_eval _ _ (-4) 7205759403792794 (by norm_num [abs_of_pos])
      (by norm_num [abs_of_pos]) (by norm_num) (by norm_num) (by norm_num) (by norm_num)
  have q0 : roundToDouble ((0 : ℚ) + 1441151880758559 / 2 ^ 57) = 1441151880758559 / 2 ^ 57 :=
    roundToDouble_eval _ _ (-7) 5764607523034236 (by norm_num [abs_of_pos])
      (by norm_num [abs_of_pos]) (by norm_num) (by norm_num) (by norm_num) (by norm_num)
  have s1 : roundToDouble ((3602879701896397 / 2 ^ 55 : ℚ) + 3602879701896397 / 2 ^ 55)
      = 3602879701896397 / 2 ^ 54 :=
    roundToDouble_eval _ _ (-3) 7205759403792794 (by norm_num [abs_of_pos])
      (by norm_num [abs_of_pos]) (by norm_num) (by norm_num) (by norm_num) (by norm_num)
  have q1 : roundToDouble ((1441151880758559 / 2 ^ 57 : ℚ) + 1441151880758559 / 2 ^ 57)
      = 1441151880758559 / 2 ^ 56 :=
    roundToDouble_eval _ _ (-6) 5764607523034236 (by norm_num [abs_of_pos])
      (by norm_num [abs_of_pos]) (by norm_num) (by norm_num) (by norm_num) (by norm_num)
  have s2 : roundToDouble ((3602879701896397 / 2 ^ 54 : ℚ) + 3602879701896397 / 2 ^ 55)
      = 1351079888211149 / 2 ^ 52 := by
    rw [roundToDouble_eq_of_tie_odd _ (-2) 5404319552844595 (by norm_num [abs_of_pos])
      (by norm_num [abs_of_pos]) (by norm_num) (by norm_num) (by norm_num)]
    norm_num
  have q2 : roundToDouble ((1441151880758559 / 2 ^ 56 : ℚ) + 1441151880758559 / 2 ^ 57)
      = 4323455642275677 / 2 ^ 57 :=
    roundToDouble_eval _ _ (-6) 8646911284551354 (by norm_num [abs_of_pos])
      (by norm_num [abs_of_pos]) (by norm_num) (by norm_num) (by norm_num) (by norm_num)
  have s3 : roundToDouble ((1351079888211149 / 2 ^ 52 : ℚ) + 3602879701896397 / 2 ^ 55)
      = 3602879701896397 / 2 ^ 53 := by
    rw [roundToDouble_eq_of_tie_even _ (-2) 7205759403792794 (by norm_num [abs_of_pos])
      (by norm_num [abs_of_pos]) (by norm_num) (by norm_num) (by norm_num)]
    norm_num
  have q3 : roundToDouble ((4323455642275677 / 2 ^ 57 : ℚ) + 1441151880758559 / 2 ^ 57)
      = 1441151880758559 / 2 ^ 55 :=
    roundToDouble_eval _ _ (-5) 5764607523034236 (by norm_num [abs_of_pos])
      (by norm_num [abs_of_pos]) (by norm_num) (by norm_num) (by norm_num) (by norm_num)
  rw [a0, a1, a2, a3, ht]
  simp only [hsq, s0, q0, s1, q1, s2, q2, s3, q3, and_self]

end StatisticsResults

/-! ## Unsigned arithmetic: lemmas -/

theorem ulongPred_of_pos (x : ℕ) (h1 : 1 ≤ x) (h2 : x < 2 ^ 64) : ulongPred x = x - 1 := by
  unfold ulongPred
  norm_num at h2 ⊢
  omega

theorem ulongPred_zero : ulongPred 0 = 2 ^ 64 - 1 := by
  unfold ulongPred
  norm_num

theorem eq_ulongPred_iff (l L : ℕ) (h1 : 1 ≤ L) (h2 : L < 2 ^ 64) :
    l = ulongPred L ↔ l + 1 = L := by
  rw [ulongPred_of_pos L h1 h2]
  omega

namespace BlockMatching

/-! ## Level transitions: the results -/

namespace MultiResolutionIterationDisplacementCalculatorCommand

theorem atLastLevel_atLevel (self : MultiResolutionIterationDisplacementCalculatorCommand)
    (l L : ℕ) : (self.atLevel l L).atLastLevel = decide (l = ulongPred L) := rfl

theorem execute_without_regularizer_aux
    (self : MultiResolutionIterationDisplacementCalculatorCommand) (l L c0 cN : ℕ)
    (h0 : self.m_Level0ToNMinus1DisplacementCalculator = some c0)
    (hN : self.m_LevelNDisplacementCalculator = some cN)
    (hreg : self.m_Regularizer = none) :
    (Execute (self.atLevel l L)).state.m_MultiResolutionMethod.m_ImageRegistrationMethod.m_MetricImageToDisplacementCalculator
        = (if l = ulongPred L then some cN else some c0) := by
  by_cases h : l = ulongPred L <;>
    simp [Execute, atLevel, atLastLevel, SetMetricImageToDisplacementCalculator, h0, hN,
      hreg, h]

/-- C4: with both calculators set and no regularizer configured, for every current
level `l` and number of levels `L`, `Execute` raises nothing and sets the registration
method's metric-image-to-displacement calculator to the terminal (`LevelN`) calculator
if `l == L - 1` and to the intermediate (`Level0ToNMinus1`) calculator otherwise.
Here `L - 1` is the `unsigned long` difference of the source; for `1 ≤ L < 2 ^ 64` the
test `l == L - 1` says `l + 1 = L`. -/
theorem execute_without_regularizer
    (self : MultiResolutionIterationDisplacementCalculatorCommand) (l L c0 cN : ℕ)
    (h0 : self.m_Level0ToNMinus1DisplacementCalculator = some c0)
    (hN : self.m_LevelNDisplacementCalculator = some cN)
    (hreg : self.m_Regularizer = none) :
    (Execute (self.atLevel l L)).raised = none
    ∧ (Execute (self.atLevel l L)).state.m_MultiResolutionMethod.m_ImageRegistrationMethod.m_MetricImageToDisplacementCalculator
        = (if l = ulongPred L then some cN else some c0)
    ∧ (1 ≤ L → L < 2 ^ 64 → (l = ulongPred L ↔ l + 1 = L)) := by
  refine ⟨?_, ?_, eq_ulongPred_iff l L⟩
  · by_cases h : l = ulongPred L <;>
      simp [Execute, atLevel, atLastLevel, SetMetricImageToDisplacementCalculator, h0, hN,
        hreg, h]
  · by_cases h : l = ulongPred L <;>
      simp [Execute, atLevel, atLastLevel, SetMetricImageToDisplacementCalculator, h0, hN,
        hreg, h]

/-- C4 on the sample command at the levels `2` and `1` of `3`. -/
theorem execute_without_regularizer_witness :
    (Execute (sampleCommand.atLevel 2 3)).state.m_MultiResolutionMethod.m_ImageRegistrationMethod.m_MetricImageToDisplacementCalculator
        = some 2
    ∧ (Execute (sampleCommand.atLevel 1 3)).state.m_MultiResolutionMethod.m_ImageRegistrationMethod.m_MetricImageToDisplacementCalculator
        = some 1 :=
  ⟨(execute_without_regularizer sampleCommand 2 3 1 2 rfl rfl rfl).2.1.trans
      (if_pos (by decide)),
   (execute_without_regularizer sampleCommand 1 3 1 2 rfl rfl rfl).2.1.trans
      (if_neg (by decide))⟩

/-- C5: with both calculators set and a regularizer configured, `Execute` raises
nothing; if `l == L - 1` the regularizer's displacement calculator becomes the terminal
calculator and its maximum iterations `LevelNRegularizerIterations`, otherwise its
displacement calculator becomes the intermediate calculator and its maximum iterations
`Level0ToNMinus1RegularizerIterations`.  (`L - 1` is the `unsigned long` difference of
the source.) -/
theorem execute_with_regularizer
    (self : MultiResolutionIterationDisplacementCalculatorCommand) (l L c0 cN : ℕ)
    (regularizer : Regularizer)
    (h0 : self.m_Level0ToNMinus1DisplacementCalculator = some c0)
    (hN : self.m_LevelNDisplacementCalculator = some cN)
    (hreg : self.m_Regularizer = some regularizer) :
    (Execute (self.atLevel l L)).raised = none
    ∧ (l = ulongPred L →
        (Execute (self.atLevel l L)).state.m_Regularizer
          = some { regularizer with
                   m_DisplacementCalculator := some cN
                   m_MaximumIterations := self.m_LevelNRegularizerIterations })
    ∧ (l ≠ ulongPred L →
        (Execute (self.atLevel l L)).state.m_Regularizer
          = some { regularizer with
                   m_DisplacementCalculator := some c0
                   m_MaximumIterations := self.m_Level0ToNMinus1RegularizerIterations })
    ∧ (1 ≤ L → L < 2 ^ 64 → (l = ulongPred L ↔ l + 1 = L)) := by
  refine ⟨?_, fun h => ?_, fun h => ?_, eq_ulongPred_iff l L⟩
  · by_cases h : l = ulongPred L <;>
      simp [Execute, atLevel, atLastLevel, h0, hN, hreg, h]
  · simp [Execute, atLevel, atLastLevel, h0, hN, hreg, h]
  · simp [Execute, atLevel, atLastLevel, h0, hN, hreg, h]

/-- C5 on the regularized sample command at the last level `2` of `3`. -/
theorem execute_with_regularizer_witness :
    (Execute (regularizedCommand.atLevel 2 3)).state.m_Regularizer
      = some { Self := 3, m_DisplacementCalculator := some 2, m_MaximumIterations := 9 } :=
  (execute_with_regularizer regularizedCommand 2 3 1 2 sampleRegularizer rfl rfl rfl).2.1
    (by decide)

/-- C6 (as amended): with a regularizer configured, `Execute` leaves the multi-resolution
method, and with it the registration method's metric-image-to-displacement calculator,
exactly as it was before the call (the statement that would install the regularizer is
commented out in the source); so after the call the calculator is the regularizer if
and only if it already was before. -/
theorem execute_with_regularizer_keeps_registration_calculator
    (self : MultiResolutionIterationDisplacementCalculatorCommand)
    (regularizer : Regularizer) (hreg : self.m_Regularizer = some regularizer) :
    (Execute self).state.m_MultiResolutionMethod = self.m_MultiResolutionMethod
    ∧ ((Execute self).state.m_MultiResolutionMethod.m_ImageRegistrationMethod.m_MetricImageToDisplacementCalculator
          = some regularizer.Self
        ↔ self.m_MultiResolutionMethod.m_ImageRegistrationMethod.m_MetricImageToDisplacementCalculator
          = some regularizer.Self) := by
  have h : (Execute self).state.m_MultiResolutionMethod = self.m_MultiResolutionMethod := by
    unfold Execute
    split_ifs <;> simp [hreg]
  exact ⟨h, by rw [h]⟩

/-- C6 (as amended) on the regularized sample command. -/
theorem execute_with_regularizer_keeps_registration_calculator_witness :
    (Execute regularizedCommand).state.m_MultiResolutionMethod
      = regularizedCommand.m_MultiResolutionMethod :=
  (execute_with_regularizer_keeps_registration_calculator regularizedCommand
    sampleRegularizer rfl).1

/-- C6, the claim as stated fails: on the regularized sample command (regularizer of
identity `3`, both calculators set) `Execute` raises nothing and the registration
method's calculator is afterwards still object `7`, not the regularizer. -/
theorem execute_does_not_install_regularizer_counterexample :
    regularizedCommand.m_Regularizer = some sampleRegularizer
    ∧ (Execute regularizedCommand).raised = none
    ∧ (Execute regularizedCommand).state.m_MultiResolutionMethod.m_ImageRegistrationMethod.m_MetricImageToDisplacementCalculator
        = some 7
    ∧ (Execute regularizedCommand).state.m_MultiResolutionMethod.m_ImageRegistrationMethod.m_MetricImageToDisplacementCalculator
        ≠ some sampleRegularizer.Self := by
  decide

/-- C7: `Execute` raises an exception if and only if the intermediate
(`Level0ToNMinus1`) calculator or the terminal (`LevelN`) calculator is unset, whatever
the level and the number of levels and whether or not a regularizer is configured. -/
theorem execute_raises_iff_calculator_unset
    (self : MultiResolutionIterationDisplacementCalculatorCommand) :
    (Execute self).raised ≠ none
      ↔ (self.m_Level0ToNMinus1DisplacementCalculator = none
          ∨ self.m_LevelNDisplacementCalculator = none) := by
  unfold Execute
  by_cases h0 : self.m_Level0ToNMinus1DisplacementCalculator = none
  · simp [h0]
  · by_cases hN : self.m_LevelNDisplacementCalculator = none
    · simp [h0, hN]
    · cases hreg : self.m_Regularizer <;> by_cases hl : self.atLastLevel = true <;>
        simp [h0, hN, hl]

theorem filter_range_eq_last (k : ℕ) :
    (List.range (k + 1)).filter (fun l => decide (l = k)) = [k] := by
  rw [List.range_succ, List.filter_append]
  have h : (List.range k).filter (fun l => decide (l = k)) = [] := by
    rw [List.filter_eq_nil_iff]
    intro l hl
    have := List.mem_range.1 hl
    simp
    omega
  simp [h]

/-- What `Execute` leaves behind at a level, in terms of the outcome of the level test. -/
theorem execute_atLevel_flag
    (self : MultiResolutionIterationDisplacementCalculatorCommand) (l L : ℕ) :
    (Execute (self.atLevel l L)).raised = (Execute self).raised
    ∧ (Execute (self.atLevel l L)).state.m_Regularizer
        = (if self.m_Level0ToNMinus1DisplacementCalculator = none then self.m_Regularizer
           else if self.m_LevelNDisplacementCalculator = none then self.m_Regularizer
           else self.m_Regularizer.map fun regularizer =>
            if decide (l = ulongPred L) = true then
              { regularizer with
                m_DisplacementCalculator := self.m_LevelNDisplacementCalculator
                m_MaximumIterations := self.m_LevelNRegularizerIterations }
            else
              { regularizer with
                m_DisplacementCalculator := self.m_Level0ToNMinus1DisplacementCalculator
                m_MaximumIterations := self.m_Level0ToNMinus1RegularizerIterations })
    ∧ (Execute (self.atLevel l L)).state.m_MultiResolutionMethod.m_ImageRegistrationMethod
        = (if self.m_Level0ToNMinus1DisplacementCalculator = none
             ∨ self.m_LevelNDisplacementCalculator = none
             ∨ self.m_Regularizer ≠ none
           then self.m_MultiResolutionMethod.m_ImageRegistrationMethod
           else if decide (l = ulongPred L) = true then
             { m_MetricImageToDisplacementCalculator := self.m_LevelNDisplacementCalculator }
           else
             { m_MetricImageToDisplacementCalculator :=
                 self.m_Level0ToNMinus1DisplacementCalculator }) := by
  have hflag : (self.atLevel l L).atLastLevel = decide (l = ulongPred L) := rfl
  unfold Execute
  rw [hflag]
  show _ ∧ _ ∧ _
  cases hb : decide (l = ulongPred L) <;>
    cases h0 : self.m_Level0ToNMinus1DisplacementCalculator <;>
    cases hN : self.m_LevelNDisplacementCalculator <;>
    cases hreg : self.m_Regularizer <;>
    cases hs : self.atLastLevel <;>
    simp [atLevel, SetMetricImageToDisplacementCalculator, h0, hN, hreg, hs]
/-- C8: for `L ≥ 1` levels and a configuration with both calculators set, executing
the command at each level `0, …, L - 1` raises nothing and installs the terminal
calculator (and, with a regularizer, the terminal iteration budget) at level `L - 1`
and the intermediate binding at every other level; the levels at which the terminal
binding is chosen are exactly the one level `L - 1`; and what `Execute` installs
depends on the level and the number of levels only through the truth value of
`level == L - 1`. -/
theorem terminal_binding_exactly_at_last_level
    (self : MultiResolutionIterationDisplacementCalculatorCommand) (L c0 cN : ℕ)
    (hL1 : 1 ≤ L) (hL : L < 2 ^ 64)
    (h0 : self.m_Level0ToNMinus1DisplacementCalculator = some c0)
    (hN : self.m_LevelNDisplacementCalculator = some cN) :
    (∀ l, l < L →
      (Execute (self.atLevel l L)).raised = none
      ∧ (self.m_Regularizer = none →
          (Execute (self.atLevel l L)).state.m_MultiResolutionMethod.m_ImageRegistrationMethod.m_MetricImageToDisplacementCalculator
            = if l = L - 1 then some cN else some c0)
      ∧ (∀ regularizer, self.m_Regularizer = some regularizer →
          (Execute (self.atLevel l L)).state.m_Regularizer
            = some { regularizer with
                     m_DisplacementCalculator := if l = L - 1 then some cN else some c0
                     m_MaximumIterations :=
                       if l = L - 1 then self.m_LevelNRegularizerIterations
                       else self.m_Level0ToNMinus1RegularizerIterations }))
    ∧ (List.range L).filter (fun l => (self.atLevel l L).atLastLevel) = [L - 1]
    ∧ (∀ l₁ L₁ l₂ L₂,
        (self.atLevel l₁ L₁).atLastLevel = (self.atLevel l₂ L₂).atLastLevel →
        (Execute (self.atLevel l₁ L₁)).raised = (Execute (self.atLevel l₂ L₂)).raised
        ∧ (Execute (self.atLevel l₁ L₁)).state.m_Regularizer
            = (Execute (self.atLevel l₂ L₂)).state.m_Regularizer
        ∧ (Execute (self.atLevel l₁ L₁)).state.m_MultiResolutionMethod.m_ImageRegistrationMethod
            = (Execute (self.atLevel l₂ L₂)).state.m_MultiResolutionMethod.m_ImageRegistrationMethod) := by
  have hpred := ulongPred_of_pos L hL1 hL
  refine ⟨fun l _ => ⟨?_, fun hreg => ?_, fun regularizer hreg => ?_⟩, ?_, ?_⟩
  · cases hreg : self.m_Regularizer <;> by_cases h : l = ulongPred L <;>
      simp [Execute, atLevel, atLastLevel, SetMetricImageToDisplacementCalculator, h0, hN,
        hreg, h]
  · rw [← hpred]
    exact (execute_without_regularizer_aux self l L c0 cN h0 hN hreg)
  · rw [← hpred]
    by_cases h : l = ulongPred L <;>
      simp [Execute, atLevel, atLastLevel, h0, hN, hreg, h]
  · simp only [atLastLevel_atLevel, hpred]
    obtain ⟨k, rfl⟩ : ∃ k, L = k + 1 := ⟨L - 1, by omega⟩
    simpa using filter_range_eq_last k
  · intro l₁ L₁ l₂ L₂ h
    simp only [atLastLevel_atLevel] at h
    obtain ⟨a1, a2, a3⟩ := execute_atLevel_flag self l₁ L₁
    obtain ⟨b1, b2, b3⟩ := execute_atLevel_flag self l₂ L₂
    exact ⟨a1.trans b1.symm, by rw [a2, b2, h], by rw [a3, b3, h]⟩

/-- C8 on the sample command with three levels: the terminal calculator `2` at level
`2`, the intermediate calculator `1` at level `0`. -/
theorem terminal_binding_exactly_at_last_level_witness :
    (Execute (sampleCommand.atLevel 2 3)).raised = none
    ∧ (List.range 3).filter (fun l => (sampleCommand.atLevel l 3).atLastLevel) = [3 - 1] :=
  ⟨((terminal_binding_exactly_at_last_level sampleCommand 3 1 2 (by decide) (by norm_num)
      rfl rfl).1 2 (by decide)).1,
   (terminal_binding_exactly_at_last_level sampleCommand 3 1 2 (by decide) (by norm_num)
      rfl rfl).2.1⟩

end MultiResolutionIterationDisplacementCalculatorCommand

/-! ## `SetFixedImageRegion`: the results -/

namespace MetricImageFilter

variable {N : ℕ}

theorem cropAxis_size_le (idx : ℤ) (size : ℕ) (oidx : ℤ) (osize : ℕ) :
    (ImageRegion.cropAxis idx size oidx osize).2 ≤ size := by
  unfold ImageRegion.cropAxis
  simp only
  split_ifs <;> omega

theorem crop_size_le (R other : ImageRegion N) (i : Fin N) :
    (R.Crop other).2.Size i ≤ R.Size i := by
  unfold ImageRegion.Crop
  split_ifs
  · exact cropAxis_size_le _ _ _ _
  · exact le_refl _

/-- The state after a successful call, in terms of the cropped region. -/
theorem SetFixedImageRegion_success (self : MetricImageFilter N) (region : ImageRegion N)
    (fixedPtr : ImageInformation N) (hfixed : self.FixedImage = some fixedPtr)
    (hok : (SetFixedImageRegion self region).raised = none) :
    ∃ movingPtr, self.MovingImage = some movingPtr
      ∧ (region.Crop fixedPtr.LargestPossibleRegion).1 = true
      ∧ (SetFixedImageRegion self region).state.m_FixedImageRegion
          = { Index := (region.Crop fixedPtr.LargestPossibleRegion).2.Index
              Size := fixedSize (region.Crop fixedPtr.LargestPossibleRegion).2 }
      ∧ (SetFixedImageRegion self region).state.m_FixedRadius
          = FixedRadius (region.Crop fixedPtr.LargestPossibleRegion).2
      ∧ (SetFixedImageRegion self region).state.m_MovingRadius
          = MovingRadius (FixedRadius (region.Crop fixedPtr.LargestPossibleRegion).2)
              fixedPtr.Spacing movingPtr.Spacing := by
  unfold SetFixedImageRegion at hok ⊢
  simp only [hfixed] at hok ⊢
  by_cases hc : (region.Crop fixedPtr.LargestPossibleRegion).1 = true
  · cases hm : self.MovingImage with
    | none => simp [hc, hm] at hok
    | some movingPtr =>
      refine ⟨movingPtr, rfl, hc, ?_⟩
      simp [hc]
  · simp [hc] at hok

theorem fixedSize_facts (c : ℕ) (hc : c < 2 ^ 64) :
    (if c % 2 = 0 then ulongPred c else c) % 2 = 1
    ∧ (if c % 2 = 0 then ulongPred c else c)
        = 2 * (ulongPred (if c % 2 = 0 then ulongPred c else c) / 2) + 1
    ∧ ulongPred (if c % 2 = 0 then ulongPred c else c) / 2
        = ((if c % 2 = 0 then ulongPred c else c) - 1) / 2
    ∧ (c % 2 = 1 → (if c % 2 = 0 then ulongPred c else c) = c)
    ∧ (c % 2 = 0 → 1 ≤ c → (if c % 2 = 0 then ulongPred c else c) + 1 = c) := by
  unfold ulongPred
  norm_num at hc ⊢
  split_ifs <;> omega

/-- What a successful `SetFixedImageRegion` stores, in `unsigned long` arithmetic: on
every axis the stored size is odd and equals `2 * FixedRadius + 1`, with
`FixedRadius = (size - 1) / 2`; an odd size after cropping to the fixed image is kept,
and an even size after cropping that is not zero is reduced by exactly one.  The size
`0` after cropping is not covered by the last two parts: the decrement wraps there. -/
theorem stored_fixed_region_size_is_odd (self : MetricImageFilter N)
    (region : ImageRegion N) (fixedPtr : ImageInformation N)
    (hfixed : self.FixedImage = some fixedPtr)
    (hsize : ∀ i, region.Size i < 2 ^ 64)
    (hok : (SetFixedImageRegion self region).raised = none) (i : Fin N) :
    (SetFixedImageRegion self region).state.m_FixedImageRegion.Size i % 2 = 1
    ∧ (SetFixedImageRegion self region).state.m_FixedImageRegion.Size i
        = 2 * (SetFixedImageRegion self region).state.m_FixedRadius i + 1
    ∧ (SetFixedImageRegion self region).state.m_FixedRadius i
        = ((SetFixedImageRegion self region).state.m_FixedImageRegion.Size i - 1) / 2
    ∧ ((region.Crop fixedPtr.LargestPossibleRegion).2.Size i % 2 = 1 →
        (SetFixedImageRegion self region).state.m_FixedImageRegion.Size i
          = (region.Crop fixedPtr.LargestPossibleRegion).2.Size i)
    ∧ ((region.Crop fixedPtr.LargestPossibleRegion).2.Size i % 2 = 0 →
        1 ≤ (region.Crop fixedPtr.LargestPossibleRegion).2.Size i →
        (SetFixedImageRegion self region).state.m_FixedImageRegion.Size i + 1
          = (region.Crop fixedPtr.LargestPossibleRegion).2.Size i) := by
  obtain ⟨movingPtr, _, _, hregion, hradius, _⟩ :=
    SetFixedImageRegion_success self region fixedPtr hfixed hok
  rw [hregion, hradius]
  have hc : (region.Crop fixedPtr.LargestPossibleRegion).2.Size i < 2 ^ 64 :=
    lt_of_le_of_lt (crop_size_le region fixedPtr.LargestPossibleRegion i) (hsize i)
  exact fixedSize_facts _ hc

/-- The statement on the ten-pixel image: the requested region `[-2, 3]` is cropped to
`[0, 3]`, of even size `4`, and stored with size `3`. -/
theorem stored_fixed_region_size_is_odd_witness :
    (SetFixedImageRegion freshFilter { Index := ![-2], Size := ![6] }).raised = none
    ∧ (SetFixedImageRegion freshFilter
        { Index := ![-2], Size := ![6] }).state.m_FixedImageRegion.Size 0 % 2 = 1 :=
  ⟨by decide,
   (stored_fixed_region_size_is_odd freshFilter { Index := ![-2], Size := ![6] }
      tenPixelImage rfl (by intro i; simp) (by decide) 0).1⟩

/-- C9: the code at a failing input.  On the ten-pixel image the requested region of
start `1` and size `0` is accepted, its size after cropping is `0`, an even number, and
the unsigned decrement `fixedSize[i]--` wraps: the size stored is `2 ^ 64 - 1`, with
radius `2 ^ 63 - 1`, not a size reduced by one. -/
theorem zero_size_region_defect :
    (SetFixedImageRegion freshFilter { Index := ![1], Size := ![0] }).raised = none
    ∧ (({ Index := ![1], Size := ![0] } : ImageRegion 1).Crop
        tenPixelImage.LargestPossibleRegion).2.Size 0 = 0
    ∧ (SetFixedImageRegion freshFilter
        { Index := ![1], Size := ![0] }).state.m_FixedImageRegion.Size 0 = 2 ^ 64 - 1
    ∧ (SetFixedImageRegion freshFilter
        { Index := ![1], Size := ![0] }).state.m_FixedRadius 0 = 2 ^ 63 - 1
    ∧ (SetFixedImageRegion freshFilter
        { Index := ![1], Size := ![0] }).state.m_FixedImageRegion.Size 0 + 1
        ≠ (({ Index := ![1], Size := ![0] } : ImageRegion 1).Crop
            tenPixelImage.LargestPossibleRegion).2.Size 0 := by
  have hposs : (({ Index := ![1], Size := ![0] } : ImageRegion 1).cropPossible
      ({ Index := ![0], Size := ![10] } : ImageRegion 1)) = true := by
    decide
  have hsize0 : (({ Index := ![1], Size := ![0] } : ImageRegion 1).Crop
      tenPixelImage.LargestPossibleRegion).2.Size 0 = 0 := by
    simp [ImageRegion.Crop, hposs, ImageRegion.cropAxis, tenPixelImage]
  have hstate : (SetFixedImageRegion freshFilter
      { Index := ![1], Size := ![0] }).state.m_FixedImageRegion.Size 0 = 2 ^ 64 - 1 := by
    simp [SetFixedImageRegion, freshFilter, ImageRegion.Crop, hposs, fixedSize, ulongPred,
      ImageRegion.cropAxis, tenPixelImage]
  refine ⟨?_, hsize0, hstate, ?_, ?_⟩
  · decide
  · simp [SetFixedImageRegion, freshFilter, ImageRegion.Crop, hposs, FixedRadius, fixedSize,
      ulongPred, ImageRegion.cropAxis, tenPixelImage]
  · rw [hstate, hsize0]
    norm_num

/-! ### Cropping and overlap -/

theorem cropPossible_iff (R other : ImageRegion N) :
    R.cropPossible other = true
      ↔ ∀ i, R.Index i < other.Index i + (other.Size i : ℤ)
          ∧ other.Index i < R.Index i + (R.Size i : ℤ) := by
  unfold ImageRegion.cropPossible
  rw [decide_eq_true_eq]
  refine forall_congr' fun i => ?_
  constructor <;> rintro ⟨h1, h2⟩ <;> exact ⟨by omega, by omega⟩

/-- For regions with at least one pixel along every axis, cropping is possible exactly
when the regions have a pixel in common. -/
theorem cropPossible_iff_overlaps (R other : ImageRegion N)
    (hR : ∀ i, 1 ≤ R.Size i) (hO : ∀ i, 1 ≤ other.Size i) :
    R.cropPossible other = true ↔ R.Overlaps other := by
  rw [cropPossible_iff]
  constructor
  · intro h
    refine ⟨fun i => if R.Index i ≤ other.Index i then other.Index i else R.Index i,
      fun i => ?_, fun i => ?_⟩
    · have := h i
      have := hR i
      have := hO i
      dsimp only
      split_ifs <;> constructor <;> omega
    · have := h i
      have := hR i
      have := hO i
      dsimp only
      split_ifs <;> constructor <;> omega
  · rintro ⟨u, hu1, hu2⟩ i
    have := hu1 i
    have := hu2 i
    constructor <;> omega

/-- When cropping is possible the cropped region holds exactly the pixels common to
the two regions. -/
theorem crop_isInside_iff (R other : ImageRegion N) (h : R.cropPossible other = true)
    (u : IndexType N) :
    (R.Crop other).2.IsInside u ↔ R.IsInside u ∧ other.IsInside u := by
  have h' := (cropPossible_iff R other).1 h
  unfold ImageRegion.Crop
  rw [if_pos h]
  unfold ImageRegion.IsInside
  rw [← forall_and]
  refine forall_congr' fun i => ?_
  have := h' i
  simp only [ImageRegion.cropAxis]
  split_ifs <;> constructor <;> intro hh <;> omega

theorem crop_fst (R other : ImageRegion N) : (R.Crop other).1 = R.cropPossible other := by
  unfold ImageRegion.Crop
  split_ifs with h <;> simp [h]

theorem crop_of_not_possible (R other : ImageRegion N) (h : R.cropPossible other = false) :
    (R.Crop other).2 = R := by
  unfold ImageRegion.Crop
  simp [h]

/-- What a call of `SetFixedImageRegion` on a filter with a fixed image does, by the
outcome of the crop and the presence of the moving image. -/
theorem SetFixedImageRegion_cases (self : MetricImageFilter N) (region : ImageRegion N)
    (fixedPtr : ImageInformation N) (hfixed : self.FixedImage = some fixedPtr) :
    ((region.Crop fixedPtr.LargestPossibleRegion).1 = false →
        (SetFixedImageRegion self region).raised
          = some "Requested block is outside of the fixed image.")
    ∧ ((region.Crop fixedPtr.LargestPossibleRegion).1 = true →
        ((SetFixedImageRegion self region).raised
            = (if self.MovingImage.isNone then
                some "The MovingImage must be set before specifying the fixed image region."
               else none))
        ∧ (SetFixedImageRegion self region).state.m_FixedImageRegion
            = { Index := (region.Crop fixedPtr.LargestPossibleRegion).2.Index
                Size := fixedSize (region.Crop fixedPtr.LargestPossibleRegion).2 }
        ∧ (SetFixedImageRegion self region).state.m_FixedRadius
            = FixedRadius (region.Crop fixedPtr.LargestPossibleRegion).2
        ∧ (SetFixedImageRegion self region).state.m_FixedImageRegionDefined = true) := by
  unfold SetFixedImageRegion
  simp only [hfixed]
  constructor
  · intro hc
    simp [hc]
  · intro hc
    cases hm : self.MovingImage <;> simp [hc]

/-- C11 (as amended): with the fixed image set, and both the requested region and the
fixed image's largest possible region holding at least one pixel along every axis, the
call raises `Requested block is outside of the fixed image.` if and only if the
requested region has no pixel in common with the largest possible region; a region
that overlaps, also partially, is cropped to exactly the common pixels and accepted
(the cropped region, made odd, is stored and marked as defined). -/
theorem geometry_error_iff_no_overlap (self : MetricImageFilter N) (region : ImageRegion N)
    (fixedPtr : ImageInformation N) (hfixed : self.FixedImage = some fixedPtr)
    (hR : ∀ i, 1 ≤ region.Size i) (hO : ∀ i, 1 ≤ fixedPtr.LargestPossibleRegion.Size i) :
    ((SetFixedImageRegion self region).raised
        = some "Requested block is outside of the fixed image."
      ↔ ¬ region.Overlaps fixedPtr.LargestPossibleRegion)
    ∧ (region.Overlaps fixedPtr.LargestPossibleRegion →
        (∀ u, (region.Crop fixedPtr.LargestPossibleRegion).2.IsInside u
            ↔ region.IsInside u ∧ fixedPtr.LargestPossibleRegion.IsInside u)
        ∧ (SetFixedImageRegion self region).state.m_FixedImageRegion
            = { Index := (region.Crop fixedPtr.LargestPossibleRegion).2.Index
                Size := fixedSize (region.Crop fixedPtr.LargestPossibleRegion).2 }
        ∧ (SetFixedImageRegion self region).state.m_FixedImageRegionDefined = true) := by
  have hiff := cropPossible_iff_overlaps region fixedPtr.LargestPossibleRegion hR hO
  obtain ⟨hfail, hsucc⟩ := SetFixedImageRegion_cases self region fixedPtr hfixed
  constructor
  · constructor
    · intro hraised hov
      have hc : (region.Crop fixedPtr.LargestPossibleRegion).1 = true := by
        rw [crop_fst]
        exact hiff.2 hov
      have h1 := (hsucc hc).1
      rw [hraised] at h1
      split_ifs at h1
      exact absurd (Option.some.inj h1) (by decide)
    · intro hno
      apply hfail
      rw [crop_fst]
      cases hc : region.cropPossible fixedPtr.LargestPossibleRegion
      · rfl
      · exact absurd (hiff.1 hc) hno
  · intro hov
    have hp : region.cropPossible fixedPtr.LargestPossibleRegion = true := hiff.2 hov
    have hc : (region.Crop fixedPtr.LargestPossibleRegion).1 = true := by
      rw [crop_fst]
      exact hp
    exact ⟨crop_isInside_iff region _ hp, (hsucc hc).2.1, (hsucc hc).2.2.2⟩

/-- C11 (as amended) on the ten-pixel image: the block `[20, 22]` lies outside and is
refused. -/
theorem geometry_error_iff_no_overlap_witness :
    (SetFixedImageRegion freshFilter { Index := ![20], Size := ![3] }).raised
        = some "Requested block is outside of the fixed image."
      ↔ ¬ ({ Index := ![20], Size := ![3] } : ImageRegion 1).Overlaps
            tenPixelImage.LargestPossibleRegion :=
  (geometry_error_iff_no_overlap freshFilter { Index := ![20], Size := ![3] } tenPixelImage
    rfl (by intro i; simp) (by intro i; simp [tenPixelImage])).1

/-- C11, the claim as stated fails: the requested region of start `1` and size `0` has
no pixel, hence no overlap with the ten-pixel image, and yet the call raises nothing. -/
theorem empty_region_accepted_counterexample :
    ¬ ({ Index := ![1], Size := ![0] } : ImageRegion 1).Overlaps
        tenPixelImage.LargestPossibleRegion
    ∧ (SetFixedImageRegion freshFilter { Index := ![1], Size := ![0] }).raised = none := by
  constructor
  · rintro ⟨u, hu, _⟩
    have := hu 0
    simp at this
    omega
  · decide

/-- C12: `SetFixedImageRegion` raises when the fixed image (input 0) has not been set,
and raises when the moving image (input 1) has not been set: with the fixed image
missing the message names the fixed image; with the fixed image present, the moving
image missing and the requested block croppable, it names the moving image (and if the
block lies outside the fixed image the geometry error is raised instead). -/
theorem configuration_errors (self : MetricImageFilter N) (region : ImageRegion N) :
    (self.FixedImage = none →
        (SetFixedImageRegion self region).raised
          = some "The FixedImage must be set before specifying the fixed image region.")
    ∧ (self.MovingImage = none → (SetFixedImageRegion self region).raised ≠ none)
    ∧ (∀ fixedPtr, self.FixedImage = some fixedPtr → self.MovingImage = none →
        (region.Crop fixedPtr.LargestPossibleRegion).1 = true →
        (SetFixedImageRegion self region).raised
          = some "The MovingImage must be set before specifying the fixed image region.") := by
  refine ⟨fun hf => ?_, fun hm => ?_, fun fixedPtr hf hm hc => ?_⟩
  · unfold SetFixedImageRegion
    simp [hf]
  · cases hf : self.FixedImage with
    | none =>
      unfold SetFixedImageRegion
      simp [hf]
    | some fixedPtr =>
      obtain ⟨hfail, hsucc⟩ := SetFixedImageRegion_cases self region fixedPtr hf
      cases hc : (region.Crop fixedPtr.LargestPossibleRegion).1
      · rw [hfail hc]
        simp
      · rw [(hsucc hc).1]
        simp [hm]
  · rw [((SetFixedImageRegion_cases self region fixedPtr hf).2 hc).1]
    simp [hm]

/-- C12 on the fresh filter with its moving image taken away. -/
theorem configuration_errors_witness :
    (SetFixedImageRegion { freshFilter with MovingImage := none }
        { Index := ![2], Size := ![5] }).raised ≠ none :=
  (configuration_errors { freshFilter with MovingImage := none }
    { Index := ![2], Size := ![5] }).2.1 rfl

/-! ### Region-not-set errors and the output information -/

/-- `SetFixedImageRegion` never touches the inputs, the output or the moving image
region. -/
theorem SetFixedImageRegion_frame (self : MetricImageFilter N) (region : ImageRegion N) :
    (SetFixedImageRegion self region).state.FixedImage = self.FixedImage
    ∧ (SetFixedImageRegion self region).state.MovingImage = self.MovingImage
    ∧ (SetFixedImageRegion self region).state.Output = self.Output
    ∧ (SetFixedImageRegion self region).state.m_MovingImageRegion = self.m_MovingImageRegion
    ∧ (SetFixedImageRegion self region).state.m_MovingImageRegionDefined
        = self.m_MovingImageRegionDefined := by
  unfold SetFixedImageRegion
  cases hf : self.FixedImage with
  | none => simp [hf]
  | some fixedPtr =>
    cases hc : (region.Crop fixedPtr.LargestPossibleRegion).1 <;>
      cases hm : self.MovingImage <;> simp [hc, hf, hm]

/-- A successful `SetFixedImageRegion` had both images and has defined the fixed
region. -/
theorem SetFixedImageRegion_defined (self : MetricImageFilter N) (region : ImageRegion N)
    (hok : (SetFixedImageRegion self region).raised = none) :
    (∃ fixedPtr, self.FixedImage = some fixedPtr)
    ∧ (∃ movingPtr, self.MovingImage = some movingPtr)
    ∧ (SetFixedImageRegion self region).state.m_FixedImageRegionDefined = true := by
  cases hf : self.FixedImage with
  | none =>
    unfold SetFixedImageRegion at hok
    simp [hf] at hok
  | some fixedPtr =>
    obtain ⟨movingPtr, hm, hc, _⟩ := SetFixedImageRegion_success self region fixedPtr hf hok
    exact ⟨⟨fixedPtr, rfl⟩, ⟨movingPtr, hm⟩,
      ((SetFixedImageRegion_cases self region fixedPtr hf).2 hc).2.2.2⟩

/-- With both images present `GenerateInputRequestedRegion` raises one of the two
region-not-set errors exactly when a flag is false. -/
theorem GenerateInputRequestedRegion_flags (self : MetricImageFilter N)
    (fixedPtr movingPtr : ImageInformation N)
    (hf : self.FixedImage = some fixedPtr) (hm : self.MovingImage = some movingPtr) :
    (self.m_FixedImageRegionDefined = false →
        (GenerateInputRequestedRegion self).raised = some "FixedImageRegion has not been set")
    ∧ (self.m_FixedImageRegionDefined = true → self.m_MovingImageRegionDefined = false →
        (GenerateInputRequestedRegion self).raised
          = some "MovingImageRegion has not been set")
    ∧ (self.m_FixedImageRegionDefined = true → self.m_MovingImageRegionDefined = true →
        (GenerateInputRequestedRegion self).raised
            ≠ some "FixedImageRegion has not been set"
        ∧ (GenerateInputRequestedRegion self).raised
            ≠ some "MovingImageRegion has not been set") := by
  unfold GenerateInputRequestedRegion
  simp only [hf, hm]
  refine ⟨fun h1 => ?_, fun h1 h2 => ?_, fun h1 h2 => ?_⟩
  · simp [h1]
  · simp [h1, h2]
  · by_cases hc : ((self.m_MovingImageRegion.PadByRadius self.m_MovingRadius).Crop
        movingPtr.LargestPossibleRegion).1 = true
    · simp [h1, h2, hc]
    · simp only [h1, h2, hc]
      simp

/-- With the moving image and the output present `GenerateOutputInformation` raises
exactly when the moving image region has not been defined. -/
theorem GenerateOutputInformation_flag (self : MetricImageFilter N)
    (movingPtr outputPtr : ImageInformation N)
    (hm : self.MovingImage = some movingPtr) (ho : self.Output = some outputPtr) :
    (self.m_MovingImageRegionDefined = false →
        (GenerateOutputInformation self).raised = some "MovingImageRegion has not been set")
    ∧ (self.m_MovingImageRegionDefined = true →
        (GenerateOutputInformation self).raised = none) := by
  unfold GenerateOutputInformation
  simp only [hm, ho]
  constructor <;> intro h <;> simp [h]

/-- C13: with both images and the output present, `GenerateInputRequestedRegion` raises
if the fixed image region has not been defined and raises if the moving image region
has not been defined; `GenerateOutputInformation` raises if the moving image region
has not been defined; and once `SetFixedImageRegion` and `SetMovingImageRegion` have
both succeeded, in either order, `GenerateInputRequestedRegion` raises neither of the
two region-not-set errors and `GenerateOutputInformation` raises nothing. -/
theorem region_not_set_errors (self : MetricImageFilter N)
    (fixedPtr movingPtr outputPtr : ImageInformation N)
    (hf : self.FixedImage = some fixedPtr) (hm : self.MovingImage = some movingPtr)
    (ho : self.Output = some outputPtr) :
    (self.m_FixedImageRegionDefined = false →
        (GenerateInputRequestedRegion self).raised = some "FixedImageRegion has not been set")
    ∧ (self.m_MovingImageRegionDefined = false →
        (GenerateInputRequestedRegion self).raised ≠ none)
    ∧ (self.m_MovingImageRegionDefined = false →
        (GenerateOutputInformation self).raised = some "MovingImageRegion has not been set")
    ∧ (∀ fixedRegion movingRegion,
        (SetFixedImageRegion self fixedRegion).raised = none →
        (GenerateInputRequestedRegion
            (SetMovingImageRegion (SetFixedImageRegion self fixedRegion).state
              movingRegion).state).raised ≠ some "FixedImageRegion has not been set"
        ∧ (GenerateInputRequestedRegion
            (SetMovingImageRegion (SetFixedImageRegion self fixedRegion).state
              movingRegion).state).raised ≠ some "MovingImageRegion has not been set"
        ∧ (GenerateOutputInformation
            (SetMovingImageRegion (SetFixedImageRegion self fixedRegion).state
              movingRegion).state).raised = none)
    ∧ (∀ fixedRegion movingRegion,
        (SetFixedImageRegion (SetMovingImageRegion self movingRegion).state
            fixedRegion).raised = none →
        (GenerateInputRequestedRegion
            (SetFixedImageRegion (SetMovingImageRegion self movingRegion).state
              fixedRegion).state).raised ≠ some "FixedImageRegion has not been set"
        ∧ (GenerateInputRequestedRegion
            (SetFixedImageRegion (SetMovingImageRegion self movingRegion).state
              fixedRegion).state).raised ≠ some "MovingImageRegion has not been set"
        ∧ (GenerateOutputInformation
            (SetFixedImageRegion (SetMovingImageRegion self movingRegion).state
              fixedRegion).state).raised = none) := by
  obtain ⟨g1, g2, _⟩ := GenerateInputRequestedRegion_flags self fixedPtr movingPtr hf hm
  refine ⟨g1, fun h => ?_, (GenerateOutputInformation_flag self movingPtr outputPtr hm ho).1,
    fun fixedRegion movingRegion hok => ?_, fun fixedRegion movingRegion hok => ?_⟩
  · cases hfd : self.m_FixedImageRegionDefined
    · rw [g1 hfd]
      simp
    · rw [g2 hfd h]
      simp
  · obtain ⟨e1, e2, e3, _, _⟩ := SetFixedImageRegion_frame self fixedRegion
    obtain ⟨_, _, hdef⟩ := SetFixedImageRegion_defined self fixedRegion hok
    have k := GenerateInputRequestedRegion_flags
      (SetMovingImageRegion (SetFixedImageRegion self fixedRegion).state movingRegion).state
      fixedPtr movingPtr (by simp [SetMovingImageRegion, e1, hf])
      (by simp [SetMovingImageRegion, e2, hm])
    have k' := k.2.2 (by simp [SetMovingImageRegion, hdef]) (by simp [SetMovingImageRegion])
    exact ⟨k'.1, k'.2,
      (GenerateOutputInformation_flag _ movingPtr outputPtr
        (by simp [SetMovingImageRegion, e2, hm])
        (by simp [SetMovingImageRegion, e3, ho])).2 (by simp [SetMovingImageRegion])⟩
  · obtain ⟨e1, e2, e3, _, e5⟩ :=
      SetFixedImageRegion_frame (SetMovingImageRegion self movingRegion).state fixedRegion
    obtain ⟨_, _, hdef⟩ :=
      SetFixedImageRegion_defined (SetMovingImageRegion self movingRegion).state fixedRegion hok
    have k := GenerateInputRequestedRegion_flags
      (SetFixedImageRegion (SetMovingImageRegion self movingRegion).state fixedRegion).state
      fixedPtr movingPtr (by rw [e1]; simp [SetMovingImageRegion, hf])
      (by rw [e2]; simp [SetMovingImageRegion, hm])
    have k' := k.2.2 hdef (by rw [e5]; simp [SetMovingImageRegion])
    exact ⟨k'.1, k'.2,
      (GenerateOutputInformation_flag _ movingPtr outputPtr
        (by rw [e2]; simp [SetMovingImageRegion, hm])
        (by rw [e3]; simp [SetMovingImageRegion, ho])).2
        (by rw [e5]; simp [SetMovingImageRegion])⟩

/-- C13 on the fresh filter given an output: no region has been defined yet. -/
theorem region_not_set_errors_witness :
    (GenerateInputRequestedRegion { freshFilter with Output := some tenPixelImage }).raised
        = some "FixedImageRegion has not been set"
    ∧ (GenerateOutputInformation { freshFilter with Output := some tenPixelImage }).raised
        = some "MovingImageRegion has not been set" :=
  ⟨(region_not_set_errors { freshFilter with Output := some tenPixelImage } tenPixelImage
      tenPixelImage tenPixelImage rfl rfl rfl).1 rfl,
   (region_not_set_errors { freshFilter with Output := some tenPixelImage } tenPixelImage
      tenPixelImage tenPixelImage rfl rfl rfl).2.2.1 rfl⟩

/-- The physical point of an index shifted by an offset, for two images that share
spacing and direction and whose origins differ by the physical offset of a start
index. -/
theorem transform_shift (a b : ImageInformation N) (start : IndexType N)
    (hs : b.Spacing = a.Spacing) (hd : b.Direction = a.Direction)
    (ho : b.Origin = a.TransformIndexToPhysicalPoint start) (k : IndexType N) :
    b.TransformIndexToPhysicalPoint k = a.TransformIndexToPhysicalPoint (start + k) := by
  funext r
  unfold ImageInformation.TransformIndexToPhysicalPoint at *
  rw [ho, hs, hd, add_assoc, ← Finset.sum_add_distrib]
  congr 1
  refine Finset.sum_congr rfl fun c _ => ?_
  simp only [Pi.add_apply]
  push_cast
  ring

/-- C14: with the moving image and the output present and the moving image region (the
search window) defined, `GenerateOutputInformation` raises nothing and gives the metric
image a largest possible region of start index zero on every axis and of the size of
the search window, as origin the physical point of the search window's start index in
the moving image, and the moving image's spacing and direction; so metric pixel `k`
has the physical location of moving-image index `window start + k`. -/
theorem metric_image_information (self : MetricImageFilter N)
    (movingPtr outputPtr : ImageInformation N)
    (hm : self.MovingImage = some movingPtr) (ho : self.Output = some outputPtr)
    (hdef : self.m_MovingImageRegionDefined = true) :
    (GenerateOutputInformation self).raised = none
    ∧ ∃ metric, (GenerateOutputInformation self).state.Output = some metric
        ∧ (∀ i, metric.LargestPossibleRegion.Index i = 0)
        ∧ metric.LargestPossibleRegion.Size = self.m_MovingImageRegion.Size
        ∧ metric.Origin
            = movingPtr.TransformIndexToPhysicalPoint self.m_MovingImageRegion.Index
        ∧ metric.Spacing = movingPtr.Spacing
        ∧ metric.Direction = movingPtr.Direction
        ∧ (∀ k, metric.TransformIndexToPhysicalPoint k
            = movingPtr.TransformIndexToPhysicalPoint (self.m_MovingImageRegion.Index + k)) := by
  have h : GenerateOutputInformation self
      = { state :=
            { self with
              Output := some
                { outputPtr with
                  LargestPossibleRegion :=
                    { Index := fun _ => 0, Size := self.m_MovingImageRegion.Size }
                  Spacing := movingPtr.Spacing
                  Origin :=
                    movingPtr.TransformIndexToPhysicalPoint self.m_MovingImageRegion.Index
                  Direction := movingPtr.Direction } }
          raised := none } := by
    unfold GenerateOutputInformation
    simp [hm, ho, hdef]
  rw [h]
  refine ⟨rfl, _, rfl, fun _ => rfl, rfl, rfl, rfl, rfl, fun k => ?_⟩
  refine transform_shift movingPtr _ self.m_MovingImageRegion.Index ?_ ?_ ?_ k <;> rfl

/-- C14 on the ready filter, whose search window is `[1, 8]` in the ten-pixel image. -/
theorem metric_image_information_witness :
    (GenerateOutputInformation readyFilter).raised = none :=
  (metric_image_information readyFilter tenPixelImage tenPixelImage rfl rfl rfl).1

/-! ### The requested regions of the inputs -/

/-- What `GenerateInputRequestedRegion` leaves behind when both images are present and
both regions defined. -/
theorem GenerateInputRequestedRegion_defined (self : MetricImageFilter N)
    (fixedPtr movingPtr : ImageInformation N)
    (hf : self.FixedImage = some fixedPtr) (hm : self.MovingImage = some movingPtr)
    (hfd : self.m_FixedImageRegionDefined = true)
    (hmd : self.m_MovingImageRegionDefined = true) :
    (GenerateInputRequestedRegion self).state.FixedImage
        = some { fixedPtr with RequestedRegion := self.m_FixedImageRegion }
    ∧ (GenerateInputRequestedRegion self).state.MovingImage
        = some { movingPtr with
                 RequestedRegion :=
                   (self.paddedMovingImageRegion.Crop movingPtr.LargestPossibleRegion).2 }
    ∧ (GenerateInputRequestedRegion self).raised
        = (if self.paddedMovingImageRegion.cropPossible movingPtr.LargestPossibleRegion
           then none
           else some
            "Moving image requested region is at least partially outside the LargestPossibleRegion.") := by
  unfold GenerateInputRequestedRegion paddedMovingImageRegion
  simp only [hf, hm, hfd, hmd, not_true_eq_false, if_false, crop_fst]
  split_ifs <;> exact ⟨rfl, rfl, rfl⟩

/-- C20 (as amended): with both images present and both regions defined, the fixed
image's requested region is exactly the stored fixed region.  When the call raises
nothing, the moving image's requested region holds exactly the pixels common to the
search window padded by `MovingRadius` on every side and the moving image's largest
possible region, hence is contained in the largest possible region.  When the call
raises, the moving image's requested region is the padded window itself, uncropped.
For a padded window and a largest possible region with at least one pixel along every
axis, the call raises if and only if the two have no pixel in common (a partially
outside window is cropped, not rejected). -/
theorem input_requested_regions (self : MetricImageFilter N)
    (fixedPtr movingPtr : ImageInformation N)
    (hf : self.FixedImage = some fixedPtr) (hm : self.MovingImage = some movingPtr)
    (hfd : self.m_FixedImageRegionDefined = true)
    (hmd : self.m_MovingImageRegionDefined = true) :
    (∃ fixed, (GenerateInputRequestedRegion self).state.FixedImage = some fixed
        ∧ fixed.RequestedRegion = self.m_FixedImageRegion)
    ∧ (∀ i, self.paddedMovingImageRegion.Index i
              = self.m_MovingImageRegion.Index i - (self.m_MovingRadius i : ℤ)
          ∧ self.paddedMovingImageRegion.Size i
              = self.m_MovingImageRegion.Size i + 2 * self.m_MovingRadius i)
    ∧ ((GenerateInputRequestedRegion self).raised = none →
        ∃ moving, (GenerateInputRequestedRegion self).state.MovingImage = some moving
          ∧ (∀ u, moving.RequestedRegion.IsInside u
              ↔ self.paddedMovingImageRegion.IsInside u
                ∧ movingPtr.LargestPossibleRegion.IsInside u)
          ∧ moving.RequestedRegion.IsContainedIn movingPtr.LargestPossibleRegion)
    ∧ ((GenerateInputRequestedRegion self).raised ≠ none →
        ∃ moving, (GenerateInputRequestedRegion self).state.MovingImage = some moving
          ∧ moving.RequestedRegion = self.paddedMovingImageRegion)
    ∧ ((∀ i, 1 ≤ self.paddedMovingImageRegion.Size i) →
        (∀ i, 1 ≤ movingPtr.LargestPossibleRegion.Size i) →
        ((GenerateInputRequestedRegion self).raised ≠ none
          ↔ ¬ self.paddedMovingImageRegion.Overlaps movingPtr.LargestPossibleRegion)) := by
  obtain ⟨e1, e2, e3⟩ := GenerateInputRequestedRegion_defined self fixedPtr movingPtr hf hm hfd hmd
  have hraised : (GenerateInputRequestedRegion self).raised = none
      ↔ self.paddedMovingImageRegion.cropPossible movingPtr.LargestPossibleRegion = true := by
    rw [e3]
    split_ifs with h <;> simp [h]
  refine ⟨⟨_, e1, rfl⟩, fun i => ⟨rfl, rfl⟩, fun hok => ?_, fun hbad => ?_, fun hP hO => ?_⟩
  · have hp := hraised.1 hok
    refine ⟨_, e2, fun u => ?_, fun u hu => ?_⟩
    · exact crop_isInside_iff _ _ hp u
    · exact ((crop_isInside_iff _ _ hp u).1 hu).2
  · have hp : self.paddedMovingImageRegion.cropPossible movingPtr.LargestPossibleRegion
        = false := by
      cases h : self.paddedMovingImageRegion.cropPossible movingPtr.LargestPossibleRegion
      · rfl
      · exact absurd (hraised.2 h) hbad
    refine ⟨_, e2, ?_⟩
    exact crop_of_not_possible _ _ hp
  · rw [← cropPossible_iff_overlaps _ _ hP hO, ← hraised]

/-- C20 (as amended) on the ready filter: the window `[1, 8]` padded by `2` is
`[-1, 10]` and is cropped to the ten-pixel image. -/
theorem input_requested_regions_witness :
    ∃ fixed, (GenerateInputRequestedRegion readyFilter).state.FixedImage = some fixed
      ∧ fixed.RequestedRegion = readyFilter.m_FixedImageRegion :=
  (input_requested_regions readyFilter tenPixelImage tenPixelImage rfl rfl rfl rfl).1

theorem strayFilter_outcome :
    (GenerateInputRequestedRegion strayFilter).raised
        = some
          "Moving image requested region is at least partially outside the LargestPossibleRegion."
    ∧ (GenerateInputRequestedRegion strayFilter).state.MovingImage
        = some { tenPixelImage with
                 RequestedRegion := strayFilter.paddedMovingImageRegion } := by
  obtain ⟨_, e2, e3⟩ := GenerateInputRequestedRegion_defined strayFilter tenPixelImage
    tenPixelImage rfl rfl rfl rfl
  have hp : strayFilter.paddedMovingImageRegion.cropPossible
      tenPixelImage.LargestPossibleRegion = false := by decide
  rw [e2, e3, crop_of_not_possible _ _ hp, hp]
  exact ⟨rfl, rfl⟩

/-- C20, the claim as stated fails.  On the stray filter the padded window `[18, 24]`
has no pixel in the ten-pixel moving image: the call raises and the moving image's
requested region is then the padded window itself, which is not contained in the
largest possible region (pixel `18` is outside).  On the empty-window filter the padded
window has size `0`, hence no pixel in common with the image, and the call raises
nothing. -/
theorem requested_region_outside_counterexample :
    ((GenerateInputRequestedRegion strayFilter).raised ≠ none
      ∧ ∃ moving, (GenerateInputRequestedRegion strayFilter).state.MovingImage = some moving
          ∧ ¬ moving.RequestedRegion.IsContainedIn tenPixelImage.LargestPossibleRegion)
    ∧ (¬ emptyWindowFilter.paddedMovingImageRegion.Overlaps
          tenPixelImage.LargestPossibleRegion
        ∧ (GenerateInputRequestedRegion emptyWindowFilter).raised = none) := by
  obtain ⟨h1, h2⟩ := strayFilter_outcome
  refine ⟨⟨by rw [h1]; simp, _, h2, ?_⟩, ?_, by decide⟩
  · intro hcontained
    have hin : strayFilter.paddedMovingImageRegion.IsInside ![18] := by decide
    have hout : ¬ tenPixelImage.LargestPossibleRegion.IsInside ![18] := by decide
    exact hout (hcontained _ hin)
  · rintro ⟨u, hu, _⟩
    have := hu 0
    simp [paddedMovingImageRegion, emptyWindowFilter, readyFilter, ImageRegion.PadByRadius]
      at this
    omega

end MetricImageFilter

/-! ## `MultiResolutionMinMaxSearchRegionImageSource`: the results -/

namespace MultiResolutionMinMaxSearchRegionImageSource

variable {N : ℕ}

/-- C15: a newly constructed source has `MinFactor` equal to `1.1` on every axis and
`MaxFactor` equal to `3.0` on every axis. -/
theorem default_factors (N : ℕ) (i : Fin N) :
    (New N).GetMinFactor i = 1.1 ∧ (New N).GetMaxFactor i = 3.0
    ∧ (New N).GetMinFactor i = 11 / 10 ∧ (New N).GetMaxFactor i = 3 := by
  refine ⟨rfl, rfl, ?_, ?_⟩
  · show (1.1 : ℚ) = 11 / 10
    norm_num
  · show (3.0 : ℚ) = 3
    norm_num

/-- C16: the setters do not enforce `factor ≥ 1`.  For every value `f`, also below `1`,
`SetMinFactor( f )` stores `f` on every axis and leaves `MaxFactor` unchanged, and
`SetMaxFactor( f )` stores `f` on every axis and leaves `MinFactor` unchanged; the
array overloads store the given per-axis values unchanged. -/
theorem setters_store_any_factor (self : MultiResolutionMinMaxSearchRegionImageSource N)
    (f : ℚ) (factor : Fin N → ℚ) :
    (∀ i, (self.SetMinFactorFill f).GetMinFactor i = f)
    ∧ (self.SetMinFactorFill f).GetMaxFactor = self.GetMaxFactor
    ∧ (∀ i, (self.SetMaxFactorFill f).GetMaxFactor i = f)
    ∧ (self.SetMaxFactorFill f).GetMinFactor = self.GetMinFactor
    ∧ (self.SetMinFactor factor).GetMinFactor = factor
    ∧ (self.SetMinFactor factor).GetMaxFactor = self.GetMaxFactor
    ∧ (self.SetMaxFactor factor).GetMaxFactor = factor
    ∧ (self.SetMaxFactor factor).GetMinFactor = self.GetMinFactor :=
  ⟨fun _ => rfl, rfl, fun _ => rfl, rfl, rfl, rfl, rfl, rfl⟩

theorem interpolationWeight_zero (L : ℕ) : interpolationWeight 0 L = 0 := by
  unfold interpolationWeight
  split_ifs
  · rfl
  · simp

theorem interpolationWeight_inner (level L : ℕ) (hL : 2 ≤ L) (hl : level ≤ L - 1) :
    interpolationWeight level L = (level : ℚ) / ((L : ℚ) - 1) := by
  have hL' : (2 : ℚ) ≤ L := by exact_mod_cast hL
  have hpos : (0 : ℚ) < (L : ℚ) - 1 := by linarith
  have hl' : (level : ℚ) ≤ (L : ℚ) - 1 := by
    have : ((L - 1 : ℕ) : ℚ) = (L : ℚ) - 1 := by
      rw [Nat.cast_sub (by omega)]
      simp
    rw [← this]
    exact_mod_cast hl
  unfold interpolationWeight
  rw [if_neg (by omega)]
  have h1 : (level : ℚ) / ((L : ℚ) - 1) ≤ 1 := (div_le_one hpos).2 hl'
  have h0 : (0 : ℚ) ≤ (level : ℚ) / ((L : ℚ) - 1) :=
    div_nonneg (Nat.cast_nonneg level) (le_of_lt hpos)
  rw [min_eq_right h1, max_eq_right h0]

theorem interpolationWeight_mono (l l' L : ℕ) (hL : 1 ≤ L) (h : l ≤ l') :
    interpolationWeight l L ≤ interpolationWeight l' L := by
  unfold interpolationWeight
  split_ifs with h1
  · exact le_refl _
  · have hL' : (2 : ℚ) ≤ L := by
      have : 2 ≤ L := by omega
      exact_mod_cast this
    have hpos : (0 : ℚ) < (L : ℚ) - 1 := by linarith
    have hll : (l : ℚ) ≤ l' := by exact_mod_cast h
    exact max_le_max (le_refl _) (min_le_min (le_refl _)
      (div_le_div_of_nonneg_right hll (le_of_lt hpos)))

/-- C17: with `L ≥ 1` pyramid levels, at level `0` the effective factor equals
`MinFactor`; for `L ≥ 2` it equals `MaxFactor` at the terminal level `L - 1` and is
`minFactor * (1 - t) + maxFactor * t` with `t = level / (L - 1)` at every level up to
`L - 1`, so that consecutive levels differ by the constant step
`(maxFactor - minFactor) / (L - 1)`; the factor is monotone in the level, non-decreasing
on an axis where `minFactor ≤ maxFactor` and non-increasing where
`maxFactor ≤ minFactor`; and with a single level, `L = 1`, the weight is `t = 0` and the
factor is `MinFactor`. -/
theorem effective_factor_interpolates (self : MultiResolutionMinMaxSearchRegionImageSource N)
    (L : ℕ) (hL : 1 ≤ L) :
    self.effectiveFactor 0 L = self.m_MinFactor
    ∧ (2 ≤ L → self.effectiveFactor (L - 1) L = self.m_MaxFactor)
    ∧ (2 ≤ L → ∀ level, level ≤ L - 1 → ∀ i,
        self.effectiveFactor level L i
          = self.m_MinFactor i * (1 - (level : ℚ) / ((L : ℚ) - 1))
            + self.m_MaxFactor i * ((level : ℚ) / ((L : ℚ) - 1)))
    ∧ (2 ≤ L → ∀ level, level + 1 ≤ L - 1 → ∀ i,
        self.effectiveFactor (level + 1) L i - self.effectiveFactor level L i
          = (self.m_MaxFactor i - self.m_MinFactor i) / ((L : ℚ) - 1))
    ∧ (∀ l l', l ≤ l' → ∀ i, self.m_MinFactor i ≤ self.m_MaxFactor i →
        self.effectiveFactor l L i ≤ self.effectiveFactor l' L i)
    ∧ (∀ l l', l ≤ l' → ∀ i, self.m_MaxFactor i ≤ self.m_MinFactor i →
        self.effectiveFactor l' L i ≤ self.effectiveFactor l L i)
    ∧ (L = 1 → ∀ level, interpolationWeight level L = 0
        ∧ self.effectiveFactor level L = self.m_MinFactor) := by
  refine ⟨?_, fun h2 => ?_, fun h2 level hl i => ?_, fun h2 level hl i => ?_,
    fun l l' hll i hmm => ?_, fun l l' hll i hmm => ?_, fun h1 level => ?_⟩
  rotate_right
  · subst h1
    refine ⟨by simp [interpolationWeight], ?_⟩
    funext i
    simp [effectiveFactor, interpolationWeight]
  · funext i
    simp [effectiveFactor, interpolationWeight_zero L]
  · funext i
    have hL' : (2 : ℚ) ≤ L := by exact_mod_cast h2
    have hne : (L : ℚ) - 1 ≠ 0 := by
      intro h
      linarith
    have hcast : ((L - 1 : ℕ) : ℚ) = (L : ℚ) - 1 := by
      rw [Nat.cast_sub hL]
      simp
    simp only [effectiveFactor, interpolationWeight_inner (L - 1) L h2 (le_refl _), hcast,
      div_self hne]
    ring
  · simp only [effectiveFactor, interpolationWeight_inner level L h2 hl]
  · have hL' : (2 : ℚ) ≤ L := by exact_mod_cast h2
    have hne : (L : ℚ) - 1 ≠ 0 := by
      intro h
      linarith
    simp only [effectiveFactor, interpolationWeight_inner (level + 1) L h2 hl,
      interpolationWeight_inner level L h2 (by omega)]
    push_cast
    field_simp
    ring
  · have ht := interpolationWeight_mono l l' L hL hll
    simp only [effectiveFactor]
    nlinarith
  · have ht := interpolationWeight_mono l l' L hL hll
    simp only [effectiveFactor]
    nlinarith

/-- The statement on the default factors with three levels: level `0` has the factor
`MinFactor` and the terminal level `2` the factor `MaxFactor`. -/
theorem effective_factor_interpolates_witness :
    (New 2).effectiveFactor 0 3 = (New 2).m_MinFactor
    ∧ (New 2).effectiveFactor (3 - 1) 3 = (New 2).m_MaxFactor :=
  ⟨(effective_factor_interpolates (New 2) 3 (by decide)).1,
   (effective_factor_interpolates (New 2) 3 (by decide)).2.1 (by decide)⟩

end MultiResolutionMinMaxSearchRegionImageSource

end BlockMatching

/-! ## `VectorResampleIdentityNeumannImageFilter`: the results -/

namespace VectorResampleIdentityNeumannImageFilter

variable {N : ℕ}

theorem clamp_inside (lo hi x : Fin N → ℚ) (hne : ∀ i, lo i ≤ hi i) :
    IsInsideExtent lo hi (clampToExtent lo hi x) := by
  intro i
  unfold clampToExtent
  exact ⟨le_max_left _ _, max_le (hne i) (min_le_right _ _)⟩

theorem clamp_of_inside (lo hi x : Fin N → ℚ) (hx : IsInsideExtent lo hi x) :
    clampToExtent lo hi x = x := by
  funext i
  unfold clampToExtent
  rw [min_eq_left (hx i).2, max_eq_right (hx i).1]

theorem clamp_nearest_axis (lo hi x q : Fin N → ℚ) (hq : IsInsideExtent lo hi q)
    (i : Fin N) : |x i - clampToExtent lo hi x i| ≤ |x i - q i| := by
  have hq1 := (hq i).1
  have hq2 := (hq i).2
  unfold clampToExtent
  rcases le_total (x i) (hi i) with h1 | h1
  · rw [min_eq_left h1]
    rcases le_total (lo i) (x i) with h2 | h2
    · rw [max_eq_right h2]
      simp
    · rw [max_eq_left h2, abs_of_nonpos (by linarith), abs_of_nonpos (by linarith)]
      linarith
  · rw [min_eq_right h1, max_eq_right (le_trans hq1 hq2), abs_of_nonneg (by linarith),
      abs_of_nonneg (by linarith)]
    linarith

theorem clamp_strictly_nearest_axis (lo hi x q : Fin N → ℚ) (hq : IsInsideExtent lo hi q)
    (i : Fin N) (hne : q i ≠ clampToExtent lo hi x i) :
    (x i - clampToExtent lo hi x i) ^ 2 < (x i - q i) ^ 2 := by
  have hq1 := (hq i).1
  have hq2 := (hq i).2
  unfold clampToExtent at hne ⊢
  rcases le_total (x i) (hi i) with h1 | h1
  · rw [min_eq_left h1] at hne ⊢
    rcases le_total (lo i) (x i) with h2 | h2
    · rw [max_eq_right h2] at hne ⊢
      have : x i - q i ≠ 0 := fun h => hne (by linarith)
      have := sq_pos_of_ne_zero this
      simpa using this
    · rw [max_eq_left h2] at hne ⊢
      have hlt : lo i < q i := lt_of_le_of_ne hq1 (Ne.symm hne)
      nlinarith
  · rw [min_eq_right h1, max_eq_right (le_trans hq1 hq2)] at hne ⊢
    have hlt : q i < hi i := lt_of_le_of_ne hq2 hne
    nlinarith

/-- C18: for every target point outside the source field's extent, the resampled vector
is the interpolation function of the source field evaluated at the clamped point; the
clamped point lies in the extent, on its boundary, and is the nearest in-bounds point
(every other point of the extent is strictly farther from the target point).  So the
value is a value of the source field on its boundary: no default vector enters and
nothing is evaluated beyond the boundary. -/
theorem resample_outside_is_nearest_boundary_value {V : Type}
    (interpolate : (Fin N → ℚ) → V) (lo hi x : Fin N → ℚ)
    (hne : ∀ i, lo i ≤ hi i) (hout : ¬ IsInsideExtent lo hi x) :
    resample interpolate lo hi x = interpolate (clampToExtent lo hi x)
    ∧ IsInsideExtent lo hi (clampToExtent lo hi x)
    ∧ (∃ i, clampToExtent lo hi x i = lo i ∨ clampToExtent lo hi x i = hi i)
    ∧ (∀ q, IsInsideExtent lo hi q → ∀ i,
        |x i - clampToExtent lo hi x i| ≤ |x i - q i|)
    ∧ (∀ q, IsInsideExtent lo hi q → q ≠ clampToExtent lo hi x →
        ∑ i, (x i - clampToExtent lo hi x i) ^ 2 < ∑ i, (x i - q i) ^ 2) := by
  refine ⟨?_, clamp_inside lo hi x hne, ?_, fun q hq i => clamp_nearest_axis lo hi x q hq i,
    fun q hq hqne => ?_⟩
  · unfold resample
    rw [if_neg hout]
  · unfold IsInsideExtent at hout
    push_neg at hout
    obtain ⟨i, hi'⟩ := hout
    refine ⟨i, ?_⟩
    unfold clampToExtent
    by_cases h1 : lo i ≤ x i
    · right
      have h2 := hi' h1
      rw [min_eq_right (le_of_lt h2), max_eq_right (hne i)]
    · left
      push_neg at h1
      have : min (x i) (hi i) ≤ lo i := le_trans (min_le_left _ _) (le_of_lt h1)
      exact max_eq_left this
  · have hex : ∃ j, q j ≠ clampToExtent lo hi x j := by
      by_contra hall
      push_neg at hall
      exact hqne (funext hall)
    obtain ⟨j, hj⟩ := hex
    refine Finset.sum_lt_sum (fun i _ => ?_) ⟨j, Finset.mem_univ j, ?_⟩
    · exact sq_le_sq.2 (clamp_nearest_axis lo hi x q hq i)
    · exact clamp_strictly_nearest_axis lo hi x q hq j hj

/-- C18 on a line: the source field covers `[0, 9]`, the target point `12` lies outside
and is resampled at the boundary point `9`. -/
theorem resample_outside_is_nearest_boundary_value_witness :
    resample (fun p : Fin 1 → ℚ => 2 * p 0) ![0] ![9] ![12]
      = (fun p : Fin 1 → ℚ => 2 * p 0) (clampToExtent ![0] ![9] ![12]) :=
  (resample_outside_is_nearest_boundary_value (fun p : Fin 1 → ℚ => 2 * p 0) ![0] ![9] ![12]
    (by intro i; simp) (by decide)).1

end VectorResampleIdentityNeumannImageFilter

/-! ## The 1D FFT filters: the results -/

/-- C19: in `FFT1DComplexToComplexImageFilter`, `Forward1DFFTImageFilter` and
`AnalyticSignalImageFilter`, for every value of `Direction` set beforehand, after
`BeforeThreadedGenerateData` the splitter returned by `GetImageRegionSplitter` has its
direction, the one along which it does not split, equal to the transform direction of
the filter, which is still the value set. -/
theorem splitter_direction_is_transform_direction (N d : ℕ)
    (complexFilter : FFT1DComplexToComplexImageFilter N)
    (forwardFilter : Forward1DFFTImageFilter N)
    (analyticFilter : AnalyticSignalImageFilter N) :
    ((complexFilter.SetDirection d).BeforeThreadedGenerateData.GetImageRegionSplitter.m_Direction
        = (complexFilter.SetDirection d).BeforeThreadedGenerateData.GetDirection
      ∧ (complexFilter.SetDirection d).BeforeThreadedGenerateData.GetDirection = d)
    ∧ ((forwardFilter.SetDirection d).BeforeThreadedGenerateData.GetImageRegionSplitter.m_Direction
        = (forwardFilter.SetDirection d).BeforeThreadedGenerateData.GetDirection
      ∧ (forwardFilter.SetDirection d).BeforeThreadedGenerateData.GetDirection = d)
    ∧ ((analyticFilter.SetDirection d).BeforeThreadedGenerateData.GetImageRegionSplitter.m_Direction
        = (analyticFilter.SetDirection d).BeforeThreadedGenerateData.GetDirection
      ∧ (analyticFilter.SetDirection d).BeforeThreadedGenerateData.GetDirection = d) :=
  ⟨⟨rfl, rfl⟩, ⟨rfl, rfl⟩, ⟨rfl, rfl⟩⟩

/-! ## The 1D FFT filters: the requested regions -/

section FFTRegions

variable {N : ℕ}

/-- The entries of the whole-line region, axis by axis. -/
theorem wholeLineRegion_axes (requested largest : ImageRegion N) (d : ℕ) (hd : d < N) :
    (∀ i : Fin N, i ≠ ⟨d, hd⟩ →
        (wholeLineRegion requested largest d).Index i = requested.Index i
        ∧ (wholeLineRegion requested largest d).Size i = requested.Size i)
    ∧ (wholeLineRegion requested largest d).Index ⟨d, hd⟩ = largest.Index ⟨d, hd⟩
    ∧ (wholeLineRegion requested largest d).Size ⟨d, hd⟩ = largest.Size ⟨d, hd⟩ := by
  refine ⟨fun i hi => ?_, ?_, ?_⟩
  · have hne : i.val ≠ d := fun h => hi (Fin.ext h)
    simp [wholeLineRegion, hne]
  · simp [wholeLineRegion]
  · simp [wholeLineRegion]

/-- A requested region inside the largest possible region lies inside its whole-line
region, which lies inside the largest possible region. -/
theorem wholeLineRegion_isWithin (requested largest : ImageRegion N) (d : ℕ)
    (h : requested.IsWithin largest) :
    requested.IsWithin (wholeLineRegion requested largest d)
    ∧ (wholeLineRegion requested largest d).IsWithin largest := by
  constructor
  · intro i
    have := h i
    by_cases hi : i.val = d <;> simp [wholeLineRegion, hi]
    omega
  · intro i
    have := h i
    by_cases hi : i.val = d <;> simp [wholeLineRegion, hi]
    omega

/-- A region inside another holds only pixels of the other. -/
theorem isContainedIn_of_isWithin (R other : ImageRegion N) (h : R.IsWithin other) :
    R.IsContainedIn other := by
  intro u hu i
  have := h i
  have := hu i
  constructor <;> omega

/-- Replacing the entries of an axis twice is replacing them once. -/
theorem wholeLineRegion_idem (requested largest : ImageRegion N) (d : ℕ) :
    wholeLineRegion (wholeLineRegion requested largest d) largest d
      = wholeLineRegion requested largest d := by
  unfold wholeLineRegion
  congr 1 <;> funext i <;> by_cases hi : i.val = d <;> simp [hi]

/-- The input that `FFT1DComplexToComplexImageFilter::GenerateInputRequestedRegion`
leaves behind. -/
theorem complexToComplex_input_requested_region
    (self : FFT1DComplexToComplexImageFilter N) (inp out : BlockMatching.ImageInformation N)
    (hi : self.Input = some inp) (ho : self.Output = some out) :
    (self.GenerateInputRequestedRegion).Input
      = some { inp with
          RequestedRegion :=
            wholeLineRegion out.RequestedRegion inp.LargestPossibleRegion self.m_Direction } := by
  unfold FFT1DComplexToComplexImageFilter.GenerateInputRequestedRegion
  rw [hi, ho]
  rfl

/-- The output that `FFT1DComplexToComplexImageFilter::EnlargeOutputRequestedRegion`
leaves behind. -/
theorem complexToComplex_enlarged_region
    (self : FFT1DComplexToComplexImageFilter N) (out : BlockMatching.ImageInformation N) :
    self.EnlargeOutputRequestedRegion out
      = { out with
          RequestedRegion :=
            wholeLineRegion out.RequestedRegion out.LargestPossibleRegion self.m_Direction } :=
  rfl

/-- The input that `Forward1DFFTImageFilter::GenerateInputRequestedRegion` leaves
behind. -/
theorem forward_input_requested_region
    (self : Forward1DFFTImageFilter N) (inp out : BlockMatching.ImageInformation N)
    (hi : self.Input = some inp) (ho : self.Output = some out) :
    (self.GenerateInputRequestedRegion).Input
      = some { inp with
          RequestedRegion :=
            wholeLineRegion out.RequestedRegion inp.LargestPossibleRegion self.m_Direction } := by
  unfold Forward1DFFTImageFilter.GenerateInputRequestedRegion
  rw [hi, ho]
  rfl

/-- The output that `Forward1DFFTImageFilter::EnlargeOutputRequestedRegion` leaves
behind. -/
theorem forward_enlarged_region
    (self : Forward1DFFTImageFilter N) (out : BlockMatching.ImageInformation N) :
    self.EnlargeOutputRequestedRegion out
      = { out with
          RequestedRegion :=
            wholeLineRegion out.RequestedRegion out.LargestPossibleRegion self.m_Direction } :=
  rfl

/-- The input that `AnalyticSignalImageFilter::GenerateInputRequestedRegion` leaves
behind. -/
theorem analyticSignal_input_requested_region
    (self : AnalyticSignalImageFilter N) (inp out : BlockMatching.ImageInformation N)
    (hi : self.Input = some inp) (ho : self.Output = some out) :
    (self.GenerateInputRequestedRegion).Input
      = some { inp with
          RequestedRegion :=
            wholeLineRegion out.RequestedRegion inp.LargestPossibleRegion self.GetDirection } := by
  unfold AnalyticSignalImageFilter.GenerateInputRequestedRegion
  rw [hi, ho]
  rfl

/-- The output that `AnalyticSignalImageFilter::EnlargeOutputRequestedRegion` leaves
behind. -/
theorem analyticSignal_enlarged_region
    (self : AnalyticSignalImageFilter N) (out : BlockMatching.ImageInformation N) :
    self.EnlargeOutputRequestedRegion out
      = { out with
          RequestedRegion :=
            wholeLineRegion out.RequestedRegion out.LargestPossibleRegion self.GetDirection } :=
  rfl

/-- C21: `GenerateInputRequestedRegion` of `FFT1DComplexToComplexImageFilter`,
`Forward1DFFTImageFilter` and `AnalyticSignalImageFilter`, with an input and an output
and a direction `d` that is an axis of the image: the input keeps its largest possible
region, and its requested region has on every axis other than `d` the start index and
the size of the output requested region and on the axis `d` the start index and the
size of the input's largest possible region. -/
theorem input_requested_region_is_whole_line (d : ℕ) (hd : d < N)
    (inp out : BlockMatching.ImageInformation N) :
    (∀ c : FFT1DComplexToComplexImageFilter N,
        c.Input = some inp → c.Output = some out → c.m_Direction = d →
        ∃ inp', (c.GenerateInputRequestedRegion).Input = some inp'
          ∧ inp'.LargestPossibleRegion = inp.LargestPossibleRegion
          ∧ (∀ i : Fin N, i ≠ ⟨d, hd⟩ →
              inp'.RequestedRegion.Index i = out.RequestedRegion.Index i
              ∧ inp'.RequestedRegion.Size i = out.RequestedRegion.Size i)
          ∧ inp'.RequestedRegion.Index ⟨d, hd⟩ = inp.LargestPossibleRegion.Index ⟨d, hd⟩
          ∧ inp'.RequestedRegion.Size ⟨d, hd⟩ = inp.LargestPossibleRegion.Size ⟨d, hd⟩)
    ∧ (∀ f : Forward1DFFTImageFilter N,
        f.Input = some inp → f.Output = some out → f.m_Direction = d →
        ∃ inp', (f.GenerateInputRequestedRegion).Input = some inp'
          ∧ inp'.LargestPossibleRegion = inp.LargestPossibleRegion
          ∧ (∀ i : Fin N, i ≠ ⟨d, hd⟩ →
              inp'.RequestedRegion.Index i = out.RequestedRegion.Index i
              ∧ inp'.RequestedRegion.Size i = out.RequestedRegion.Size i)
          ∧ inp'.RequestedRegion.Index ⟨d, hd⟩ = inp.LargestPossibleRegion.Index ⟨d, hd⟩
          ∧ inp'.RequestedRegion.Size ⟨d, hd⟩ = inp.LargestPossibleRegion.Size ⟨d, hd⟩)
    ∧ (∀ a : AnalyticSignalImageFilter N,
        a.Input = some inp → a.Output = some out → a.GetDirection = d →
        ∃ inp', (a.GenerateInputRequestedRegion).Input = some inp'
          ∧ inp'.LargestPossibleRegion = inp.LargestPossibleRegion
          ∧ (∀ i : Fin N, i ≠ ⟨d, hd⟩ →
              inp'.RequestedRegion.Index i = out.RequestedRegion.Index i
              ∧ inp'.RequestedRegion.Size i = out.RequestedRegion.Size i)
          ∧ inp'.RequestedRegion.Index ⟨d, hd⟩ = inp.LargestPossibleRegion.Index ⟨d, hd⟩
          ∧ inp'.RequestedRegion.Size ⟨d, hd⟩ = inp.LargestPossibleRegion.Size ⟨d, hd⟩) := by
  have haxes := wholeLineRegion_axes out.RequestedRegion inp.LargestPossibleRegion d hd
  refine ⟨fun c hi ho hdir => ?_, fun f hi ho hdir => ?_, fun a hi ho hdir => ?_⟩
  · refine ⟨_, complexToComplex_input_requested_region c inp out hi ho,
      rfl, ?_⟩
    rw [hdir]
    exact haxes
  · refine ⟨_, forward_input_requested_region f inp out hi ho,
      rfl, ?_⟩
    rw [hdir]
    exact haxes
  · refine ⟨_, analyticSignal_input_requested_region a inp out hi ho,
      rfl, ?_⟩
    rw [hdir]
    exact haxes

/-- C21 on the sample analytic signal filter along axis `1`: the block of `3 × 2` pixels
at `(2, 1)` requested of the output becomes a request for the `3 × 6` pixels at `(2, 0)`
of the input. -/
theorem input_requested_region_is_whole_line_witness :
    (1 : ℕ) < 2
    ∧ ∃ inp', (sampleAnalyticSignalFilter.GenerateInputRequestedRegion).Input = some inp'
        ∧ inp'.LargestPossibleRegion = wholeImage.LargestPossibleRegion
        ∧ (∀ i : Fin 2, i ≠ ⟨1, by decide⟩ →
            inp'.RequestedRegion.Index i = blockRequestImage.RequestedRegion.Index i
            ∧ inp'.RequestedRegion.Size i = blockRequestImage.RequestedRegion.Size i)
        ∧ inp'.RequestedRegion.Index ⟨1, by decide⟩
            = wholeImage.LargestPossibleRegion.Index ⟨1, by decide⟩
        ∧ inp'.RequestedRegion.Size ⟨1, by decide⟩
            = wholeImage.LargestPossibleRegion.Size ⟨1, by decide⟩ :=
  ⟨by decide,
   (input_requested_region_is_whole_line 1 (by decide) wholeImage blockRequestImage).2.2
     sampleAnalyticSignalFilter rfl rfl rfl⟩

/-- C22: `EnlargeOutputRequestedRegion` of the three 1D FFT filters, for a direction `d`
that is an axis of the image: the largest possible region of the output is kept; the new
requested region equals the old one on every axis other than `d` and the largest
possible region on the axis `d`; if the old requested region lies inside the largest
possible region, the new one contains it and lies inside the largest possible region;
and enlarging twice is enlarging once. -/
theorem enlarged_region_is_whole_line (d : ℕ) (hd : d < N)
    (out : BlockMatching.ImageInformation N) :
    (∀ c : FFT1DComplexToComplexImageFilter N, c.m_Direction = d →
        (c.EnlargeOutputRequestedRegion out).LargestPossibleRegion = out.LargestPossibleRegion
        ∧ (∀ i : Fin N, i ≠ ⟨d, hd⟩ →
            (c.EnlargeOutputRequestedRegion out).RequestedRegion.Index i
              = out.RequestedRegion.Index i
            ∧ (c.EnlargeOutputRequestedRegion out).RequestedRegion.Size i
              = out.RequestedRegion.Size i)
        ∧ (c.EnlargeOutputRequestedRegion out).RequestedRegion.Index ⟨d, hd⟩
            = out.LargestPossibleRegion.Index ⟨d, hd⟩
        ∧ (c.EnlargeOutputRequestedRegion out).RequestedRegion.Size ⟨d, hd⟩
            = out.LargestPossibleRegion.Size ⟨d, hd⟩
        ∧ (out.RequestedRegion.IsWithin out.LargestPossibleRegion →
            out.RequestedRegion.IsWithin (c.EnlargeOutputRequestedRegion out).RequestedRegion
            ∧ (c.EnlargeOutputRequestedRegion out).RequestedRegion.IsWithin
                out.LargestPossibleRegion
            ∧ out.RequestedRegion.IsContainedIn
                (c.EnlargeOutputRequestedRegion out).RequestedRegion
            ∧ (c.EnlargeOutputRequestedRegion out).RequestedRegion.IsContainedIn
                out.LargestPossibleRegion)
        ∧ c.EnlargeOutputRequestedRegion (c.EnlargeOutputRequestedRegion out)
            = c.EnlargeOutputRequestedRegion out)
    ∧ (∀ f : Forward1DFFTImageFilter N, f.m_Direction = d →
        (f.EnlargeOutputRequestedRegion out).LargestPossibleRegion = out.LargestPossibleRegion
        ∧ (∀ i : Fin N, i ≠ ⟨d, hd⟩ →
            (f.EnlargeOutputRequestedRegion out).RequestedRegion.Index i
              = out.RequestedRegion.Index i
            ∧ (f.EnlargeOutputRequestedRegion out).RequestedRegion.Size i
              = out.RequestedRegion.Size i)
        ∧ (f.EnlargeOutputRequestedRegion out).RequestedRegion.Index ⟨d, hd⟩
            = out.LargestPossibleRegion.Index ⟨d, hd⟩
        ∧ (f.EnlargeOutputRequestedRegion out).RequestedRegion.Size ⟨d, hd⟩
            = out.LargestPossibleRegion.Size ⟨d, hd⟩
        ∧ (out.RequestedRegion.IsWithin out.LargestPossibleRegion →
            out.RequestedRegion.IsWithin (f.EnlargeOutputRequestedRegion out).RequestedRegion
            ∧ (f.EnlargeOutputRequestedRegion out).RequestedRegion.IsWithin
                out.LargestPossibleRegion
            ∧ out.RequestedRegion.IsContainedIn
                (f.EnlargeOutputRequestedRegion out).RequestedRegion
            ∧ (f.EnlargeOutputRequestedRegion out).RequestedRegion.IsContainedIn
                out.LargestPossibleRegion)
        ∧ f.EnlargeOutputRequestedRegion (f.EnlargeOutputRequestedRegion out)
            = f.EnlargeOutputRequestedRegion out)
    ∧ (∀ a : AnalyticSignalImageFilter N, a.GetDirection = d →
        (a.EnlargeOutputRequestedRegion out).LargestPossibleRegion = out.LargestPossibleRegion
        ∧ (∀ i : Fin N, i ≠ ⟨d, hd⟩ →
            (a.EnlargeOutputRequestedRegion out).RequestedRegion.Index i
              = out.RequestedRegion.Index i
            ∧ (a.EnlargeOutputRequestedRegion out).RequestedRegion.Size i
              = out.RequestedRegion.Size i)
        ∧ (a.EnlargeOutputRequestedRegion out).RequestedRegion.Index ⟨d, hd⟩
            = out.LargestPossibleRegion.Index ⟨d, hd⟩
        ∧ (a.EnlargeOutputRequestedRegion out).RequestedRegion.Size ⟨d, hd⟩
            = out.LargestPossibleRegion.Size ⟨d, hd⟩
        ∧ (out.RequestedRegion.IsWithin out.LargestPossibleRegion →
            out.RequestedRegion.IsWithin (a.EnlargeOutputRequestedRegion out).RequestedRegion
            ∧ (a.EnlargeOutputRequestedRegion out).RequestedRegion.IsWithin
                out.LargestPossibleRegion
            ∧ out.RequestedRegion.IsContainedIn
                (a.EnlargeOutputRequestedRegion out).RequestedRegion
            ∧ (a.EnlargeOutputRequestedRegion out).RequestedRegion.IsContainedIn
                out.LargestPossibleRegion)
        ∧ a.EnlargeOutputRequestedRegion (a.EnlargeOutputRequestedRegion out)
            = a.EnlargeOutputRequestedRegion out) := by
  have haxes := wholeLineRegion_axes out.RequestedRegion out.LargestPossibleRegion d hd
  have hwithin := wholeLineRegion_isWithin out.RequestedRegion out.LargestPossibleRegion d
  have hidem := wholeLineRegion_idem out.RequestedRegion out.LargestPossibleRegion d
  refine ⟨fun c hdir => ?_, fun f hdir => ?_, fun a hdir => ?_⟩
  · have hidem' : c.EnlargeOutputRequestedRegion (c.EnlargeOutputRequestedRegion out)
        = c.EnlargeOutputRequestedRegion out := by
      simp only [complexToComplex_enlarged_region, hdir, hidem]
    rw [hidem', complexToComplex_enlarged_region, hdir]
    exact ⟨rfl, haxes.1, haxes.2.1, haxes.2.2,
      fun h => ⟨(hwithin h).1, (hwithin h).2,
        isContainedIn_of_isWithin _ _ (hwithin h).1,
        isContainedIn_of_isWithin _ _ (hwithin h).2⟩, rfl⟩
  · have hidem' : f.EnlargeOutputRequestedRegion (f.EnlargeOutputRequestedRegion out)
        = f.EnlargeOutputRequestedRegion out := by
      simp only [forward_enlarged_region, hdir, hidem]
    rw [hidem', forward_enlarged_region, hdir]
    exact ⟨rfl, haxes.1, haxes.2.1, haxes.2.2,
      fun h => ⟨(hwithin h).1, (hwithin h).2,
        isContainedIn_of_isWithin _ _ (hwithin h).1,
        isContainedIn_of_isWithin _ _ (hwithin h).2⟩, rfl⟩
  · have hidem' : a.EnlargeOutputRequestedRegion (a.EnlargeOutputRequestedRegion out)
        = a.EnlargeOutputRequestedRegion out := by
      simp only [analyticSignal_enlarged_region, hdir, hidem]
    rw [hidem', analyticSignal_enlarged_region, hdir]
    exact ⟨rfl, haxes.1, haxes.2.1, haxes.2.2,
      fun h => ⟨(hwithin h).1, (hwithin h).2,
        isContainedIn_of_isWithin _ _ (hwithin h).1,
        isContainedIn_of_isWithin _ _ (hwithin h).2⟩, rfl⟩

/-- C22 on the sample forward filter along axis `1`: the requested block at `(2, 1)` of
`3 × 2` pixels is enlarged to start at `0` along axis `1`. -/
theorem enlarged_region_is_whole_line_witness :
    (1 : ℕ) < 2
    ∧ (sampleForwardFilter.EnlargeOutputRequestedRegion blockRequestImage).RequestedRegion.Index
          ⟨1, by decide⟩
        = blockRequestImage.LargestPossibleRegion.Index ⟨1, by decide⟩ :=
  ⟨by decide,
   ((enlarged_region_is_whole_line 1 (by decide) blockRequestImage).2.1
      sampleForwardFilter rfl).2.2.1⟩

/-- C29: the three copies of the region logic agree.  For the same input, the same
output and the same direction `d`, an axis of the image,
`AnalyticSignalImageFilter`, `FFT1DComplexToComplexImageFilter` and
`Forward1DFFTImageFilter` leave the same input behind in `GenerateInputRequestedRegion`
and the same output in `EnlargeOutputRequestedRegion`; the requested regions they
compute are the output requested region with the entries of axis `d` replaced by those
of the largest possible region of the input, respectively of the output. -/
theorem region_logic_copies_agree (d : ℕ) (hd : d < N)
    (inp out : BlockMatching.ImageInformation N)
    (a : AnalyticSignalImageFilter N) (c : FFT1DComplexToComplexImageFilter N)
    (f : Forward1DFFTImageFilter N)
    (ha : a.GetDirection = d) (hc : c.m_Direction = d) (hf : f.m_Direction = d)
    (hai : a.Input = some inp) (hci : c.Input = some inp) (hfi : f.Input = some inp)
    (hao : a.Output = some out) (hco : c.Output = some out) (hfo : f.Output = some out) :
    (a.GenerateInputRequestedRegion).Input = (c.GenerateInputRequestedRegion).Input
    ∧ (c.GenerateInputRequestedRegion).Input = (f.GenerateInputRequestedRegion).Input
    ∧ (f.GenerateInputRequestedRegion).Input
        = some { inp with
            RequestedRegion :=
              wholeLineRegion out.RequestedRegion inp.LargestPossibleRegion d }
    ∧ a.EnlargeOutputRequestedRegion out = c.EnlargeOutputRequestedRegion out
    ∧ c.EnlargeOutputRequestedRegion out = f.EnlargeOutputRequestedRegion out
    ∧ f.EnlargeOutputRequestedRegion out
        = { out with
            RequestedRegion :=
              wholeLineRegion out.RequestedRegion out.LargestPossibleRegion d }
    ∧ (∀ largest : ImageRegion N,
        (∀ i : Fin N, i ≠ ⟨d, hd⟩ →
          (wholeLineRegion out.RequestedRegion largest d).Index i = out.RequestedRegion.Index i
          ∧ (wholeLineRegion out.RequestedRegion largest d).Size i
              = out.RequestedRegion.Size i)
        ∧ (wholeLineRegion out.RequestedRegion largest d).Index ⟨d, hd⟩ = largest.Index ⟨d, hd⟩
        ∧ (wholeLineRegion out.RequestedRegion largest d).Size ⟨d, hd⟩
            = largest.Size ⟨d, hd⟩) := by
  have h1 := analyticSignal_input_requested_region a inp out hai hao
  have h2 := complexToComplex_input_requested_region c inp out hci hco
  have h3 := forward_input_requested_region f inp out hfi hfo
  have e1 := analyticSignal_enlarged_region a out
  have e2 := complexToComplex_enlarged_region c out
  have e3 := forward_enlarged_region f out
  rw [ha] at h1 e1
  rw [hc] at h2 e2
  rw [hf] at h3 e3
  exact ⟨h1.trans h2.symm, h2.trans h3.symm, h3, e1.trans e2.symm, e2.trans e3.symm, e3,
    fun largest => wholeLineRegion_axes out.RequestedRegion largest d hd⟩

/-- C29 on the three sample filters along axis `1`. -/
theorem region_logic_copies_agree_witness :
    (1 : ℕ) < 2
    ∧ (sampleAnalyticSignalFilter.GenerateInputRequestedRegion).Input
        = (sampleComplexToComplexFilter.GenerateInputRequestedRegion).Input
    ∧ sampleAnalyticSignalFilter.EnlargeOutputRequestedRegion blockRequestImage
        = sampleComplexToComplexFilter.EnlargeOutputRequestedRegion blockRequestImage :=
  ⟨by decide,
   (region_logic_copies_agree 1 (by decide) wholeImage blockRequestImage
      sampleAnalyticSignalFilter sampleComplexToComplexFilter sampleForwardFilter
      rfl rfl rfl rfl rfl rfl rfl rfl rfl).1,
   (region_logic_copies_agree 1 (by decide) wholeImage blockRequestImage
      sampleAnalyticSignalFilter sampleComplexToComplexFilter sampleForwardFilter
      rfl rfl rfl rfl rfl rfl rfl rfl rfl).2.2.2.1⟩

end FFTRegions

/-! ## `AnalyticSignalImageFilter::ThreadedGenerateData`: the results -/

namespace AnalyticSignalImageFilter

variable {K : Type}

/-- The state after `m` rounds of `copyStep`. -/
theorem iterate_copyStep (L : ℕ) (X : ℕ → K) (f : K → K) (m : ℕ) (s : LineIterators K) :
    ((copyStep L X f)^[m] s).inputIt = s.inputIt + m
    ∧ ((copyStep L X f)^[m] s).outputIt = s.outputIt + m
    ∧ ((copyStep L X f)^[m] s).written = s.written + m
    ∧ (∀ k, ((copyStep L X f)^[m] s).outputLine k
        = if s.outputIt ≤ k ∧ k < s.outputIt + m then f (X (s.inputIt + (k - s.outputIt)))
          else s.outputLine k)
    ∧ ((copyStep L X f)^[m] s).beyond
        = (s.beyond || decide (0 < m ∧ (L < s.inputIt + m ∨ L < s.outputIt + m))) := by
  induction m with
  | zero =>
    refine ⟨by simp, by simp, by simp, fun k => ?_, by simp⟩
    have hc : ¬ (s.outputIt ≤ k ∧ k < s.outputIt + 0) := by omega
    rw [if_neg hc]
    rfl
  | succ m ih =>
    rw [Function.iterate_succ_apply']
    obtain ⟨h1, h2, h3, h4, h5⟩ := ih
    refine ⟨?_, ?_, ?_, ?_, ?_⟩
    · simp only [copyStep, h1]
      omega
    · simp only [copyStep, h2]
      omega
    · simp only [copyStep, h3]
      omega
    · intro k
      simp only [copyStep, Function.update_apply, h1, h2, h4]
      by_cases hk : k = s.outputIt + m
      · have hc : s.outputIt ≤ k ∧ k < s.outputIt + (m + 1) := by omega
        rw [if_pos hk, if_pos hc]
        congr 2
        omega
      · rw [if_neg hk]
        by_cases hc : s.outputIt ≤ k ∧ k < s.outputIt + m
        · have hc' : s.outputIt ≤ k ∧ k < s.outputIt + (m + 1) := by omega
          rw [if_pos hc, if_pos hc']
        · have hc' : ¬ (s.outputIt ≤ k ∧ k < s.outputIt + (m + 1)) := by omega
          rw [if_neg hc, if_neg hc']
    · simp only [copyStep, h1, h2, h5]
      cases s.beyond
      · simp only [Bool.false_or, ← Bool.decide_or, decide_eq_decide]
        omega
      · simp

/-- The state after the loop that zeroes the rest of the line. -/
theorem zeroFill_spec [Zero K] (L : ℕ) (s : LineIterators K) :
    (zeroFill L s).inputIt = s.inputIt
    ∧ (zeroFill L s).outputIt = max s.outputIt L
    ∧ (zeroFill L s).written = s.written + (L - s.outputIt)
    ∧ (∀ k, (zeroFill L s).outputLine k
        = if s.outputIt ≤ k ∧ k < L then 0 else s.outputLine k)
    ∧ (zeroFill L s).beyond = s.beyond := by
  generalize hd : L - s.outputIt = d
  induction d generalizing s with
  | zero =>
    have hlt : ¬ s.outputIt < L := by omega
    rw [zeroFill, dif_neg hlt]
    refine ⟨rfl, ?_, rfl, fun k => ?_, rfl⟩
    · omega
    · have hc : ¬ (s.outputIt ≤ k ∧ k < L) := by omega
      rw [if_neg hc]
  | succ d ih =>
    have hlt : s.outputIt < L := by omega
    rw [zeroFill, dif_pos hlt]
    have hd' : L - (zeroStep L s).outputIt = d := by
      simp only [zeroStep]
      omega
    obtain ⟨h1, h2, h3, h4, h5⟩ := ih (zeroStep L s) hd'
    refine ⟨?_, ?_, ?_, fun k => ?_, ?_⟩
    · rw [h1]
      rfl
    · rw [h2]
      simp only [zeroStep]
      omega
    · rw [h3]
      simp only [zeroStep]
      omega
    · rw [h4]
      simp only [zeroStep, Function.update_apply]
      by_cases hk : k = s.outputIt
      · have hc : s.outputIt ≤ k ∧ k < L := by omega
        have hc' : ¬ (s.outputIt + 1 ≤ k ∧ k < L) := by omega
        rw [if_neg hc', if_pos hk, if_pos hc]
      · by_cases hc : s.outputIt ≤ k ∧ k < L
        · have hc' : s.outputIt + 1 ≤ k ∧ k < L := by omega
          rw [if_pos hc', if_pos hc]
        · have hc' : ¬ (s.outputIt + 1 ≤ k ∧ k < L) := by omega
          rw [if_neg hc', if_neg hk, if_neg hc]
    · rw [h5]
      simp only [zeroStep]
      have : ¬ L ≤ s.outputIt := by omega
      simp [this]

/-- What the body of the line loop leaves behind, in terms of `dub_size` and `even`:
with `p` the number of terms copied or doubled, the offsets below `p` hold the DC
term, the doubled terms and, when `even`, the middle term; the offsets from `p` to the
end of the line hold zero; every other pixel is untouched. -/
theorem lineBody_spec [Semiring K] (inputSize L : ℕ) (X Y : ℕ → K) :
    (∀ k, (lineBody inputSize L X Y).outputLine k
        = if 1 + dub_size inputSize + (if even inputSize then 1 else 0) ≤ k ∧ k < L then 0
          else if even inputSize = true ∧ k = 1 + dub_size inputSize then X k
          else if 1 ≤ k ∧ k ≤ dub_size inputSize then X k * 2
          else if k = 0 then X 0
          else Y k)
    ∧ (lineBody inputSize L X Y).written
        = 1 + dub_size inputSize + (if even inputSize then 1 else 0)
          + (L - (1 + dub_size inputSize + (if even inputSize then 1 else 0)))
    ∧ (lineBody inputSize L X Y).beyond
        = decide (L < 1 + dub_size inputSize + (if even inputSize then 1 else 0))
    ∧ (lineBody inputSize L X Y).outputIt
        = max (1 + dub_size inputSize + (if even inputSize then 1 else 0)) L := by
  dsimp only [lineBody]
  generalize dub_size inputSize = d
  generalize hs1 : copyStep L X id
    { inputIt := 0, outputIt := 0, outputLine := Y, written := 0, beyond := false } = s1
  have a1 : s1.inputIt = 1 := by rw [← hs1]; rfl
  have a2 : s1.outputIt = 1 := by rw [← hs1]; rfl
  have a3 : s1.written = 1 := by rw [← hs1]; rfl
  have a4 : ∀ k, s1.outputLine k = if k = 0 then X 0 else Y k := by
    intro k
    rw [← hs1]
    simp [copyStep, Function.update_apply]
  have a5 : s1.beyond = decide (L ≤ 0) := by
    rw [← hs1]
    simp [copyStep]
  obtain ⟨i1, i2, i3, i4, i5⟩ := iterate_copyStep L X (fun v => v * 2) d s1
  rw [a1] at i1
  rw [a2] at i2
  rw [a3] at i3
  simp only [a1, a2, a4] at i4
  rw [a1, a2, a5] at i5
  generalize (copyStep L X fun v => v * 2)^[d] s1 = s2 at i1 i2 i3 i4 i5 ⊢
  cases he : even inputSize
  · simp only [Bool.false_eq_true, if_false, false_and, add_zero]
    obtain ⟨_, z2, z3, z4, z5⟩ := zeroFill_spec L s2
    refine ⟨fun k => ?_, ?_, ?_, ?_⟩
    · rw [z4, i2, i4]
      split_ifs <;>
        first
        | rfl
        | (exfalso; omega)
        | (congr 2; omega)
    · rw [z3, i3, i2]
    · rw [z5, i5]
      simp only [← Bool.decide_or, decide_eq_decide]
      omega
    · rw [z2, i2]
  · simp only [if_true, true_and]
    generalize hs3 : copyStep L X id s2 = s3
    have b2 : s3.outputIt = 1 + d + 1 := by rw [← hs3]; simp only [copyStep, i2]
    have b3 : s3.written = 1 + d + 1 := by rw [← hs3]; simp only [copyStep, i3]
    have b4 : ∀ k, s3.outputLine k = if k = 1 + d then X (1 + d) else s2.outputLine k := by
      intro k
      rw [← hs3]
      simp only [copyStep, Function.update_apply, i1, i2, id]
    have b5 : s3.beyond = (s2.beyond || decide (L ≤ 1 + d)) := by
      rw [← hs3]
      simp only [copyStep, i1, i2, Bool.or_assoc, Bool.or_self]
    obtain ⟨_, z2, z3, z4, z5⟩ := zeroFill_spec L s3
    refine ⟨fun k => ?_, ?_, ?_, ?_⟩
    · rw [z4, b2, b4, i4]
      split_ifs <;>
        first
        | rfl
        | (exfalso; omega)
        | (congr 2; omega)
    · rw [z3, b3, b2]
    · rw [z5, b5, i5]
      simp only [← Bool.decide_or, decide_eq_decide]
      omega
    · rw [z2, b2]

/-- `ThreadedGenerateData` runs the body of the line loop on the line. -/
theorem ThreadedGenerateData_eq [Semiring K] {ι : Type} (inputSize lineLength : ℕ)
    (input output : ι → ℕ → K) (line : ι) :
    ThreadedGenerateData inputSize lineLength input output line
      = lineBody inputSize lineLength (input line) (output line) := rfl

/-- The multiplier is the value written on a line of ones. -/
theorem multiplier_eq (inputSize lineLength k : ℕ) :
    multiplier inputSize lineLength k
      = (lineBody inputSize lineLength (fun _ => (1 : ℕ)) fun _ => 0).outputLine k := rfl

/-- For a size `n` with `1 ≤ n ≤ 2 ^ 32 - 2` the narrowing keeps the size and the
unsigned arithmetic does not wrap. -/
theorem dub_size_of_small (n : ℕ) (h1 : 1 ≤ n) (h2 : n + 1 < 2 ^ 32) :
    size n = n
    ∧ even n = decide (n % 2 = 0)
    ∧ dub_size n = (if n % 2 = 0 then n / 2 - 1 else (n - 1) / 2)
    ∧ 1 + dub_size n + (if even n then 1 else 0) ≤ n := by
  have hs : size n = n := by
    unfold size toUInt
    apply Nat.mod_eq_of_lt
    omega
  have he : even n = decide (n % 2 = 0) := by
    unfold even
    rw [hs]
  have hd : dub_size n = (if n % 2 = 0 then n / 2 - 1 else (n - 1) / 2) := by
    unfold dub_size
    rw [hs]
    unfold toUInt
    by_cases hp : n % 2 = 0
    · rw [if_pos hp, if_pos hp]
      omega
    · rw [if_neg hp, if_neg hp]
      omega
  refine ⟨hs, he, hd, ?_⟩
  by_cases hp : n % 2 = 0
  · have het : even n = true := by
      rw [he]
      exact decide_eq_true hp
    rw [hd, het, if_pos hp, if_pos rfl]
    omega
  · have hef : even n = false := by
      rw [he]
      exact decide_eq_false hp
    rw [hd, hef, if_neg hp, if_neg Bool.false_ne_true]
    omega

/-- The line written for a size `n` with `1 ≤ n ≤ 2 ^ 32 - 2`, the lines being `n`
pixels long. -/
theorem lineBody_small [Semiring K] (n : ℕ) (h1 : 1 ≤ n) (h2 : n + 1 < 2 ^ 32)
    (X Y : ℕ → K) :
    (∀ k, (lineBody n n X Y).outputLine k
        = if k = 0 then X 0
          else if k ≤ (if n % 2 = 0 then n / 2 - 1 else (n - 1) / 2) then X k * 2
          else if n % 2 = 0 ∧ k = n / 2 then X k
          else if k < n then 0
          else Y k)
    ∧ (lineBody n n X Y).written = n
    ∧ (lineBody n n X Y).beyond = false
    ∧ (lineBody n n X Y).outputIt = n := by
  obtain ⟨_, he, hd, hp⟩ := dub_size_of_small n h1 h2
  obtain ⟨l, w, b, o⟩ := lineBody_spec n n X Y
  refine ⟨fun k => ?_, ?_, ?_, ?_⟩
  · rw [l]
    by_cases hpar : n % 2 = 0
    · have het : even n = true := by
        rw [he]
        exact decide_eq_true hpar
      have hdv : dub_size n = n / 2 - 1 := by rw [hd, if_pos hpar]
      simp only [het, hdv, if_pos hpar, true_and, if_true]
      clear hp l w b o hd hdv
      split_ifs <;>
        first
        | rfl
        | (exfalso; omega)
    · have hef : even n = false := by
        rw [he]
        exact decide_eq_false hpar
      have hdv : dub_size n = (n - 1) / 2 := by rw [hd, if_neg hpar]
      simp only [hef, hdv, if_neg hpar, false_and, Bool.false_eq_true, if_false]
      clear hp l w b o hd hdv
      split_ifs <;>
        first
        | rfl
        | (exfalso; omega)
  · rw [w]
    omega
  · rw [b]
    exact decide_eq_false (by omega)
  · rw [o]
    exact max_eq_right hp

/-- Within the range of `unsigned int`: for a line of `n` pixels along the transform
direction with `1 ≤ n ≤ 2 ^ 32 - 2` and forward-transform values `X = input line`, the
line written
is `Y 0 = X 0`; `Y k = 2 * X k` for `1 ≤ k ≤ dub`, where `dub = n / 2 - 1` for an even
`n` and `(n - 1) / 2` for an odd one; `Y (n / 2) = X (n / 2)` for an even `n`; and
`Y k = 0` for every other `k < n`.  The pixels from offset `n` on are untouched, `Set`
has been called exactly `n` times, no `Get` or `Set` has taken place at an offset
outside the line, and the output iterator stands at the end of the line. -/
theorem spectrum_weighting [Semiring K] {ι : Type} (n : ℕ) (h1 : 1 ≤ n)
    (h2 : n + 1 < 2 ^ 32) (input output : ι → ℕ → K) (line : ι) :
    (ThreadedGenerateData n n input output line).outputLine 0 = input line 0
    ∧ (∀ k, 1 ≤ k → k ≤ (if n % 2 = 0 then n / 2 - 1 else (n - 1) / 2) →
        (ThreadedGenerateData n n input output line).outputLine k = 2 * input line k)
    ∧ (n % 2 = 0 →
        (ThreadedGenerateData n n input output line).outputLine (n / 2) = input line (n / 2))
    ∧ (∀ k, (if n % 2 = 0 then n / 2 - 1 else (n - 1) / 2) < k → k < n →
        ¬ (n % 2 = 0 ∧ k = n / 2) →
        (ThreadedGenerateData n n input output line).outputLine k = 0)
    ∧ (∀ k, n ≤ k →
        (ThreadedGenerateData n n input output line).outputLine k = output line k)
    ∧ (ThreadedGenerateData n n input output line).written = n
    ∧ (ThreadedGenerateData n n input output line).beyond = false
    ∧ (ThreadedGenerateData n n input output line).outputIt = n := by
  obtain ⟨l, w, b, o⟩ := lineBody_small n h1 h2 (input line) (output line)
  rw [ThreadedGenerateData_eq]
  refine ⟨?_, fun k hk1 hk2 => ?_, fun hpar => ?_, fun k hk1 hk2 hk3 => ?_, fun k hk => ?_,
    w, b, o⟩
  · rw [l, if_pos rfl]
  · have c0 : ¬ k = 0 := by omega
    rw [l, if_neg c0, if_pos hk2, mul_two, two_mul]
  · have c0 : ¬ n / 2 = 0 := by omega
    have c1 : ¬ n / 2 ≤ (if n % 2 = 0 then n / 2 - 1 else (n - 1) / 2) := by
      rw [if_pos hpar]
      omega
    rw [l, if_neg c0, if_neg c1, if_pos ⟨hpar, rfl⟩]
  · have c0 : ¬ k = 0 := by omega
    have c1 : ¬ k ≤ (if n % 2 = 0 then n / 2 - 1 else (n - 1) / 2) := by omega
    rw [l, if_neg c0, if_neg c1, if_neg hk3, if_pos hk2]
  · have c0 : ¬ k = 0 := by omega
    have c1 : ¬ k ≤ (if n % 2 = 0 then n / 2 - 1 else (n - 1) / 2) := by
      split_ifs <;> omega
    have c2 : ¬ (n % 2 = 0 ∧ k = n / 2) := by omega
    have c3 : ¬ k < n := by omega
    rw [l, if_neg c0, if_neg c1, if_neg c2, if_neg c3]

/-- The statement on a line of four pixels with values `3, 5, 7, 11`: the pixel at
offset `1` is doubled. -/
theorem spectrum_weighting_witness :
    1 ≤ 4 ∧ 4 + 1 < 2 ^ 32
    ∧ (ThreadedGenerateData 4 4 (fun (_ : Unit) (k : ℕ) =>
          ((if k = 0 then 3 else if k = 1 then 5 else if k = 2 then 7 else 11) : ℤ))
        (fun _ _ => 9) ()).outputLine 1 = 2 * 5 :=
  ⟨by decide, by decide,
   (spectrum_weighting 4 (by decide) (by decide)
      (fun (_ : Unit) (k : ℕ) => ((if k = 0 then 3 else if k = 1 then 5 else if k = 2 then 7 else 11) : ℤ))
      (fun _ _ => 9) ()).2.1 1 (by decide) (by decide)⟩

/-- The narrowed size and the number of doubled terms for a line of `2 ^ 32 + 1`
pixels. -/
theorem dub_size_long : even (2 ^ 32 + 1) = false ∧ dub_size (2 ^ 32 + 1) = 0 := by
  constructor
  · simp [even, size, toUInt]
  · simp [dub_size, size, toUInt]

/-- The narrowed size and the number of doubled terms for a line of `2 ^ 32 - 1`
pixels. -/
theorem dub_size_wrap : even (2 ^ 32 - 1) = false ∧ dub_size (2 ^ 32 - 1) = 2 ^ 32 - 1 := by
  constructor
  · simp [even, size, toUInt]
  · simp [dub_size, size, toUInt]

/-- When the narrowed size is odd and `dub_size` is `0`, every pixel of the line after
the first is written `0`. -/
theorem lineBody_of_dub_size_zero [Semiring K] (n L : ℕ) (he : even n = false)
    (hd : dub_size n = 0) (X Y : ℕ → K) (k : ℕ) (hk1 : 1 ≤ k) (hk2 : k < L) :
    (lineBody n L X Y).outputLine k = 0 := by
  rw [(lineBody_spec n L X Y).1 k, he, hd]
  have c : 1 + 0 + (if false = true then 1 else 0) ≤ k ∧ k < L := by
    constructor
    · rw [if_neg Bool.false_ne_true]
      omega
    · exact hk2
  rw [if_pos c]

/-- When the narrowed size is odd and `dub_size` is the length of the line, the last
pixel of the line is doubled, `Set` is called once more than the line has pixels, and
a pixel beyond the line is accessed. -/
theorem lineBody_of_dub_size_wrapped [Semiring K] (n L : ℕ) (he : even n = false)
    (hd : dub_size n = L) (hL : 2 ≤ L) (X Y : ℕ → K) :
    (lineBody n L X Y).outputLine (L - 1) = X (L - 1) * 2
    ∧ (lineBody n L X Y).written = L + 1
    ∧ (lineBody n L X Y).beyond = true := by
  obtain ⟨l, w, b, _⟩ := lineBody_spec n L X Y
  rw [he, hd, if_neg Bool.false_ne_true] at l w b
  refine ⟨?_, ?_, ?_⟩
  · have c1 : ¬ (1 + L + 0 ≤ L - 1 ∧ L - 1 < L) := by omega
    have c2 : ¬ (false = true ∧ L - 1 = 1 + L) := by simp
    have c3 : 1 ≤ L - 1 ∧ L - 1 ≤ L := by omega
    rw [l, if_neg c1, if_neg c2, if_pos c3]
  · rw [w]
    omega
  · rw [b]
    exact decide_eq_true (by omega)

/-- C23: the code at two failing inputs.  On a line of `2 ^ 32 + 1` pixels of value `1`
the size is narrowed to `1` by `const unsigned int size`, no term is doubled, and the
pixel at offset `1` is written `0`, not `2 * 1` (the offset `1` is at most
`dub = 2 ^ 31`).  On a line of `2 ^ 32 - 1` pixels of value `1` the sum `size + 1` wraps
to `0` and `dub_size` to `2 ^ 32 - 1`: the last pixel of the line is written `1 * 2`,
not `0`, `Set` is called `2 ^ 32` times, and the last call takes place beyond the
line. -/
theorem narrowed_size_defect :
    (ThreadedGenerateData (2 ^ 32 + 1) (2 ^ 32 + 1) (fun (_ : Unit) _ => (1 : ℤ))
        (fun _ _ => 0) ()).outputLine 1 = 0
    ∧ 1 ≤ (if (2 ^ 32 + 1) % 2 = 0 then (2 ^ 32 + 1) / 2 - 1 else (2 ^ 32 + 1 - 1) / 2)
    ∧ (ThreadedGenerateData (2 ^ 32 - 1) (2 ^ 32 - 1) (fun (_ : Unit) _ => (1 : ℤ))
        (fun _ _ => 0) ()).outputLine (2 ^ 32 - 1 - 1) = 1 * 2
    ∧ (if (2 ^ 32 - 1) % 2 = 0 then (2 ^ 32 - 1) / 2 - 1 else (2 ^ 32 - 1 - 1) / 2)
        < 2 ^ 32 - 1 - 1
    ∧ (ThreadedGenerateData (2 ^ 32 - 1) (2 ^ 32 - 1) (fun (_ : Unit) _ => (1 : ℤ))
        (fun _ _ => 0) ()).written = 2 ^ 32 - 1 + 1
    ∧ (ThreadedGenerateData (2 ^ 32 - 1) (2 ^ 32 - 1) (fun (_ : Unit) _ => (1 : ℤ))
        (fun _ _ => 0) ()).beyond = true := by
  obtain ⟨he1, hd1⟩ := dub_size_long
  obtain ⟨he2, hd2⟩ := dub_size_wrap
  have h := lineBody_of_dub_size_wrapped (2 ^ 32 - 1) (2 ^ 32 - 1) he2 hd2 (by norm_num)
    (fun _ => (1 : ℤ)) (fun _ => 0)
  rw [ThreadedGenerateData_eq, ThreadedGenerateData_eq]
  exact ⟨lineBody_of_dub_size_zero (2 ^ 32 + 1) (2 ^ 32 + 1) he1 hd1 _ _ 1 (le_refl 1)
      (by norm_num),
    by norm_num, h.1, by norm_num, h.2.1, h.2.2⟩

/-- The multiplier at each offset of a line of `n` pixels, `1 ≤ n ≤ 2 ^ 32 - 2`. -/
theorem multiplier_small (n : ℕ) (h1 : 1 ≤ n) (h2 : n + 1 < 2 ^ 32) (k : ℕ) :
    multiplier n n k
      = if k = 0 then 1
        else if k ≤ (if n % 2 = 0 then n / 2 - 1 else (n - 1) / 2) then 2
        else if n % 2 = 0 ∧ k = n / 2 then 1
        else 0 := by
  rw [multiplier_eq, (lineBody_small n h1 h2 (fun _ => (1 : ℕ)) fun _ => 0).1 k]
  split_ifs <;> rfl

/-- The multipliers of a line of `n` pixels sum to `1 + 2 * dub + 1` for an even `n`
and to `1 + 2 * dub` for an odd one. -/
theorem sum_multiplier_small (n : ℕ) (h1 : 1 ≤ n) (h2 : n + 1 < 2 ^ 32) :
    ∑ k in Finset.range n, multiplier n n k = n := by
  have hw : ∀ k ∈ Finset.range n, multiplier n n k
      = (if k = 0 then 1 else 0)
        + ((if k ∈ Finset.Icc 1 (if n % 2 = 0 then n / 2 - 1 else (n - 1) / 2) then 2 else 0)
        + (if k = n / 2 then (if n % 2 = 0 then 1 else 0) else 0)) := by
    intro k _
    rw [multiplier_small n h1 h2 k]
    simp only [Finset.mem_Icc]
    by_cases hpar : n % 2 = 0
    · simp only [if_pos hpar, hpar, true_and]
      split_ifs <;> first | rfl | (exfalso; omega)
    · simp only [if_neg hpar, hpar, false_and, if_false]
      split_ifs <;> first | rfl | (exfalso; omega)
  rw [Finset.sum_congr rfl hw, Finset.sum_add_distrib, Finset.sum_add_distrib,
    Finset.sum_ite_eq', Finset.sum_ite_eq', Finset.sum_ite_mem, Finset.sum_const,
    smul_eq_mul]
  have h0 : 0 ∈ Finset.range n := Finset.mem_range.2 (by omega)
  have hm : n / 2 ∈ Finset.range n := Finset.mem_range.2 (by omega)
  have hI : Finset.range n ∩ Finset.Icc 1 (if n % 2 = 0 then n / 2 - 1 else (n - 1) / 2)
      = Finset.Icc 1 (if n % 2 = 0 then n / 2 - 1 else (n - 1) / 2) := by
    apply Finset.inter_eq_right.2
    intro k hk
    rw [Finset.mem_Icc] at hk
    rw [Finset.mem_range]
    split_ifs at hk <;> omega
  rw [if_pos h0, if_pos hm, hI, Nat.card_Icc]
  split_ifs <;> omega

/-- Within the range of `unsigned int`: for a line of `n` pixels with
`1 ≤ n ≤ 2 ^ 32 - 2`, the value written at every offset `k < n` is the input value times the multiplier of the offset;
the multipliers are `1` at offset `0`, `2` at the offsets `1 ≤ k ≤ dub`, `1` at offset
`n / 2` for an even `n` and `0` elsewhere (`dub = n / 2 - 1` for an even `n` and
`(n - 1) / 2` for an odd one); and they sum to exactly `n`. -/
theorem multipliers_sum_to_line_length (n : ℕ) (h1 : 1 ≤ n) (h2 : n + 1 < 2 ^ 32) :
    (∀ (K : Type) [Semiring K] (input output : ℕ → K) (k : ℕ), k < n →
        (lineBody n n input output).outputLine k = input k * (multiplier n n k : K))
    ∧ multiplier n n 0 = 1
    ∧ (∀ k, 1 ≤ k → k ≤ (if n % 2 = 0 then n / 2 - 1 else (n - 1) / 2) →
        multiplier n n k = 2)
    ∧ (n % 2 = 0 → multiplier n n (n / 2) = 1)
    ∧ (∀ k, (if n % 2 = 0 then n / 2 - 1 else (n - 1) / 2) < k →
        ¬ (n % 2 = 0 ∧ k = n / 2) → multiplier n n k = 0)
    ∧ ∑ k in Finset.range n, multiplier n n k = n := by
  refine ⟨fun K _ input output k hk => ?_, ?_, fun k hk1 hk2 => ?_, fun hpar => ?_,
    fun k hk1 hk2 => ?_, sum_multiplier_small n h1 h2⟩
  · rw [(lineBody_small n h1 h2 input output).1 k, multiplier_small n h1 h2 k]
    by_cases hk0 : k = 0
    · subst hk0
      rw [if_pos rfl, if_pos rfl]
      simp
    · rw [if_neg hk0, if_neg hk0]
      split_ifs <;> simp
  · rw [multiplier_small n h1 h2 0, if_pos rfl]
  · have c0 : ¬ k = 0 := by omega
    rw [multiplier_small n h1 h2 k, if_neg c0, if_pos hk2]
  · have c0 : ¬ n / 2 = 0 := by omega
    have c1 : ¬ n / 2 ≤ (if n % 2 = 0 then n / 2 - 1 else (n - 1) / 2) := by
      rw [if_pos hpar]
      omega
    rw [multiplier_small n h1 h2 (n / 2), if_neg c0, if_neg c1, if_pos ⟨hpar, rfl⟩]
  · have c0 : ¬ k = 0 := by omega
    have c1 : ¬ k ≤ (if n % 2 = 0 then n / 2 - 1 else (n - 1) / 2) := by omega
    rw [multiplier_small n h1 h2 k, if_neg c0, if_neg c1, if_neg hk2]

/-- The statement on lines of four and of five pixels. -/
theorem multipliers_sum_to_line_length_witness :
    (1 ≤ 4 ∧ 4 + 1 < 2 ^ 32 ∧ ∑ k in Finset.range 4, multiplier 4 4 k = 4)
    ∧ (1 ≤ 5 ∧ 5 + 1 < 2 ^ 32 ∧ ∑ k in Finset.range 5, multiplier 5 5 k = 5) :=
  ⟨⟨by decide, by decide,
    (multipliers_sum_to_line_length 4 (by decide) (by decide)).2.2.2.2.2⟩,
   ⟨by decide, by decide,
    (multipliers_sum_to_line_length 5 (by decide) (by decide)).2.2.2.2.2⟩⟩

/-- C24: the code at a failing input.  On a line of `2 ^ 32 + 1` pixels the size is
narrowed to `1` by `const unsigned int size`, the multiplier is `1` at offset `0` and `0`
at every other offset of the line, and the multipliers sum to `1`, not to
`2 ^ 32 + 1`. -/
theorem multipliers_sum_defect :
    ∑ k in Finset.range (2 ^ 32 + 1), multiplier (2 ^ 32 + 1) (2 ^ 32 + 1) k = 1
    ∧ (1 : ℕ) ≠ 2 ^ 32 + 1 := by
  obtain ⟨he, hd⟩ := dub_size_long
  refine ⟨?_, by norm_num⟩
  have h0 : multiplier (2 ^ 32 + 1) (2 ^ 32 + 1) 0 = 1 := by
    rw [multiplier_eq,
      (lineBody_spec (2 ^ 32 + 1) (2 ^ 32 + 1) (fun _ => (1 : ℕ)) fun _ => 0).1 0, he, hd]
    have c1 : ¬ (1 + 0 + (if false = true then 1 else 0) ≤ 0 ∧ 0 < 2 ^ 32 + 1) := by
      intro h
      exact absurd h.1 (by simp)
    have c2 : ¬ (false = true ∧ 0 = 1 + 0) := by simp
    have c3 : ¬ (1 ≤ 0 ∧ 0 ≤ 0) := by simp
    rw [if_neg c1, if_neg c2, if_neg c3, if_pos rfl]
  have hk : ∀ k ∈ Finset.range (2 ^ 32 + 1), k ≠ 0 →
      multiplier (2 ^ 32 + 1) (2 ^ 32 + 1) k = 0 := by
    intro k hk hk0
    rw [Finset.mem_range] at hk
    rw [multiplier_eq]
    exact lineBody_of_dub_size_zero (2 ^ 32 + 1) (2 ^ 32 + 1) he hd _ _ k
      (Nat.one_le_iff_ne_zero.2 hk0) hk
  rw [Finset.sum_eq_single_of_mem 0 (Finset.mem_range.2 (by norm_num)) hk, h0]

end AnalyticSignalImageFilter

/-! ## The radicand of the box statistics -/

section RadicandResults

variable {n : ℕ}

end RadicandResults

namespace BlockMatching

/-! ## Level transitions: what an error leaves behind -/

namespace MultiResolutionIterationDisplacementCalculatorCommand

/-- C28: `Execute` is atomic on error and only reads the level.  It raises exactly when
one of the two calculators is unset, and then it leaves the command, with the objects
it points to, as it was: the calculator of the registration method, the regularizer,
its displacement calculator and its maximum number of iterations are unchanged.  In
every run the current level and the number of levels of the multi-resolution method
are unchanged. -/
theorem execute_atomic_on_error (self : MultiResolutionIterationDisplacementCalculatorCommand) :
    ((Execute self).raised ≠ none
        ↔ self.m_Level0ToNMinus1DisplacementCalculator = none
          ∨ self.m_LevelNDisplacementCalculator = none)
    ∧ ((Execute self).raised ≠ none →
        (Execute self).state = self
        ∧ (Execute self).state.m_MultiResolutionMethod.m_ImageRegistrationMethod
            = self.m_MultiResolutionMethod.m_ImageRegistrationMethod
        ∧ (Execute self).state.m_Regularizer = self.m_Regularizer)
    ∧ (Execute self).state.m_MultiResolutionMethod.m_CurrentLevel
        = self.m_MultiResolutionMethod.m_CurrentLevel
    ∧ (Execute self).state.m_MultiResolutionMethod.m_NumberOfLevels
        = self.m_MultiResolutionMethod.m_NumberOfLevels := by
  unfold Execute
  by_cases h0 : self.m_Level0ToNMinus1DisplacementCalculator = none
  · simp [h0]
  · by_cases hN : self.m_LevelNDisplacementCalculator = none
    · simp [h0, hN]
    · cases hr : self.m_Regularizer with
      | none =>
        by_cases hl : self.atLastLevel = true
        · simp [h0, hN, hl, SetMetricImageToDisplacementCalculator]
        · simp [h0, hN, hl, SetMetricImageToDisplacementCalculator]
      | some regularizer =>
        by_cases hl : self.atLastLevel = true
        · simp [h0, hN, hl]
        · simp [h0, hN, hl]

/-- C28 on the sample command with its terminal calculator taken away: the call raises
and the command is as before. -/
theorem execute_atomic_on_error_witness :
    (Execute { sampleCommand with m_LevelNDisplacementCalculator := none }).raised ≠ none
    ∧ (Execute { sampleCommand with m_LevelNDisplacementCalculator := none }).state
        = { sampleCommand with m_LevelNDisplacementCalculator := none } :=
  ⟨by decide,
   ((execute_atomic_on_error
      { sampleCommand with m_LevelNDisplacementCalculator := none }).2.1 (by decide)).1⟩

end MultiResolutionIterationDisplacementCalculatorCommand

/-! ## `MetricImageFilter`: the stored fixed region and the enlarged output region -/

namespace MetricImageFilter

variable {N : ℕ}

/-- Overlapping regions can be cropped, and the cropped region has at least one pixel
along every axis. -/
theorem crop_of_overlaps (R other : ImageRegion N) (h : R.Overlaps other) :
    R.cropPossible other = true
    ∧ (R.Crop other).1 = true
    ∧ ∀ i, 1 ≤ (R.Crop other).2.Size i := by
  obtain ⟨u, hu1, hu2⟩ := h
  have hposs : R.cropPossible other = true := by
    rw [cropPossible_iff]
    intro i
    have := hu1 i
    have := hu2 i
    constructor <;> omega
  refine ⟨hposs, by rw [crop_fst]; exact hposs, fun i => ?_⟩
  have hin := (crop_isInside_iff R other hposs u).2 ⟨hu1, hu2⟩
  have := hin i
  omega

/-- C26: with the fixed image set, for every requested region that overlaps the largest
possible region of the fixed image (sizes being `unsigned long` values, below
`2 ^ 64`): the stored fixed region starts where the cropped region starts, its size is
at least `1` on every axis, namely the cropped size or, when that is even, one less (the
decrement does not wrap), and all its pixels lie in the requested region and in the
largest possible region of the fixed image. -/
theorem stored_fixed_region_contained (self : MetricImageFilter N) (region : ImageRegion N)
    (fixedPtr : ImageInformation N) (hfixed : self.FixedImage = some fixedPtr)
    (hsize : ∀ i, region.Size i < 2 ^ 64)
    (hov : region.Overlaps fixedPtr.LargestPossibleRegion) :
    (SetFixedImageRegion self region).state.m_FixedImageRegion.Index
        = (region.Crop fixedPtr.LargestPossibleRegion).2.Index
    ∧ (∀ i, 1 ≤ (SetFixedImageRegion self region).state.m_FixedImageRegion.Size i
        ∧ (SetFixedImageRegion self region).state.m_FixedImageRegion.Size i
            ≤ (region.Crop fixedPtr.LargestPossibleRegion).2.Size i
        ∧ (region.Crop fixedPtr.LargestPossibleRegion).2.Size i
            ≤ (SetFixedImageRegion self region).state.m_FixedImageRegion.Size i + 1)
    ∧ (SetFixedImageRegion self region).state.m_FixedImageRegion.IsContainedIn region
    ∧ (SetFixedImageRegion self region).state.m_FixedImageRegion.IsContainedIn
        fixedPtr.LargestPossibleRegion := by
  obtain ⟨hposs, hc, hpos⟩ := crop_of_overlaps region fixedPtr.LargestPossibleRegion hov
  have hstored := ((SetFixedImageRegion_cases self region fixedPtr hfixed).2 hc).2.1
  have hfacts : ∀ i,
      1 ≤ fixedSize (region.Crop fixedPtr.LargestPossibleRegion).2 i
      ∧ fixedSize (region.Crop fixedPtr.LargestPossibleRegion).2 i
          ≤ (region.Crop fixedPtr.LargestPossibleRegion).2.Size i
      ∧ (region.Crop fixedPtr.LargestPossibleRegion).2.Size i
          ≤ fixedSize (region.Crop fixedPtr.LargestPossibleRegion).2 i + 1 := by
    intro i
    have hlt : (region.Crop fixedPtr.LargestPossibleRegion).2.Size i < 2 ^ 64 :=
      lt_of_le_of_lt (crop_size_le region fixedPtr.LargestPossibleRegion i) (hsize i)
    have h1 := hpos i
    obtain ⟨_, _, _, hodd, heven⟩ := fixedSize_facts _ hlt
    unfold fixedSize
    by_cases hpar : (region.Crop fixedPtr.LargestPossibleRegion).2.Size i % 2 = 0
    · have := heven hpar h1
      omega
    · have := hodd (by omega)
      omega
  have hsub : ∀ u, (SetFixedImageRegion self region).state.m_FixedImageRegion.IsInside u →
      region.IsInside u ∧ fixedPtr.LargestPossibleRegion.IsInside u := by
    intro u hu
    apply (crop_isInside_iff region fixedPtr.LargestPossibleRegion hposs u).1
    intro i
    have h1 := hu i
    rw [hstored] at h1
    have := (hfacts i).2.1
    dsimp only at h1
    constructor <;> omega
  rw [hstored]
  refine ⟨rfl, hfacts, fun u hu => ?_, fun u hu => ?_⟩
  · rw [← hstored] at hu
    exact (hsub u hu).1
  · rw [← hstored] at hu
    exact (hsub u hu).2

/-- C26 on the ten-pixel image: the requested region `[-2, 3]` overlaps the image in
`[0, 3]`, and the stored region has at least one pixel. -/
theorem stored_fixed_region_contained_witness :
    ({ Index := ![-2], Size := ![6] } : ImageRegion 1).Overlaps
        tenPixelImage.LargestPossibleRegion
    ∧ 1 ≤ (SetFixedImageRegion freshFilter
        { Index := ![-2], Size := ![6] }).state.m_FixedImageRegion.Size 0 :=
  ⟨⟨![0], by decide, by decide⟩,
   ((stored_fixed_region_contained freshFilter { Index := ![-2], Size := ![6] }
      tenPixelImage rfl (by intro i; simp) ⟨![0], by decide, by decide⟩).2.1 0).1⟩

/-- C27: `SetFixedImageRegion` is not atomic on the missing-moving-image error.  With
the fixed image set, the requested region overlapping its largest possible region and
the moving image unset, the call raises the error that names the moving image; the
fixed region (the cropped region made odd), `m_FixedRadius` and the flag
`m_FixedImageRegionDefined`, now true, have been written; `m_MovingRadius`, the search
window and its flag are as before. -/
theorem not_atomic_on_missing_moving_image (self : MetricImageFilter N)
    (region : ImageRegion N) (fixedPtr : ImageInformation N)
    (hfixed : self.FixedImage = some fixedPtr) (hmoving : self.MovingImage = none)
    (hov : region.Overlaps fixedPtr.LargestPossibleRegion) :
    (SetFixedImageRegion self region).raised
        = some "The MovingImage must be set before specifying the fixed image region."
    ∧ (SetFixedImageRegion self region).state.m_FixedImageRegion
        = { Index := (region.Crop fixedPtr.LargestPossibleRegion).2.Index
            Size := fixedSize (region.Crop fixedPtr.LargestPossibleRegion).2 }
    ∧ (SetFixedImageRegion self region).state.m_FixedRadius
        = FixedRadius (region.Crop fixedPtr.LargestPossibleRegion).2
    ∧ (SetFixedImageRegion self region).state.m_FixedImageRegionDefined = true
    ∧ (SetFixedImageRegion self region).state.m_MovingRadius = self.m_MovingRadius
    ∧ (SetFixedImageRegion self region).state.m_MovingImageRegion = self.m_MovingImageRegion
    ∧ (SetFixedImageRegion self region).state.m_MovingImageRegionDefined
        = self.m_MovingImageRegionDefined := by
  obtain ⟨_, hc, _⟩ := crop_of_overlaps region fixedPtr.LargestPossibleRegion hov
  obtain ⟨hraised, hregion, hradius, hflag⟩ :=
    (SetFixedImageRegion_cases self region fixedPtr hfixed).2 hc
  obtain ⟨_, _, _, hwindow, hwflag⟩ := SetFixedImageRegion_frame self region
  refine ⟨?_, hregion, hradius, hflag, ?_, hwindow, hwflag⟩
  · rw [hraised]
    simp [hmoving]
  · unfold SetFixedImageRegion
    simp [hfixed, hmoving, hc]

/-- C27 on the fresh filter with its moving image taken away and the flag still false:
the call raises and the flag is true afterwards. -/
theorem not_atomic_on_missing_moving_image_witness :
    ({ Index := ![2], Size := ![5] } : ImageRegion 1).Overlaps
        tenPixelImage.LargestPossibleRegion
    ∧ ({ freshFilter with MovingImage := none } : MetricImageFilter 1).m_FixedImageRegionDefined
        = false
    ∧ (SetFixedImageRegion { freshFilter with MovingImage := none }
        { Index := ![2], Size := ![5] }).raised
        = some "The MovingImage must be set before specifying the fixed image region."
    ∧ (SetFixedImageRegion { freshFilter with MovingImage := none }
        { Index := ![2], Size := ![5] }).state.m_FixedImageRegionDefined = true :=
  ⟨⟨![2], by decide, by decide⟩, rfl,
   (not_atomic_on_missing_moving_image { freshFilter with MovingImage := none }
      { Index := ![2], Size := ![5] } tenPixelImage rfl rfl
      ⟨![2], by decide, by decide⟩).1,
   (not_atomic_on_missing_moving_image { freshFilter with MovingImage := none }
      { Index := ![2], Size := ![5] } tenPixelImage rfl rfl
      ⟨![2], by decide, by decide⟩).2.2.2.1⟩

/-- C30: `EnlargeOutputRequestedRegion`, whatever the implementation of the superclass
does to the image first and whatever region was requested of the output: afterwards the
requested region of the output is its largest possible region.  On the output that
`GenerateOutputInformation` describes this is the whole search window: start index `0`
on every axis and the size of the moving image region. -/
theorem enlarged_output_is_largest_possible_region
    (superclass : ImageInformation N → ImageInformation N) (data : ImageInformation N) :
    (EnlargeOutputRequestedRegion superclass data).RequestedRegion
        = (EnlargeOutputRequestedRegion superclass data).LargestPossibleRegion
    ∧ (EnlargeOutputRequestedRegion superclass data).LargestPossibleRegion
        = (superclass data).LargestPossibleRegion
    ∧ (EnlargeOutputRequestedRegion id data).RequestedRegion = data.LargestPossibleRegion
    ∧ (∀ (self : MetricImageFilter N) (movingPtr outputPtr described : ImageInformation N),
        self.MovingImage = some movingPtr → self.Output = some outputPtr →
        self.m_MovingImageRegionDefined = true →
        (GenerateOutputInformation self).state.Output = some described →
        (∀ requested : ImageRegion N,
          (EnlargeOutputRequestedRegion id
              { described with RequestedRegion := requested }).RequestedRegion
            = { Index := fun _ => 0, Size := self.m_MovingImageRegion.Size })) := by
  refine ⟨rfl, rfl, rfl, ?_⟩
  intro self movingPtr outputPtr described hm ho hdef hdesc requested
  unfold GenerateOutputInformation at hdesc
  simp only [hm, ho, hdef] at hdesc
  simp at hdesc
  subst hdesc
  rfl

end MetricImageFilter

end BlockMatching

end itk
